import Mathlib

/-!
# Convention controller (`server/controllers/conventionController.js`)

A shallow embedding of the convention request handlers and of the JavaScript
object operations they rely on (`Object.keys`, `Object.assign`, `!==`,
property reads and writes), followed by theorems about them.

Documents and request bodies are JavaScript objects; they are embedded as
association lists from property names to values, read with first-match
lookup. The store is keyed by document identifier.
-/

namespace ApiWeb

/-! ## JavaScript values -/

/-- The JavaScript values that occur in request bodies (parsed JSON) and in
stored documents. `date`, `arr` and `obj` are objects; the others are
primitives. Numbers are restricted to integers. -/
inductive JsValue where
  | undefined : JsValue
  | null : JsValue
  | bool (b : Bool) : JsValue
  | num (n : Int) : JsValue
  | str (s : String) : JsValue
  | date (ms : Int) : JsValue
  | arr (items : List JsValue) : JsValue
  | obj (props : List (String × JsValue)) : JsValue

/-- A JavaScript object seen as its list of own properties. -/
abbrev Props := List (String × JsValue)

/-- Property read `o[k]`: the value of the first property named `k`, or
`undefined` when there is none. -/
def getProp (o : Props) (k : String) : JsValue :=
  match o with
  | [] => JsValue.undefined
  | (k', v) :: rest => if k' = k then v else getProp rest k

/-- Property write `o[k] = v`: overwrites the property in place when it
exists, otherwise adds it after the existing ones. -/
def setProp (o : Props) (k : String) (v : JsValue) : Props :=
  match o with
  | [] => [(k, v)]
  | (k', v') :: rest => if k' = k then (k, v) :: rest else (k', v') :: setProp rest k v

/-- Whether `k` is an own property of `o` (`k in o` for plain objects). -/
def hasProp (o : Props) (k : String) : Bool :=
  match o with
  | [] => false
  | (k', _) :: rest => if k' = k then true else hasProp rest k

/-- The names of the own properties of an object, each once, in order of
first occurrence (`Object.keys`; field names are not integer-like, so
insertion order is the order of enumeration). -/
def objectKeys (o : Props) : List String :=
  match o with
  | [] => []
  | (k, _) :: rest => k :: (objectKeys rest).filter (fun k' => decide (k' ≠ k))

/-- Strict equality `a === b` between a value read from a stored document and
a value of a freshly parsed request body. Primitives of the same type compare
by value. Objects (dates, arrays, plain objects) compare by identity, and an
object of a freshly parsed body is never the object held by a document, so
the comparison is `false` as soon as one side is an object. -/
def strictEq (a b : JsValue) : Bool :=
  match a, b with
  | JsValue.undefined, JsValue.undefined => true
  | JsValue.null, JsValue.null => true
  | JsValue.bool x, JsValue.bool y => x == y
  | JsValue.num x, JsValue.num y => x == y
  | JsValue.str x, JsValue.str y => x == y
  | _, _ => false

/-- Whether a value is a primitive (not a date, array or plain object). -/
def isPrimitive (v : JsValue) : Bool :=
  match v with
  | JsValue.date _ => false
  | JsValue.arr _ => false
  | JsValue.obj _ => false
  | _ => true

/-- The call `Object.assign(target, source)`: every own property of `source` is written
to `target`, in key order. -/
def objectAssign (target source : Props) : Props :=
  (objectKeys source).foldl (fun t key => setProp t key (getProp source key)) target

/-- The `{from, to}` pair recorded for a changed field. -/
def fromTo (old new : JsValue) : JsValue :=
  JsValue.obj [("from", old), ("to", new)]

/-- The diff loop of `updateConvention`:
`Object.keys(updateData).forEach(key => { if (convention[key] !== updateData[key]) changes[key] = {from: convention[key], to: updateData[key]} })`
starting from `changes = {}`. -/
def computeChanges (convention updateData : Props) : Props :=
  (objectKeys updateData).foldl
    (fun changes key =>
      if strictEq (getProp convention key) (getProp updateData key) then changes
      else setProp changes key (fromTo (getProp convention key) (getProp updateData key)))
    []

/-- The items of an array value; a value that is not an array has none. -/
def listOf (v : JsValue) : List JsValue :=
  match v with
  | JsValue.arr items => items
  | _ => []

/-- The properties of an object value; a value that is not a plain object has
none. -/
def propsOf (v : JsValue) : Props :=
  match v with
  | JsValue.obj props => props
  | _ => []

/-- The audit trail `convention.history`. -/
def historyOf (convention : Props) : List JsValue :=
  listOf (getProp convention "history")

/-- The document references `convention.documents`. -/
def documentsOf (convention : Props) : List JsValue :=
  listOf (getProp convention "documents")

/-- The nested field `convention.metadata.lastModifiedBy`. -/
def lastModifiedByOf (convention : Props) : JsValue :=
  getProp (propsOf (getProp convention "metadata")) "lastModifiedBy"

/-- The nested field `convention.metadata.createdBy`. -/
def createdByOf (convention : Props) : JsValue :=
  getProp (propsOf (getProp convention "metadata")) "createdBy"

/-! ## The Convention model

`models/Convention.js` is not among the sources; what the controller calls on
it is described by the specification (sections 3, 4.1 and 9). -/

/-- One audit record: `{action, userId, changes, timestamp}`. -/
def historyEntry (action : String) (userId changes : JsValue) (now : Int) : JsValue :=
  JsValue.obj [("action", JsValue.str action), ("userId", userId), ("changes", changes),
    ("timestamp", JsValue.date now)]

/-- Modelled from the spec: the method `addHistoryEntry` of the Convention
model is missing. Section 4.1: "appendEntry(convention, action, userId,
changes) -> void. Pure append", mutating the in-memory `history` sequence,
with the entry's timestamp "recorded at append time". -/
def addHistoryEntry (convention : Props) (action : String) (userId changes : JsValue)
    (now : Int) : Props :=
  setProp convention "history"
    (JsValue.arr (historyOf convention ++ [historyEntry action userId changes now]))

/-- Modelled from the spec: the constructor `new Convention(fields)` of the
missing model. The entity gets its generated identifier and the given fields;
its `documents`, `indicators` and `history` sequences start empty. -/
def newConvention (id : String) (fields : Props) : Props :=
  (("_id", JsValue.str id) :: fields) ++
    [("documents", JsValue.arr []), ("indicators", JsValue.arr []), ("history", JsValue.arr [])]

/-- Modelled from the spec: the save hook of the missing Convention model.
Section 9 describes `_lastModifiedBy` as a transient property "set ... before
save" that carries the acting user, and sections 3 and 4.2 say every mutation
updates `metadata.lastModifiedBy`: on save, a set `_lastModifiedBy` is copied
into `metadata.lastModifiedBy`. -/
def preSave (convention : Props) : Props :=
  match getProp convention "_lastModifiedBy" with
  | JsValue.undefined => convention
  | u =>
    setProp convention "metadata"
      (JsValue.obj (setProp (propsOf (getProp convention "metadata")) "lastModifiedBy" u))

/-! ## Requests, responses and the store -/

/-- An HTTP response: status code and JSON body. -/
structure Response where
  status : Nat
  body : JsValue

/-- What a handler reads of the request: `req.params`, `req.body` and
`req.user._id`. -/
structure Request where
  params : Props
  body : Props
  userId : JsValue

/-- A collection of documents, keyed by identifier. -/
abbrev Collection := List (String × Props)

/-- The persistent store. -/
structure Db where
  conventions : Collection
  enterprises : Collection
  users : Collection
  indicators : Collection
  documents : Collection

/-- What the handlers take from their environment: the clock, the identifier
generated for a new document, whether the lookup rejects (with which
message), whether saving a document rejects (validation or persistence
failure, with which message), and the filter of the static
`Convention.findActiveForEnterprise`, which belongs to the missing model. -/
structure Env where
  now : Int
  newId : String
  lookupError : Option String
  saveError : Props → Option String
  activeFilter : Props → Bool

/-- The lookup `Model.findById(id)`: the document stored under `id`, with its
key, or nothing. -/
def findById (coll : Collection) (id : JsValue) : Option (String × Props) :=
  match id with
  | JsValue.str s => coll.find? (fun entry => entry.1 == s)
  | _ => none

/-- Replaces the document stored under `key`. -/
def replaceDoc (coll : Collection) (key : String) (doc : Props) : Collection :=
  coll.map (fun entry => if entry.1 == key then (entry.1, doc) else entry)

/-- The call `convention.save()` on a loaded document: rejects with the
environment's error, or runs the save hook and stores the document under the
identifier it was loaded with. Returns the document as saved and the new
collection. -/
def save (env : Env) (coll : Collection) (key : String) (convention : Props) :
    Except String (Props × Collection) :=
  match env.saveError convention with
  | some e => Except.error e
  | none => Except.ok (preSave convention, replaceDoc coll key (preSave convention))

/-- The call `convention.save()` on a newly constructed document: as `save`,
but the document is added to the collection. -/
def saveNew (env : Env) (coll : Collection) (key : String) (convention : Props) :
    Except String (Props × Collection) :=
  match env.saveError convention with
  | some e => Except.error e
  | none => Except.ok (preSave convention, coll ++ [(key, preSave convention)])

/-- The body `{ message }` of an error response. -/
def messageBody (msg : String) : JsValue :=
  JsValue.obj [("message", JsValue.str msg)]

/-- The response `res.status(404).json({ message })`. -/
def notFound (msg : String) : Response :=
  { status := 404, body := messageBody msg }

/-- The response of the `catch` branch: `res.status(500).json({ message: error.message })`. -/
def serverError (msg : String) : Response :=
  { status := 500, body := messageBody msg }

/-- The response `res.json(value)`, with the default status 200. -/
def okJson (value : JsValue) : Response :=
  { status := 200, body := value }

/-- Whether a stored reference matches the identifier given in a query
filter (`Model.find({ field: id })`): identifiers match by value. -/
def refMatches (stored id : JsValue) : Bool :=
  match stored, id with
  | JsValue.str a, JsValue.str b => a == b
  | _, _ => false

/-- Resolution of one reference by `populate`: the referenced document,
restricted to `_id` and the selected fields when a selection is given, or
nothing when the reference does not resolve. -/
def populateRef (coll : Collection) (select : Option (List String)) (ref : JsValue) :
    Option JsValue :=
  match findById coll ref with
  | none => none
  | some (_, doc) =>
    match select with
    | none => some (JsValue.obj doc)
    | some fields =>
      some (JsValue.obj (("_id" :: fields).filterMap
        (fun f => if hasProp doc f then some (f, getProp doc f) else none)))

/-- Population of an array path: each reference is replaced by its document;
references that do not resolve are left out. -/
def populateList (coll : Collection) (select : Option (List String)) (refs : List JsValue) :
    List JsValue :=
  refs.filterMap (populateRef coll select)

/-- Population of `history.userId` with `name email`: the `userId` of every
entry becomes the user's projection, or `null` when the user is missing. -/
def populateHistory (users : Collection) (history : List JsValue) : List JsValue :=
  history.map (fun entry =>
    JsValue.obj (setProp (propsOf entry) "userId"
      (match populateRef users (some ["name", "email"]) (getProp (propsOf entry) "userId") with
       | some u => u
       | none => JsValue.null)))

/-- The number a value converts to in an arithmetic expression, for the values
a date path holds: a date is its epoch milliseconds, `null` is 0, and
`undefined` (like anything that is not a number) gives no number (`NaN`). -/
def toNumber (v : JsValue) : Option Int :=
  match v with
  | JsValue.date ms => some ms
  | JsValue.num n => some n
  | JsValue.null => some 0
  | _ => none

/-- Ceiling of `x / d` for a positive `d` (`Math.ceil(x / d)`). -/
def ceilDiv (x d : Int) : Int :=
  -((-x) / d)

/-- Milliseconds in a day: `1000 * 60 * 60 * 24`. -/
def msPerDay : Int := 1000 * 60 * 60 * 24

/-- The expression `Math.ceil((convention.endDate - new Date()) / (1000 * 60 * 60 * 24))`;
a `NaN` result is serialised as `null`. -/
def daysRemaining (endDate : JsValue) (now : Int) : JsValue :=
  match toNumber endDate with
  | some e => JsValue.num (ceilDiv (e - now) msPerDay)
  | none => JsValue.null

/-- The time of creation `createdAt` of a document, in epoch milliseconds. -/
def createdAtOf (doc : Props) : Int :=
  match getProp doc "createdAt" with
  | JsValue.date ms => ms
  | _ => 0

/-- The populations `.populate('indicators').populate('documents')` of the two
listing handlers. -/
def populateConvention (db : Db) (convention : Props) : Props :=
  setProp
    (setProp convention "indicators"
      (JsValue.arr (populateList db.indicators none (listOf (getProp convention "indicators")))))
    "documents"
    (JsValue.arr (populateList db.documents none (documentsOf convention)))

/-! ## The handlers of `conventionController.js` -/

/-- The handler `exports.createConvention`. -/
def createConvention (env : Env) (db : Db) (req : Request) : Response × Db :=
  let enterpriseId := getProp req.body "enterpriseId"
  let signedDate := getProp req.body "signedDate"
  let startDate := getProp req.body "startDate"
  let endDate := getProp req.body "endDate"
  let type := getProp req.body "type"
  let advantages := getProp req.body "advantages"
  let obligations := getProp req.body "obligations"
  match env.lookupError with
  | some e => (serverError e, db)
  | none =>
    match findById db.enterprises enterpriseId with
    | none => (notFound "Enterprise not found", db)
    | some _ =>
      let convention := newConvention env.newId
        [("enterpriseId", enterpriseId), ("signedDate", signedDate), ("startDate", startDate),
         ("endDate", endDate), ("type", type), ("advantages", advantages),
         ("obligations", obligations),
         ("metadata", JsValue.obj [("createdBy", req.userId), ("lastModifiedBy", req.userId)])]
      let convention := setProp convention "_lastModifiedBy" req.userId
      let convention :=
        addHistoryEntry convention "CREATED" req.userId (JsValue.obj [("type", type)]) env.now
      match saveNew env db.conventions env.newId convention with
      | Except.error e => (serverError e, db)
      | Except.ok (saved, conventions) =>
        ({ status := 201, body := JsValue.obj saved }, { db with conventions := conventions })

/-- The handler `exports.getConventionsByEnterprise`. -/
def getConventionsByEnterprise (env : Env) (db : Db) (req : Request) : Response × Db :=
  let enterpriseId := getProp req.params "enterpriseId"
  match env.lookupError with
  | some e => (serverError e, db)
  | none =>
    let conventions := (db.conventions.map Prod.snd).filter
      (fun c => refMatches (getProp c "enterpriseId") enterpriseId)
    let conventions := conventions.map (populateConvention db)
    let conventions := conventions.insertionSort (fun a b => createdAtOf b ≤ createdAtOf a)
    (okJson (JsValue.arr (conventions.map JsValue.obj)), db)

/-- The handler `exports.getActiveConventions`. -/
def getActiveConventions (env : Env) (db : Db) (req : Request) : Response × Db :=
  let enterpriseId := getProp req.params "enterpriseId"
  match env.lookupError with
  | some e => (serverError e, db)
  | none =>
    let conventions := (db.conventions.map Prod.snd).filter
      (fun c => refMatches (getProp c "enterpriseId") enterpriseId && env.activeFilter c)
    let conventions := conventions.map (populateConvention db)
    (okJson (JsValue.arr (conventions.map JsValue.obj)), db)

/-- The handler `exports.updateConvention`. -/
def updateConvention (env : Env) (db : Db) (req : Request) : Response × Db :=
  let id := getProp req.params "id"
  let updateData := req.body
  match env.lookupError with
  | some e => (serverError e, db)
  | none =>
    match findById db.conventions id with
    | none => (notFound "Convention not found", db)
    | some (key, convention) =>
      let changes := computeChanges convention updateData
      let convention := setProp convention "_lastModifiedBy" req.userId
      let convention :=
        addHistoryEntry convention "UPDATED" req.userId (JsValue.obj changes) env.now
      let convention := objectAssign (objectAssign convention updateData)
        [("metadata.lastModifiedBy", req.userId)]
      match save env db.conventions key convention with
      | Except.error e => (serverError e, db)
      | Except.ok (saved, conventions) =>
        (okJson (JsValue.obj saved), { db with conventions := conventions })

/-- The handler `exports.updateConventionStatus`. -/
def updateConventionStatus (env : Env) (db : Db) (req : Request) : Response × Db :=
  let id := getProp req.params "id"
  let status := getProp req.body "status"
  match env.lookupError with
  | some e => (serverError e, db)
  | none =>
    match findById db.conventions id with
    | none => (notFound "Convention not found", db)
    | some (key, convention) =>
      let oldStatus := getProp convention "status"
      let convention := setProp convention "status" status
      let convention := setProp convention "_lastModifiedBy" req.userId
      let convention := addHistoryEntry convention "STATUS_CHANGED" req.userId
        (JsValue.obj [("from", oldStatus), ("to", status)]) env.now
      match save env db.conventions key convention with
      | Except.error e => (serverError e, db)
      | Except.ok (saved, conventions) =>
        (okJson (JsValue.obj saved), { db with conventions := conventions })

/-- The handler `exports.addDocumentToConvention`. -/
def addDocumentToConvention (env : Env) (db : Db) (req : Request) : Response × Db :=
  let id := getProp req.params "id"
  let documentId := getProp req.body "documentId"
  match env.lookupError with
  | some e => (serverError e, db)
  | none =>
    match findById db.conventions id with
    | none => (notFound "Convention not found", db)
    | some (key, convention) =>
      let convention :=
        setProp convention "documents" (JsValue.arr (documentsOf convention ++ [documentId]))
      let convention := setProp convention "_lastModifiedBy" req.userId
      let convention := addHistoryEntry convention "DOCUMENT_ADDED" req.userId
        (JsValue.obj [("documentId", documentId)]) env.now
      match save env db.conventions key convention with
      | Except.error e => (serverError e, db)
      | Except.ok (saved, conventions) =>
        (okJson (JsValue.obj saved), { db with conventions := conventions })

/-- The handler `exports.getConventionHistory`. -/
def getConventionHistory (env : Env) (db : Db) (req : Request) : Response × Db :=
  let id := getProp req.params "id"
  match env.lookupError with
  | some e => (serverError e, db)
  | none =>
    match findById db.conventions id with
    | none => (notFound "Convention not found", db)
    | some (_, convention) =>
      (okJson (JsValue.arr (populateHistory db.users (historyOf convention))), db)

/-- The handler `exports.getConventionSummary`. -/
def getConventionSummary (env : Env) (db : Db) (req : Request) : Response × Db :=
  let id := getProp req.params "id"
  match env.lookupError with
  | some e => (serverError e, db)
  | none =>
    match findById db.conventions id with
    | none => (notFound "Convention not found", db)
    | some (_, convention) =>
      let indicators := populateList db.indicators
        (some ["name", "currentValue", "targetValue", "status"])
        (listOf (getProp convention "indicators"))
      let documents := populateList db.documents (some ["name", "status", "uploadedAt"])
        (documentsOf convention)
      let summary : Props :=
        [("id", getProp convention "_id"),
         ("type", getProp convention "type"),
         ("status", getProp convention "status"),
         ("progress", JsValue.obj
           [("documentsSubmitted", JsValue.num documents.length),
            ("indicatorsOnTrack", JsValue.num
              (indicators.filter
                (fun i => strictEq (getProp (propsOf i) "status") (JsValue.str "ON_TRACK"))).length),
            ("totalIndicators", JsValue.num indicators.length)]),
         ("startDate", getProp convention "startDate"),
         ("endDate", getProp convention "endDate"),
         ("daysRemaining", daysRemaining (getProp convention "endDate") env.now)]
      (okJson (JsValue.obj summary), db)

/-! ## The in-memory mutations and sequences of requests -/

/-- The document `updateConvention` hands to `save`: the loaded convention after
the `_lastModifiedBy` write, the UPDATED entry and the two `Object.assign`
sources. -/
def updateMutation (convention updateData : Props) (userId : JsValue) (now : Int) : Props :=
  objectAssign
    (objectAssign
      (addHistoryEntry (setProp convention "_lastModifiedBy" userId) "UPDATED" userId
        (JsValue.obj (computeChanges convention updateData)) now)
      updateData)
    [("metadata.lastModifiedBy", userId)]

/-- The document `createConvention` hands to `save`: the constructed convention
after the `_lastModifiedBy` write and the CREATED entry. -/
def createMutation (id : String) (body : Props) (userId : JsValue) (now : Int) : Props :=
  addHistoryEntry
    (setProp
      (newConvention id
        [("enterpriseId", getProp body "enterpriseId"),
         ("signedDate", getProp body "signedDate"),
         ("startDate", getProp body "startDate"),
         ("endDate", getProp body "endDate"),
         ("type", getProp body "type"),
         ("advantages", getProp body "advantages"),
         ("obligations", getProp body "obligations"),
         ("metadata", JsValue.obj [("createdBy", userId), ("lastModifiedBy", userId)])])
      "_lastModifiedBy" userId)
    "CREATED" userId (JsValue.obj [("type", getProp body "type")]) now

/-- The document `updateConventionStatus` hands to `save`. -/
def statusMutation (convention : Props) (status userId : JsValue) (now : Int) : Props :=
  addHistoryEntry
    (setProp (setProp convention "status" status) "_lastModifiedBy" userId)
    "STATUS_CHANGED" userId
    (JsValue.obj [("from", getProp convention "status"), ("to", status)]) now

/-- The document `addDocumentToConvention` hands to `save`. -/
def documentMutation (convention : Props) (documentId userId : JsValue) (now : Int) : Props :=
  addHistoryEntry
    (setProp
      (setProp convention "documents" (JsValue.arr (documentsOf convention ++ [documentId])))
      "_lastModifiedBy" userId)
    "DOCUMENT_ADDED" userId (JsValue.obj [("documentId", documentId)]) now

/-- The three mutating operations on an existing convention. -/
inductive Operation where
  | update : Operation
  | updateStatus : Operation
  | addDocument : Operation

/-- One request of a sequence: the operation, the request and the environment
it runs in. -/
structure Step where
  env : Env
  op : Operation
  req : Request

/-- Dispatch of one request to its handler. -/
def runStep (db : Db) (s : Step) : Response × Db :=
  match s.op with
  | Operation.update => updateConvention s.env db s.req
  | Operation.updateStatus => updateConventionStatus s.env db s.req
  | Operation.addDocument => addDocumentToConvention s.env db s.req

/-- The store after a sequence of requests, each run on the store left by the
previous one. -/
def run (db : Db) (steps : List Step) : Db :=
  match steps with
  | [] => db
  | s :: rest => run (runStep db s).2 rest

/-- Whether a request addressed to the convention `key` succeeds (status 200)
on the store `db`. -/
def succeedsOn (key : String) (db : Db) (s : Step) : Bool :=
  (runStep db s).1.status == 200 && refMatches (getProp s.req.params "id") (JsValue.str key)

/-- The number of requests of a sequence that are addressed to the convention
`key` and succeed. -/
def countSucceeded (key : String) (db : Db) (steps : List Step) : Nat :=
  match steps with
  | [] => 0
  | s :: rest =>
    (if succeedsOn key db s then 1 else 0) + countSucceeded key (runStep db s).2 rest

/-- Whether a request is an Update whose body has the key `history`. -/
def submitsHistory (s : Step) : Bool :=
  match s.op with
  | Operation.update => hasProp s.req.body "history"
  | _ => false

/-! ## A sample store -/

/-- An environment in which neither the lookup nor the save fails. -/
def sampleEnv : Env :=
  { now := 1700000000000, newId := "c2", lookupError := none,
    saveError := fun _ => none, activeFilter := fun _ => true }

/-- A stored convention, as left by a Create of user `u1`. -/
def sampleConvention : Props :=
  [("_id", JsValue.str "c1"), ("enterpriseId", JsValue.str "e1"),
   ("startDate", JsValue.date 1690000000000), ("endDate", JsValue.date 1790000000000),
   ("type", JsValue.str "ANNUAL"), ("advantages", JsValue.arr [JsValue.str "tax relief"]),
   ("status", JsValue.str "DRAFT"),
   ("metadata", JsValue.obj [("createdBy", JsValue.str "u1"), ("lastModifiedBy", JsValue.str "u1")]),
   ("documents", JsValue.arr [JsValue.str "d1"]), ("indicators", JsValue.arr []),
   ("history", JsValue.arr
     [historyEntry "CREATED" (JsValue.str "u1") (JsValue.obj [("type", JsValue.str "ANNUAL")])
       1690000000000])]

/-- A store holding the sample convention and its enterprise. -/
def sampleDb : Db :=
  { conventions := [("c1", sampleConvention)], enterprises := [("e1", [("name", JsValue.str "Acme")])],
    users := [], indicators := [], documents := [] }

/-- A request of user `u2` on the sample convention with the given body. -/
def sampleRequest (body : Props) : Request :=
  { params := [("id", JsValue.str "c1")], body := body, userId := JsValue.str "u2" }

/-- A store for the summary: the convention `c5` references three documents
and three indicators, two of which are on track. -/
def summaryDb : Db :=
  { conventions :=
      [("c5", [("_id", JsValue.str "c5"), ("type", JsValue.str "ANNUAL"),
        ("status", JsValue.str "ACTIVE"),
        ("startDate", JsValue.date 1690000000000), ("endDate", JsValue.date 1700864000000),
        ("documents", JsValue.arr [JsValue.str "d1", JsValue.str "d2", JsValue.str "d3"]),
        ("indicators", JsValue.arr [JsValue.str "i1", JsValue.str "i2", JsValue.str "i3"]),
        ("history", JsValue.arr [])])],
    enterprises := [], users := [],
    indicators :=
      [("i1", [("_id", JsValue.str "i1"), ("status", JsValue.str "ON_TRACK")]),
       ("i2", [("_id", JsValue.str "i2"), ("status", JsValue.str "ON_TRACK")]),
       ("i3", [("_id", JsValue.str "i3"), ("status", JsValue.str "LATE")])],
    documents :=
      [("d1", [("_id", JsValue.str "d1"), ("name", JsValue.str "statutes")]),
       ("d2", [("_id", JsValue.str "d2"), ("name", JsValue.str "report")]),
       ("d3", [("_id", JsValue.str "d3"), ("name", JsValue.str "audit")])] }

/-- The indicators of a convention as the summary sees them: populated with
`name currentValue targetValue status`. -/
def summaryIndicators (db : Db) (convention : Props) : List JsValue :=
  populateList db.indicators (some ["name", "currentValue", "targetValue", "status"])
    (listOf (getProp convention "indicators"))

/-- The documents of a convention as the summary sees them: populated with
`name status uploadedAt`. -/
def summaryDocuments (db : Db) (convention : Props) : List JsValue :=
  populateList db.documents (some ["name", "status", "uploadedAt"]) (documentsOf convention)

/-- The object `progress` of the summary response. -/
def progressOf (r : Response) : Props :=
  propsOf (getProp (propsOf r.body) "progress")

/-- Whether a request is an Update whose body has the key `documents`. -/
def submitsDocuments (s : Step) : Bool :=
  match s.op with
  | Operation.update => hasProp s.req.body "documents"
  | _ => false

/-! ## The authentication middleware (`middleware/auth.js`) -/

/-- What `proteger` takes from its environment: the outcome of
`jwt.verify(token, process.env.JWT_SECRET)`, the decoded payload or nothing
when it throws, and whether `User.findById` rejects. -/
structure AuthEnv where
  verify : String → Option Props
  userLookupFails : Bool

/-- The pieces of a string between single spaces (`s.split(' ')`). -/
def splitOnSpace (cs : List Char) : List (List Char) :=
  match cs with
  | [] => [[]]
  | c :: rest =>
    if c = ' ' then [] :: splitOnSpace rest
    else
      match splitOnSpace rest with
      | [] => [[c]]
      | w :: ws => (c :: w) :: ws

/-- The variable `token` of `proteger`: `authorization.split(' ')[1]` when the
header is present and starts with 'Bearer', and undefined otherwise. -/
def bearerToken (authorization : Option String) : Option String :=
  match authorization with
  | none => none
  | some header =>
    if "Bearer".toList.isPrefixOf header.toList then
      ((splitOnSpace header.toList)[1]?).map String.mk
    else none

/-- The response `res.status(401).json({ success: false, message })`. -/
def unauthorized (msg : String) : Response :=
  { status := 401,
    body := JsValue.obj [("success", JsValue.bool false), ("message", JsValue.str msg)] }

/-- The middleware `proteger`: the response it sends, or the user it puts in
`req.user` before calling `next()`. Nothing outside the inner `try` can throw
on a string header, so the outer `catch` (500) is not reached. -/
def proteger (auth : AuthEnv) (users : Collection) (authorization : Option String) :
    Except Response Props :=
  match bearerToken authorization with
  | none => Except.error (unauthorized "Accès refusé. Token manquant.")
  | some token =>
    if token = "" then Except.error (unauthorized "Accès refusé. Token manquant.")
    else
      match auth.verify token with
      | none => Except.error (unauthorized "Token invalide ou expiré.")
      | some decoded =>
        if auth.userLookupFails then Except.error (unauthorized "Token invalide ou expiré.")
        else
          match findById users (getProp decoded "id") with
          | none => Except.error (unauthorized "Token invalide. Utilisateur non trouvé.")
          | some (_, user) => Except.ok user

/-! ## The conventions router (`routes/conventions.js`) -/

/-- HTTP methods. -/
inductive Method where
  | GET : Method
  | HEAD : Method
  | POST : Method
  | PUT : Method
  | PATCH : Method
  | DELETE : Method
  | OPTIONS : Method
  deriving DecidableEq

/-- The eight handlers the router refers to. -/
inductive ConventionOp where
  | createConvention : ConventionOp
  | getConventionsByEnterprise : ConventionOp
  | getActiveConventions : ConventionOp
  | updateConvention : ConventionOp
  | updateConventionStatus : ConventionOp
  | addDocumentToConvention : ConventionOp
  | getConventionHistory : ConventionOp
  | getConventionSummary : ConventionOp
  deriving DecidableEq

/-- The controller function behind each name. -/
def handlerOf (op : ConventionOp) : Env → Db → Request → Response × Db :=
  match op with
  | ConventionOp.createConvention => createConvention
  | ConventionOp.getConventionsByEnterprise => getConventionsByEnterprise
  | ConventionOp.getActiveConventions => getActiveConventions
  | ConventionOp.updateConvention => updateConvention
  | ConventionOp.updateConventionStatus => updateConventionStatus
  | ConventionOp.addDocumentToConvention => addDocumentToConvention
  | ConventionOp.getConventionHistory => getConventionHistory
  | ConventionOp.getConventionSummary => getConventionSummary

/-- One segment of a route path: a fixed word or a named parameter. -/
inductive Segment where
  | word (w : String) : Segment
  | param (name : String) : Segment

/-- The letters of a path segment in lower case: route matching ignores case. -/
def lowerSeg (s : String) : List Char :=
  s.toList.map Char.toLower

/-- Whether a segment of the request path is the fixed word of the route. -/
def sameSegment (fixed seg : String) : Bool :=
  lowerSeg seg == lowerSeg fixed

/-- Matching of a request path, given as its segments, against a route path:
the parameters when it matches. -/
def matchPath (pattern : List Segment) (path : List String) : Option Props :=
  match pattern, path with
  | [], [] => some []
  | Segment.word w :: ps, seg :: rest =>
    if sameSegment w seg then matchPath ps rest else none
  | Segment.param name :: ps, seg :: rest =>
    match matchPath ps rest with
    | some params => some ((name, JsValue.str seg) :: params)
    | none => none
  | _, _ => none

/-- Whether a route registered for `routeMethod` takes a request of method
`m`: a GET route also takes HEAD requests. -/
def methodMatches (routeMethod m : Method) : Bool :=
  decide (routeMethod = m) || (decide (routeMethod = Method.GET) && decide (m = Method.HEAD))

/-- The routes of `routes/conventions.js`, in the order they are registered. -/
def conventionRoutes : List (Method × List Segment × ConventionOp) :=
  [(Method.POST, [], ConventionOp.createConvention),
   (Method.GET, [Segment.word "enterprise", Segment.param "enterpriseId"],
     ConventionOp.getConventionsByEnterprise),
   (Method.GET, [Segment.word "enterprise", Segment.param "enterpriseId", Segment.word "active"],
     ConventionOp.getActiveConventions),
   (Method.PUT, [Segment.param "id"], ConventionOp.updateConvention),
   (Method.PATCH, [Segment.param "id", Segment.word "status"],
     ConventionOp.updateConventionStatus),
   (Method.POST, [Segment.param "id", Segment.word "documents"],
     ConventionOp.addDocumentToConvention),
   (Method.GET, [Segment.param "id", Segment.word "history"],
     ConventionOp.getConventionHistory),
   (Method.GET, [Segment.param "id", Segment.word "summary"],
     ConventionOp.getConventionSummary)]

/-- The first route of a table that takes the request, with its parameters. -/
def matchRoute (routes : List (Method × List Segment × ConventionOp)) (m : Method)
    (path : List String) : Option (ConventionOp × Props) :=
  match routes with
  | [] => none
  | (routeMethod, pattern, op) :: rest =>
    if methodMatches routeMethod m then
      match matchPath pattern path with
      | some params => some (op, params)
      | none => matchRoute rest m path
    else matchRoute rest m path

/-- What the router reads of an HTTP request: the method, the segments of the
path below the mount point, the `Authorization` header and the parsed body. -/
structure HttpRequest where
  method : Method
  path : List String
  authorization : Option String
  body : Props

/-- What becomes of a request given to the router: `proteger` answered it, a
controller ran on it, or no route took it and it leaves the router. -/
inductive RouterResult where
  | responded (r : Response) (db : Db) : RouterResult
  | handled (op : ConventionOp) (req : Request) (r : Response) (db : Db) : RouterResult
  | passed : RouterResult

/-- The router of `routes/conventions.js`: `router.use(proteger)` first, then
the routes. -/
def conventionsRouter (auth : AuthEnv) (env : Env) (db : Db) (http : HttpRequest) :
    RouterResult :=
  match proteger auth db.users http.authorization with
  | Except.error r => RouterResult.responded r db
  | Except.ok user =>
    match matchRoute conventionRoutes http.method http.path with
    | none => RouterResult.passed
    | some (op, params) =>
      RouterResult.handled op
        { params := params, body := http.body, userId := getProp user "_id" }
        (handlerOf op env db
          { params := params, body := http.body, userId := getProp user "_id" }).1
        (handlerOf op env db
          { params := params, body := http.body, userId := getProp user "_id" }).2

/-! ## The application (`server.js`) -/

/-- The path-bound `app.use(path, ...)` calls of `server.js`, in order: the
segments of the mount path, whether the path ends in `/*`, and the name of
what is mounted. The routers `conventionRoutes` and `indicatorRoutes` are
imported (lines 113 and 114) and appear in no `app.use`. -/
def mounts : List (List String × Bool × String) :=
  [(["uploads"], false, "express.static"),
   (["api", "admin"], true, "checkRole(roles.ADMIN)"),
   (["api", "inspector"], true, "checkRole(roles.INSPECTOR)"),
   (["api", "auth"], false, "authRoutes"),
   (["api", "users"], false, "userRoutes"),
   (["api", "entreprises"], false, "entrepriseRoutes"),
   (["api", "kpis"], false, "kpisRoutes"),
   (["api", "documents"], false, "documentsRoutes"),
   (["api", "visites"], false, "visitesRoutes"),
   (["api", "admin"], false, "adminRoutes")]

/-- Whether a request path lies under a mount path; with `more`, at least one
further segment is required (`/*`). -/
def underMount (mountPath : List String) (more : Bool) (path : List String) : Bool :=
  match mountPath, path with
  | [], [] => !more
  | [], _ :: _ => true
  | _ :: _, [] => false
  | w :: ws, seg :: rest => sameSegment w seg && underMount ws more rest

/-- The mounted middlewares and routers a request path is offered to, in
order. -/
def mountedFor (path : List String) : List String :=
  (mounts.filter (fun entry => underMount entry.1 entry.2.1 path)).map (fun entry => entry.2.2)

/-- The catch-all `app.use('*', ...)`: 404 with the requested path. -/
def routeNotFound (originalUrl : String) : Response :=
  { status := 404,
    body := JsValue.obj [("error", JsValue.str "Route non trouvée"),
      ("path", JsValue.str originalUrl)] }

/-- The original URL of a request path. -/
def urlOf (path : List String) : String :=
  path.foldl (fun url seg => url ++ "/" ++ seg) ""

/-- What is left for a request that no mounted router answers: the health
route `GET /api/health`, whose response carries the time `timestamp`, and
otherwise the catch-all 404. -/
def serverFallback (timestamp : String) (m : Method) (path : List String) : Response :=
  if methodMatches Method.GET m
      && (matchPath [Segment.word "api", Segment.word "health"] path).isSome then
    okJson (JsValue.obj [("status", JsValue.str "OK"),
      ("message", JsValue.str "Serveur opérationnel"), ("timestamp", JsValue.str timestamp)])
  else routeNotFound (urlOf path)

/-- The `userId` of the last entry of a convention's history. -/
def lastEntryUserId (convention : Props) : Option JsValue :=
  (historyOf convention).getLast?.map (fun entry => getProp (propsOf entry) "userId")

/-- A user collection with the user `u2`, and an authentication environment
in which the token `good` decodes to that user's identifier. -/
def sampleUsers : Collection :=
  [("u2", [("_id", JsValue.str "u2"), ("name", JsValue.str "Ada"),
    ("email", JsValue.str "ada@example.org")])]

/-- An authentication environment in which only the token `good` verifies. -/
def sampleAuth : AuthEnv :=
  { verify := fun token => if token = "good" then some [("id", JsValue.str "u2")] else none,
    userLookupFails := false }

/-- The value the save hook leaves in `metadata`, given the transient marker
`_lastModifiedBy` and the `metadata` of the document being saved (`preSave`
read at the key `metadata`). -/
def stampMetadata (marker metadata : JsValue) : JsValue :=
  match marker with
  | JsValue.undefined => metadata
  | u => JsValue.obj (setProp (propsOf metadata) "lastModifiedBy" u)

/-! ## The visit controller (`controllers/visitController.js`) and its router -/

/-- The call `visit.save()` on a loaded visit: rejects with the environment's
error, or stores the visit under the identifier it was loaded with. The Visit
model is not among the sources; no hook of it is assumed. -/
def saveVisit (env : Env) (visits : Collection) (key : String) (visit : Props) :
    Except String (Props × Collection) :=
  match env.saveError visit with
  | some e => Except.error e
  | none => Except.ok (visit, replaceDoc visits key visit)

/-- The handler `exports.cancelVisit`. -/
def cancelVisit (env : Env) (visits : Collection) (req : Request) : Response × Collection :=
  let reason := getProp req.body "reason"
  match env.lookupError with
  | some e => (serverError e, visits)
  | none =>
    match findById visits (getProp req.params "id") with
    | none => (notFound "Visit not found", visits)
    | some (key, visit) =>
      if strictEq (getProp visit "status") (JsValue.str "COMPLETED") then
        ({ status := 400, body := messageBody "Cannot cancel a completed visit" }, visits)
      else
        let visit := setProp visit "status" (JsValue.str "CANCELLED")
        let visit := setProp visit "cancellationReason" reason
        match saveVisit env visits key visit with
        | Except.error e => (serverError e, visits)
        | Except.ok (saved, visits') => (okJson (JsValue.obj saved), visits')

/-- The handler `exports.assignInspector`. -/
def assignInspector (env : Env) (visits : Collection) (req : Request) : Response × Collection :=
  let inspectorId := getProp req.body "inspectorId"
  match env.lookupError with
  | some e => (serverError e, visits)
  | none =>
    match findById visits (getProp req.params "id") with
    | none => (notFound "Visit not found", visits)
    | some (key, visit) =>
      let visit := setProp visit "inspectorId" inspectorId
      match saveVisit env visits key visit with
      | Except.error e => (serverError e, visits)
      | Except.ok (saved, visits') => (okJson (JsValue.obj saved), visits')

/-- The eleven handlers `routes/visites.js` refers to. -/
inductive VisitOp where
  | getVisitsByEnterprise : VisitOp
  | requestVisit : VisitOp
  | cancelVisit : VisitOp
  | submitVisitReport : VisitOp
  | getUpcomingVisits : VisitOp
  | getPastVisits : VisitOp
  | assignInspector : VisitOp
  | getInspectorVisits : VisitOp
  | updateVisitStatus : VisitOp
  | getVisitDetails : VisitOp
  | downloadVisitReport : VisitOp
  deriving DecidableEq

/-- The first route of a table that takes the request, with its parameters
(as `matchRoute`, for any table). -/
def matchRouteIn {α : Type} (routes : List (Method × List Segment × α)) (m : Method)
    (path : List String) : Option (α × Props) :=
  match routes with
  | [] => none
  | (routeMethod, pattern, op) :: rest =>
    if methodMatches routeMethod m then
      match matchPath pattern path with
      | some params => some (op, params)
      | none => matchRouteIn rest m path
    else matchRouteIn rest m path

/-- The routes of `routes/visites.js`, in the order they are registered. -/
def visitRoutes : List (Method × List Segment × VisitOp) :=
  [(Method.GET, [Segment.word "enterprise", Segment.param "enterpriseId"],
     VisitOp.getVisitsByEnterprise),
   (Method.POST, [Segment.word "request"], VisitOp.requestVisit),
   (Method.PUT, [Segment.param "id", Segment.word "cancel"], VisitOp.cancelVisit),
   (Method.POST, [Segment.param "id", Segment.word "report"], VisitOp.submitVisitReport),
   (Method.GET, [Segment.word "enterprise", Segment.param "enterpriseId", Segment.word "upcoming"],
     VisitOp.getUpcomingVisits),
   (Method.GET, [Segment.word "enterprise", Segment.param "enterpriseId", Segment.word "past"],
     VisitOp.getPastVisits),
   (Method.PUT, [Segment.param "id", Segment.word "assign-inspector"], VisitOp.assignInspector),
   (Method.GET, [Segment.word "inspector", Segment.word "my-visits"],
     VisitOp.getInspectorVisits),
   (Method.PUT, [Segment.param "id", Segment.word "status"], VisitOp.updateVisitStatus),
   (Method.GET, [Segment.param "id"], VisitOp.getVisitDetails),
   (Method.GET, [Segment.param "id", Segment.word "report", Segment.word "download"],
     VisitOp.downloadVisitReport)]

/-- The router of `routes/visites.js` up to the controller: `proteger` answers
(401), or the request goes on with the authenticated user to the handler of
the first matching route, if any, with the request that handler reads. No
route installs a role check. -/
def visitsRouter (auth : AuthEnv) (users : Collection) (http : HttpRequest) :
    Except Response (Props × Option (VisitOp × Request)) :=
  match proteger auth users http.authorization with
  | Except.error r => Except.error r
  | Except.ok user =>
    match matchRouteIn visitRoutes http.method http.path with
    | none => Except.ok (user, none)
    | some (op, params) =>
      Except.ok (user, some (op,
        { params := params, body := http.body, userId := getProp user "_id" }))

/-- A user collection whose user `u2` has the role `user`, and a visit `v1`
assigned to the inspector `u7`. -/
def plainUsers : Collection :=
  [("u2", [("_id", JsValue.str "u2"), ("role", JsValue.str "user")])]

/-- A scheduled visit `v1`, assigned to the inspector `u7`, and a completed
visit `v2`. -/
def sampleVisits : Collection :=
  [("v1", [("_id", JsValue.str "v1"), ("status", JsValue.str "SCHEDULED"),
     ("inspectorId", JsValue.str "u7")]),
   ("v2", [("_id", JsValue.str "v2"), ("status", JsValue.str "COMPLETED"),
     ("inspectorId", JsValue.str "u7")])]

/-! ## Roles (`middleware/auth.js`, `controllers/authController.js`) -/

/-- Whether a value is truthy. -/
def truthy (v : JsValue) : Bool :=
  match v with
  | JsValue.undefined => false
  | JsValue.null => false
  | JsValue.bool b => b
  | JsValue.num n => decide (n ≠ 0)
  | JsValue.str s => decide (s ≠ "")
  | _ => true

/-- The response `res.status(403).json({ success: false, message })` of
`autoriser`. -/
def forbidden : Response :=
  { status := 403,
    body := JsValue.obj [("success", JsValue.bool false),
      ("message", JsValue.str "Accès non autorisé pour ce rôle")] }

/-- The middleware `autoriser(...roles)` on the authenticated user: 403 unless
`roles.includes(req.user.role)`, and otherwise `next()`. -/
def autoriser (roles : List String) (user : Props) : Except Response Unit :=
  if roles.any (fun r => strictEq (JsValue.str r) (getProp user "role")) then Except.ok ()
  else Except.error forbidden

/-- The role `inscription` gives the new user (`authController.js`, lines
62-68 and 143-148): a submitted role outside `user`, `admin`, `super_admin`
is refused with 400; without a role, the role is `admin` for `typeCompte`
`admin` and `user` otherwise. -/
def inscriptionRole (role typeCompte : JsValue) : Except Response JsValue :=
  if truthy role
      && !(["user", "admin", "super_admin"].any (fun r => strictEq (JsValue.str r) role)) then
    Except.error
      { status := 400,
        body := JsValue.obj [("success", JsValue.bool false),
          ("message", JsValue.str
            "Rôle invalide. Les rôles autorisés sont: user, admin, super_admin.")] }
  else if !truthy role then
    Except.ok (if strictEq typeCompte (JsValue.str "admin") then JsValue.str "admin"
      else JsValue.str "user")
  else Except.ok role

/-- The guards of the two routes of `routes/admin.js`: `proteger`, then
`autoriser('ADMIN')`. -/
def adminGuards (auth : AuthEnv) (users : Collection) (authorization : Option String) :
    Except Response Props :=
  match proteger auth users authorization with
  | Except.error r => Except.error r
  | Except.ok user =>
    match autoriser ["ADMIN"] user with
    | Except.error r => Except.error r
    | Except.ok _ => Except.ok user

/-! ## The update document of `updateEntreprise` (`controllers/entrepriseController.js`) -/

/-- The test `v === undefined`. -/
def isUndefined (v : JsValue) : Bool :=
  match v with
  | JsValue.undefined => true
  | _ => false

/-- The test `typeof v === 'object'`: true of `null`, arrays and objects. -/
def typeofObject (v : JsValue) : Bool :=
  match v with
  | JsValue.null => true
  | JsValue.date _ => true
  | JsValue.arr _ => true
  | JsValue.obj _ => true
  | _ => false

/-- The test `Array.isArray(v)`. -/
def isArray (v : JsValue) : Bool :=
  match v with
  | JsValue.arr _ => true
  | _ => false

/-- The items of an array under their indices `0`, `1`, ... -/
def indexed (items : List JsValue) : Props :=
  items.enum.map (fun p => (toString p.1, p.2))

/-- The pairs `(key, v[key])` for the keys `Object.keys(v)` of a value that is
neither `null` nor `undefined`: the properties of an object, the items of an
array and the characters of a string under their indices, and nothing for a
number, a boolean or a date. -/
def ownEntries (v : JsValue) : Props :=
  match v with
  | JsValue.obj props => (objectKeys props).map (fun k => (k, getProp props k))
  | JsValue.arr items => indexed items
  | JsValue.str s => indexed (s.toList.map (fun ch => JsValue.str (String.singleton ch)))
  | _ => []

/-- The call `Object.keys(v)` with the values `v[key]`: a TypeError for `null`
and `undefined`. -/
def entriesOf (v : JsValue) : Except String Props :=
  match v with
  | JsValue.null => Except.error "Cannot convert undefined or null to object"
  | JsValue.undefined => Except.error "Cannot convert undefined or null to object"
  | _ => Except.ok (ownEntries v)

/-- The loop
`fields.forEach(field => { if (body[field] !== undefined) updateData[pre + field] = body[field] })`. -/
def copyFields (body : Props) (pre : String) (fields : List String) (updateData : Props) :
    Props :=
  fields.foldl
    (fun u field =>
      if isUndefined (getProp body field) then u
      else setProp u (pre ++ field) (getProp body field))
    updateData

/-- The loop `Object.keys(section).forEach(key => { updateData[pre + key] = section[key] })`,
given the entries of the section. -/
def copyEntries (pre : String) (entries : Props) (updateData : Props) : Props :=
  entries.foldl (fun u e => setProp u (pre ++ e.1) e.2) updateData

/-- The loop of the sections `conventions` and `contact`: a value with
`typeof v === 'object' && !Array.isArray(v)` is copied key by key under
`pre + key + '.'`, any other value under `pre + key`. -/
def copyNested (pre : String) (entries : Props) (updateData : Props) : Except String Props :=
  match entries with
  | [] => Except.ok updateData
  | (key, v) :: rest =>
    if typeofObject v && !isArray v then
      match entriesOf v with
      | Except.error e => Except.error e
      | Except.ok inner => copyNested pre rest (copyEntries (pre ++ key ++ ".") inner updateData)
    else copyNested pre rest (setProp updateData (pre ++ key) v)

/-- The fields of the block `identification`. -/
def identificationFields : List String :=
  ["nomEntreprise", "raisonSociale", "region", "ville", "dateCreation", "secteurActivite",
   "sousSecteur", "filiereProduction", "formeJuridique", "numeroContribuable"]

/-- The flat fields accepted for `investissementEmploi`. -/
def invFields : List String :=
  ["effectifsEmployes", "nouveauxEmploisCrees", "nouveauxInvestissementsRealises",
   "typesInvestissements"]

/-- The flat fields accepted for `contact`. -/
def contactFields : List String :=
  ["telephone", "email", "siteWeb"]

/-- The block `Performance Economique` (lines 140-149). -/
def performanceStage (body : Props) (updateData : Props) : Props :=
  if truthy (getProp body "performanceEconomique") then
    copyEntries "performanceEconomique." (ownEntries (getProp body "performanceEconomique"))
      updateData
  else copyFields body "performanceEconomique." ["chiffreAffaires.montant"] updateData

/-- The block `Investissement et Emploi` (lines 152-161). -/
def investissementStage (body : Props) (updateData : Props) : Props :=
  if truthy (getProp body "investissementEmploi") then
    copyEntries "investissementEmploi." (ownEntries (getProp body "investissementEmploi"))
      updateData
  else copyFields body "investissementEmploi." invFields updateData

/-- The block `Innovation et Digitalisation` (lines 164-168). -/
def innovationStage (body : Props) (updateData : Props) : Props :=
  if truthy (getProp body "innovationDigitalisation") then
    copyEntries "innovationDigitalisation."
      (ownEntries (getProp body "innovationDigitalisation")) updateData
  else updateData

/-- The block `Conventions` (lines 171-182). -/
def conventionsStage (body : Props) (updateData : Props) : Except String Props :=
  if truthy (getProp body "conventions") then
    copyNested "conventions." (ownEntries (getProp body "conventions")) updateData
  else Except.ok updateData

/-- The block `Contact` (lines 185-200). -/
def contactStage (body : Props) (updateData : Props) : Except String Props :=
  if truthy (getProp body "contact") then
    copyNested "contact." (ownEntries (getProp body "contact")) updateData
  else Except.ok (copyFields body "contact." contactFields updateData)

/-- Property read `d.name` on an element of `documents`: the property of an
object, and `undefined` on any other value that is not `null`. -/
def fieldOf (d : JsValue) (name : String) : JsValue :=
  match d with
  | JsValue.obj props => getProp props name
  | _ => JsValue.undefined

/-- The expression `a || b`. -/
def orElse (a b : JsValue) : JsValue :=
  if truthy a then a else b

/-- The arrow function of `body.documents.map(...)` (lines 208-217); reading a
property of `null` is a TypeError. -/
def normalizeDocument (now : Int) (d : JsValue) : Except String JsValue :=
  match d with
  | JsValue.null =>
    Except.error "Cannot read properties of null (reading \x27originalName\x27)"
  | JsValue.undefined =>
    Except.error "Cannot read properties of undefined (reading \x27originalName\x27)"
  | _ =>
    Except.ok (JsValue.obj
      [("originalName",
          orElse (orElse (orElse (fieldOf d "originalName") (fieldOf d "nom"))
            (fieldOf d "filename")) JsValue.null),
       ("filename", orElse (fieldOf d "filename") JsValue.null),
       ("path", orElse (fieldOf d "path") JsValue.null),
       ("mimeType", orElse (orElse (fieldOf d "mimeType") (fieldOf d "mimetype")) JsValue.null),
       ("size", orElse (fieldOf d "size") JsValue.null),
       ("uploadedAt", orElse (fieldOf d "uploadedAt") (JsValue.date now)),
       ("type", orElse (fieldOf d "type") (JsValue.str "autre")),
       ("nom", orElse (orElse (fieldOf d "nom") (fieldOf d "originalName")) JsValue.null)])

/-- The call `body.documents.map(...)`. -/
def normalizeDocuments (now : Int) (items : List JsValue) : Except String (List JsValue) :=
  match items with
  | [] => Except.ok []
  | d :: rest =>
    match normalizeDocument now d with
    | Except.error e => Except.error e
    | Except.ok n =>
      match normalizeDocuments now rest with
      | Except.error e => Except.error e
      | Except.ok ns => Except.ok (n :: ns)

/-- The value written under `documents` (lines 207-218). -/
def documentsValue (now : Int) (documents : JsValue) : Except String JsValue :=
  match documents with
  | JsValue.arr items =>
    match normalizeDocuments now items with
    | Except.error e => Except.error e
    | Except.ok ns => Except.ok (JsValue.arr ns)
  | other => Except.ok other

/-- The block `Documents` (lines 206-219). -/
def documentsStage (body : Props) (now : Int) (updateData : Props) : Except String Props :=
  if isUndefined (getProp body "documents") then Except.ok updateData
  else
    match documentsValue now (getProp body "documents") with
    | Except.error e => Except.error e
    | Except.ok v => Except.ok (setProp updateData "documents" v)

/-- The construction of `updateData` in `updateEntreprise` (lines 128-222), at
the instant `now`: the update document, or the message of the exception
raised on the way. -/
def buildUpdateData (body : Props) (now : Int) : Except String Props :=
  let updateData := copyFields body "identification." identificationFields []
  let updateData := performanceStage body updateData
  let updateData := investissementStage body updateData
  let updateData := innovationStage body updateData
  match conventionsStage body updateData with
  | Except.error e => Except.error e
  | Except.ok updateData =>
    match contactStage body updateData with
    | Except.error e => Except.error e
    | Except.ok updateData =>
      let updateData := copyFields body "" ["description"] updateData
      match documentsStage body now updateData with
      | Except.error e => Except.error e
      | Except.ok updateData =>
        Except.ok (setProp updateData "dateModification" (JsValue.date now))

/-- The handler `exports.updateEntreprise`, given the errors
`validationResult(req)` holds and the outcome of
`Entreprise.findByIdAndUpdate(id, { $set: updateData }, { new: true })` as a
function of the update document: an exception, nothing, or the updated
enterprise. -/
def updateEntreprise (validationErrors : List JsValue)
    (findByIdAndUpdate : Props → Except String (Option Props)) (body : Props) (now : Int) :
    Response :=
  if !validationErrors.isEmpty then
    { status := 400,
      body := JsValue.obj [("success", JsValue.bool false),
        ("errors", JsValue.arr validationErrors)] }
  else
    match buildUpdateData body now with
    | Except.error e =>
      { status := 500,
        body := JsValue.obj [("success", JsValue.bool false),
          ("message", JsValue.str "Erreur lors de la mise à jour de l\x27entreprise"),
          ("error", JsValue.str e)] }
    | Except.ok updateData =>
      match findByIdAndUpdate updateData with
      | Except.error e =>
        { status := 500,
          body := JsValue.obj [("success", JsValue.bool false),
            ("message", JsValue.str "Erreur lors de la mise à jour de l\x27entreprise"),
            ("error", JsValue.str e)] }
      | Except.ok none =>
        { status := 404,
          body := JsValue.obj [("success", JsValue.bool false),
            ("message", JsValue.str "Entreprise non trouvée")] }
      | Except.ok (some entreprise) =>
        okJson (JsValue.obj [("success", JsValue.bool true),
          ("entreprise", JsValue.obj entreprise)])

/-- The paths `updateEntreprise` may write for a flat field of the body: the
text put before the field name, and the field name. -/
def flatFields : List (String × String) :=
  identificationFields.map (fun f => ("identification.", f))
    ++ [("performanceEconomique.", "chiffreAffaires.montant")]
    ++ invFields.map (fun f => ("investissementEmploi.", f))
    ++ contactFields.map (fun f => ("contact.", f))
    ++ [("", "description")]

/-- What it is for a path of the update document to come from a field that is
present in the body, with the value supplied for it: a flat field of the
body that is not `undefined`, under its path; an entry of one of the five
nested sections, under `section.key`; an entry of an entry of `conventions`
or `contact`, under `section.key.k2`; or `documents`, with its entries
normalised when it is an array. -/
inductive Provided (body : Props) (now : Int) : String → JsValue → Prop where
  | flat (pre name : String) :
      (pre, name) ∈ flatFields → getProp body name ≠ JsValue.undefined →
      Provided body now (pre ++ name) (getProp body name)
  | entry (sec key : String) (v : JsValue) :
      sec ∈ ["performanceEconomique", "investissementEmploi", "innovationDigitalisation",
        "conventions", "contact"] →
      getProp body sec ≠ JsValue.undefined →
      (key, v) ∈ ownEntries (getProp body sec) →
      Provided body now (sec ++ "." ++ key) v
  | inner (sec key k2 : String) (v v2 : JsValue) :
      sec ∈ ["conventions", "contact"] →
      getProp body sec ≠ JsValue.undefined →
      (key, v) ∈ ownEntries (getProp body sec) →
      (k2, v2) ∈ ownEntries v →
      Provided body now (sec ++ "." ++ key ++ "." ++ k2) v2
  | documents (v : JsValue) :
      getProp body "documents" ≠ JsValue.undefined →
      documentsValue now (getProp body "documents") = Except.ok v →
      Provided body now "documents" v

/-- An update document all of whose keys come from fields provided in the
body. -/
def ProvidedOnly (body : Props) (now : Int) (updateData : Props) : Prop :=
  ∀ k, hasProp updateData k = true → Provided body now k (getProp updateData k)

/-- A body for `updateEntreprise`: a city, a nested contact and a document. -/
def sampleUpdateBody : Props :=
  [("ville", JsValue.str "Douala"),
   ("contact", JsValue.obj [("telephone", JsValue.str "699"),
     ("adresse", JsValue.obj [("rue", JsValue.str "Joss")])]),
   ("documents", JsValue.arr [JsValue.obj [("nom", JsValue.str "statuts")]])]

/-! ## Properties of objects -/

theorem getProp_setProp_same (o : Props) (k : String) (v : JsValue) :
    getProp (setProp o k v) k = v := by
  induction o with
  | nil => simp [setProp, getProp]
  | cons p rest ih =>
    obtain ⟨k', v'⟩ := p
    by_cases h : k' = k
    · simp [setProp, getProp, h]
    · simp [setProp, getProp, h, ih]

theorem getProp_setProp_other (o : Props) (k k' : String) (v : JsValue) (h : k' ≠ k) :
    getProp (setProp o k v) k' = getProp o k' := by
  induction o with
  | nil => simp [setProp, getProp, Ne.symm h]
  | cons p rest ih =>
    obtain ⟨k0, v0⟩ := p
    by_cases h0 : k0 = k
    · subst h0
      simp [setProp, getProp, Ne.symm h]
    · by_cases h1 : k0 = k'
      · subst h1
        simp [setProp, getProp, h0]
      · simp [setProp, getProp, h0, h1, ih]

theorem hasProp_setProp (o : Props) (k k' : String) (v : JsValue) :
    hasProp (setProp o k v) k' = (decide (k' = k) || hasProp o k') := by
  induction o with
  | nil =>
    by_cases h : k = k'
    · simp [setProp, hasProp, h]
    · simp [setProp, hasProp, h, Ne.symm h]
  | cons p rest ih =>
    obtain ⟨k0, v0⟩ := p
    by_cases h0 : k0 = k
    · subst h0
      by_cases h1 : k0 = k'
      · simp [setProp, hasProp, h1]
      · simp [setProp, hasProp, h1, Ne.symm h1]
    · by_cases h1 : k0 = k'
      · subst h1
        simp [setProp, hasProp, h0]
      · simp [setProp, hasProp, h0, h1, ih]

theorem getProp_of_hasProp_false (o : Props) (k : String) (h : hasProp o k = false) :
    getProp o k = JsValue.undefined := by
  induction o with
  | nil => simp [getProp]
  | cons p rest ih =>
    obtain ⟨k0, v0⟩ := p
    by_cases h0 : k0 = k
    · simp [hasProp, h0] at h
    · simp [hasProp, h0] at h
      simp [getProp, h0, ih h]

theorem mem_objectKeys (o : Props) (k : String) :
    k ∈ objectKeys o ↔ hasProp o k = true := by
  induction o with
  | nil => simp [objectKeys, hasProp]
  | cons p rest ih =>
    obtain ⟨k0, v0⟩ := p
    by_cases h0 : k0 = k
    · simp [objectKeys, hasProp, h0]
    · simp [objectKeys, hasProp, h0, ih, Ne.symm h0]

theorem strictEq_eq_true_iff (a b : JsValue) :
    strictEq a b = true ↔ a = b ∧ isPrimitive b = true := by
  cases a <;> cases b <;> simp [strictEq, isPrimitive]

theorem strictEq_eq_false_iff (a b : JsValue) :
    strictEq a b = false ↔ a ≠ b ∨ isPrimitive b = false := by
  rw [← Bool.not_eq_true, strictEq_eq_true_iff]
  by_cases h : a = b <;> simp [h]

/-- The diff loop, started from any accumulator: which keys it holds. -/
theorem changes_foldl_hasProp (c F : Props) (ks : List String) (acc : Props) (a : String) :
    hasProp (ks.foldl
      (fun changes key =>
        if strictEq (getProp c key) (getProp F key) then changes
        else setProp changes key (fromTo (getProp c key) (getProp F key))) acc) a
      = (hasProp acc a || (decide (a ∈ ks) && !strictEq (getProp c a) (getProp F a))) := by
  induction ks generalizing acc with
  | nil => simp
  | cons k ks ih =>
    rw [List.foldl_cons, ih]
    by_cases hk : a = k
    · subst hk
      cases hs : strictEq (getProp c a) (getProp F a) <;> simp [hs, hasProp_setProp]
    · cases hs : strictEq (getProp c k) (getProp F k) <;> simp [hs, hasProp_setProp, hk]

/-- The diff loop, started from any accumulator: the value it holds under a key. -/
theorem changes_foldl_getProp (c F : Props) (ks : List String) (acc : Props) (a : String) :
    getProp (ks.foldl
      (fun changes key =>
        if strictEq (getProp c key) (getProp F key) then changes
        else setProp changes key (fromTo (getProp c key) (getProp F key))) acc) a
      = if a ∈ ks ∧ strictEq (getProp c a) (getProp F a) = false
        then fromTo (getProp c a) (getProp F a) else getProp acc a := by
  induction ks generalizing acc with
  | nil => simp
  | cons k ks ih =>
    rw [List.foldl_cons, ih]
    by_cases hk : a = k
    · subst hk
      cases hs : strictEq (getProp c a) (getProp F a) <;> simp [hs, getProp_setProp_same]
    · cases hs : strictEq (getProp c k) (getProp F k) <;>
        simp [hs, getProp_setProp_other, hk]

theorem hasProp_computeChanges (c F : Props) (a : String) :
    hasProp (computeChanges c F) a
      = (hasProp F a && !strictEq (getProp c a) (getProp F a)) := by
  unfold computeChanges
  rw [changes_foldl_hasProp]
  by_cases h : hasProp F a = true
  · simp [hasProp, h, (mem_objectKeys F a).2 h]
  · have h' : a ∉ objectKeys F := fun hm => h ((mem_objectKeys F a).1 hm)
    simp [hasProp, h, h']

theorem getProp_computeChanges (c F : Props) (a : String) :
    getProp (computeChanges c F) a
      = if hasProp F a = true ∧ strictEq (getProp c a) (getProp F a) = false
        then fromTo (getProp c a) (getProp F a) else JsValue.undefined := by
  unfold computeChanges
  rw [changes_foldl_getProp]
  simp [mem_objectKeys, getProp]

/-- Reading a property after `Object.assign`, the assignment loop started from
any target. -/
theorem assign_foldl_getProp (s : Props) (ks : List String) (t : Props) (a : String) :
    getProp (ks.foldl (fun t key => setProp t key (getProp s key)) t) a
      = if a ∈ ks then getProp s a else getProp t a := by
  induction ks generalizing t with
  | nil => simp
  | cons k ks ih =>
    rw [List.foldl_cons, ih]
    by_cases hk : a = k
    · subst hk
      simp [getProp_setProp_same]
    · by_cases hm : a ∈ ks
      · simp [hm]
      · simp [hm, hk, getProp_setProp_other]

theorem getProp_objectAssign (t s : Props) (a : String) :
    getProp (objectAssign t s) a = if hasProp s a = true then getProp s a else getProp t a := by
  unfold objectAssign
  rw [assign_foldl_getProp]
  simp [mem_objectKeys]

theorem getProp_preSave (c : Props) (k : String) (h : k ≠ "metadata") :
    getProp (preSave c) k = getProp c k := by
  unfold preSave
  split
  · rfl
  · exact getProp_setProp_other _ _ _ _ h

theorem historyOf_preSave (c : Props) : historyOf (preSave c) = historyOf c := by
  simp [historyOf, getProp_preSave]

theorem historyOf_addHistoryEntry (c : Props) (action : String) (u ch : JsValue) (now : Int) :
    historyOf (addHistoryEntry c action u ch now)
      = historyOf c ++ [historyEntry action u ch now] := by
  simp [addHistoryEntry, historyOf, getProp_setProp_same, listOf]

theorem historyOf_setProp (c : Props) (k : String) (v : JsValue) (h : k ≠ "history") :
    historyOf (setProp c k v) = historyOf c := by
  simp [historyOf, getProp_setProp_other _ _ _ _ (Ne.symm h)]

theorem getProp_addHistoryEntry (c : Props) (action : String) (u ch : JsValue) (now : Int)
    (k : String) (h : k ≠ "history") :
    getProp (addHistoryEntry c action u ch now) k = getProp c k := by
  simp [addHistoryEntry, getProp_setProp_other _ _ _ _ h]

theorem historyOf_updateMutation (c F : Props) (u : JsValue) (now : Int)
    (h : hasProp F "history" = false) :
    historyOf (updateMutation c F u now)
      = historyOf c ++ [historyEntry "UPDATED" u (JsValue.obj (computeChanges c F)) now] := by
  have h1 : historyOf (updateMutation c F u now)
      = historyOf (addHistoryEntry (setProp c "_lastModifiedBy" u) "UPDATED" u
          (JsValue.obj (computeChanges c F)) now) := by
    simp [historyOf, updateMutation, getProp_objectAssign, h, hasProp]
  rw [h1, historyOf_addHistoryEntry, historyOf_setProp _ _ _ (by decide)]

theorem historyOf_statusMutation (c : Props) (st u : JsValue) (now : Int) :
    historyOf (statusMutation c st u now)
      = historyOf c ++ [historyEntry "STATUS_CHANGED" u
          (JsValue.obj [("from", getProp c "status"), ("to", st)]) now] := by
  rw [statusMutation, historyOf_addHistoryEntry, historyOf_setProp _ _ _ (by decide),
    historyOf_setProp _ _ _ (by decide)]

theorem historyOf_documentMutation (c : Props) (d u : JsValue) (now : Int) :
    historyOf (documentMutation c d u now)
      = historyOf c ++ [historyEntry "DOCUMENT_ADDED" u
          (JsValue.obj [("documentId", d)]) now] := by
  rw [documentMutation, historyOf_addHistoryEntry, historyOf_setProp _ _ _ (by decide),
    historyOf_setProp _ _ _ (by decide)]

/-! ## The handlers on their paths -/

theorem updateConvention_found (env : Env) (db : Db) (req : Request) (key : String)
    (c : Props) (hl : env.lookupError = none)
    (hf : findById db.conventions (getProp req.params "id") = some (key, c)) :
    updateConvention env db req
      = match env.saveError (updateMutation c req.body req.userId env.now) with
        | some e => (serverError e, db)
        | none =>
          (okJson (JsValue.obj (preSave (updateMutation c req.body req.userId env.now))),
            { db with conventions := (replaceDoc db.conventions key
                (preSave (updateMutation c req.body req.userId env.now))) }) := by
  simp only [updateConvention, hl, hf, save, updateMutation]
  cases env.saveError _ <;> rfl

theorem updateConventionStatus_found (env : Env) (db : Db) (req : Request) (key : String)
    (c : Props) (hl : env.lookupError = none)
    (hf : findById db.conventions (getProp req.params "id") = some (key, c)) :
    updateConventionStatus env db req
      = match env.saveError
            (statusMutation c (getProp req.body "status") req.userId env.now) with
        | some e => (serverError e, db)
        | none =>
          (okJson (JsValue.obj
              (preSave (statusMutation c (getProp req.body "status") req.userId env.now))),
            { db with conventions := (replaceDoc db.conventions key
                (preSave (statusMutation c (getProp req.body "status") req.userId env.now))) }) := by
  simp only [updateConventionStatus, hl, hf, save, statusMutation]
  cases env.saveError _ <;> rfl

theorem addDocumentToConvention_found (env : Env) (db : Db) (req : Request) (key : String)
    (c : Props) (hl : env.lookupError = none)
    (hf : findById db.conventions (getProp req.params "id") = some (key, c)) :
    addDocumentToConvention env db req
      = match env.saveError
            (documentMutation c (getProp req.body "documentId") req.userId env.now) with
        | some e => (serverError e, db)
        | none =>
          (okJson (JsValue.obj
              (preSave (documentMutation c (getProp req.body "documentId") req.userId env.now))),
            { db with conventions := (replaceDoc db.conventions key
                (preSave
                  (documentMutation c (getProp req.body "documentId") req.userId env.now))) }) := by
  simp only [addDocumentToConvention, hl, hf, save, documentMutation]
  cases env.saveError _ <;> rfl

/-! ## The store under a save -/

theorem findById_key (coll : Collection) (id : JsValue) (k : String) (c : Props)
    (h : findById coll id = some (k, c)) : id = JsValue.str k := by
  cases id <;> simp [findById] at h
  have := List.find?_some h
  simp at this
  simp [this]

theorem find?_replaceDoc_same (coll : Collection) (key : String) (d c : Props)
    (h : coll.find? (fun entry => entry.1 == key) = some (key, c)) :
    (replaceDoc coll key d).find? (fun entry => entry.1 == key) = some (key, d) := by
  induction coll with
  | nil => simp at h
  | cons p rest ih =>
    obtain ⟨k0, v0⟩ := p
    by_cases h0 : k0 = key
    · subst h0
      simp only [replaceDoc, List.map_cons, List.find?_cons, beq_self_eq_true, if_true]
    · have hb : (k0 == key) = false := by simpa using h0
      have hrest : rest.find? (fun entry => entry.1 == key) = some (key, c) := by
        simpa only [List.find?_cons, hb] using h
      have := ih hrest
      simp only [replaceDoc] at this
      simp only [replaceDoc, List.map_cons, List.find?_cons, hb, Bool.false_eq_true, if_false]
      exact this

theorem find?_replaceDoc_other (coll : Collection) (k key : String) (d : Props)
    (h : k ≠ key) :
    (replaceDoc coll k d).find? (fun entry => entry.1 == key)
      = coll.find? (fun entry => entry.1 == key) := by
  induction coll with
  | nil => rfl
  | cons p rest ih =>
    obtain ⟨k0, v0⟩ := p
    simp only [replaceDoc] at ih
    by_cases h0 : k0 = k
    · subst h0
      have hb : (k0 == key) = false := by simpa using h
      simp only [replaceDoc, List.map_cons, List.find?_cons, beq_self_eq_true, if_true, hb]
      exact ih
    · have hb0 : (k0 == k) = false := by simpa using h0
      simp only [replaceDoc, List.map_cons, List.find?_cons, hb0, Bool.false_eq_true, if_false]
      cases hb1 : (k0 == key)
      · exact ih
      · rfl

/-- What a mutating handler's result says about the audit trail of the
convention `key`: either nothing was saved, or the loaded document was saved
with one entry appended. -/
theorem outcome_history (db : Db) (id : JsValue) (r : Response × Db) (key : String)
    (c : Props)
    (hf : findById db.conventions (JsValue.str key) = some (key, c))
    (hr : (r.2 = db ∧ r.1.status ≠ 200) ∨
      ∃ k c0 m e, findById db.conventions id = some (k, c0)
        ∧ r = (okJson (JsValue.obj (preSave m)),
                { db with conventions := (replaceDoc db.conventions k (preSave m)) })
        ∧ historyOf m = historyOf c0 ++ [e]) :
    ∃ c' appended, findById r.2.conventions (JsValue.str key) = some (key, c')
      ∧ historyOf c' = historyOf c ++ appended
      ∧ appended.length
          = if (r.1.status == 200 && refMatches id (JsValue.str key)) = true then 1 else 0 := by
  rcases hr with ⟨hdb, hst⟩ | ⟨k, c0, m, e, hfind, hres, hhist⟩
  · refine ⟨c, [], by rw [hdb]; exact hf, by simp, ?_⟩
    simp [hst]
  · have hid := findById_key _ _ _ _ hfind
    subst hid
    subst hres
    by_cases hk : k = key
    · subst hk
      have hc : c0 = c := by
        rw [hfind] at hf
        simpa using hf
      subst hc
      refine ⟨preSave m, [e], ?_, ?_, ?_⟩
      · simp only [findById] at hf ⊢
        exact find?_replaceDoc_same _ _ _ _ hf
      · rw [historyOf_preSave, hhist]
      · simp [okJson, refMatches]
    · refine ⟨c, [], ?_, by simp, ?_⟩
      · simp only [findById] at hf ⊢
        rw [find?_replaceDoc_other _ _ _ _ hk]
        exact hf
      · simp [okJson, refMatches, hk]

theorem updateConvention_cases (env : Env) (db : Db) (req : Request)
    (h : hasProp req.body "history" = false) :
    ((updateConvention env db req).2 = db ∧ (updateConvention env db req).1.status ≠ 200) ∨
      ∃ k c0 m e, findById db.conventions (getProp req.params "id") = some (k, c0)
        ∧ updateConvention env db req = (okJson (JsValue.obj (preSave m)),
                { db with conventions := (replaceDoc db.conventions k (preSave m)) })
        ∧ historyOf m = historyOf c0 ++ [e] := by
  cases hl : env.lookupError with
  | some e => left; simp [updateConvention, hl, serverError]
  | none =>
    cases hf : findById db.conventions (getProp req.params "id") with
    | none => left; simp [updateConvention, hl, hf, notFound]
    | some p =>
      obtain ⟨k, c0⟩ := p
      rw [updateConvention_found env db req k c0 hl hf]
      cases hs : env.saveError (updateMutation c0 req.body req.userId env.now) with
      | some e => left; simp [serverError]
      | none =>
        right
        exact ⟨k, c0, _, _, rfl, rfl, historyOf_updateMutation c0 req.body req.userId env.now h⟩

theorem updateConventionStatus_cases (env : Env) (db : Db) (req : Request) :
    ((updateConventionStatus env db req).2 = db
        ∧ (updateConventionStatus env db req).1.status ≠ 200) ∨
      ∃ k c0 m e, findById db.conventions (getProp req.params "id") = some (k, c0)
        ∧ updateConventionStatus env db req = (okJson (JsValue.obj (preSave m)),
                { db with conventions := (replaceDoc db.conventions k (preSave m)) })
        ∧ historyOf m = historyOf c0 ++ [e] := by
  cases hl : env.lookupError with
  | some e => left; simp [updateConventionStatus, hl, serverError]
  | none =>
    cases hf : findById db.conventions (getProp req.params "id") with
    | none => left; simp [updateConventionStatus, hl, hf, notFound]
    | some p =>
      obtain ⟨k, c0⟩ := p
      rw [updateConventionStatus_found env db req k c0 hl hf]
      cases hs : env.saveError
          (statusMutation c0 (getProp req.body "status") req.userId env.now) with
      | some e => left; simp [serverError]
      | none =>
        right
        exact ⟨k, c0, _, _, rfl, rfl, historyOf_statusMutation c0 _ req.userId env.now⟩

theorem addDocumentToConvention_cases (env : Env) (db : Db) (req : Request) :
    ((addDocumentToConvention env db req).2 = db
        ∧ (addDocumentToConvention env db req).1.status ≠ 200) ∨
      ∃ k c0 m e, findById db.conventions (getProp req.params "id") = some (k, c0)
        ∧ addDocumentToConvention env db req = (okJson (JsValue.obj (preSave m)),
                { db with conventions := (replaceDoc db.conventions k (preSave m)) })
        ∧ historyOf m = historyOf c0 ++ [e] := by
  cases hl : env.lookupError with
  | some e => left; simp [addDocumentToConvention, hl, serverError]
  | none =>
    cases hf : findById db.conventions (getProp req.params "id") with
    | none => left; simp [addDocumentToConvention, hl, hf, notFound]
    | some p =>
      obtain ⟨k, c0⟩ := p
      rw [addDocumentToConvention_found env db req k c0 hl hf]
      cases hs : env.saveError
          (documentMutation c0 (getProp req.body "documentId") req.userId env.now) with
      | some e => left; simp [serverError]
      | none =>
        right
        exact ⟨k, c0, _, _, rfl, rfl, historyOf_documentMutation c0 _ req.userId env.now⟩

/-- One request that is not an Update submitting `history` keeps the convention
`key` in the store and extends its audit trail by one entry when it succeeds
on that convention, by none otherwise. -/
theorem runStep_history (db : Db) (s : Step) (key : String) (c : Props)
    (hno : submitsHistory s = false)
    (hf : findById db.conventions (JsValue.str key) = some (key, c)) :
    ∃ c' appended, findById (runStep db s).2.conventions (JsValue.str key) = some (key, c')
      ∧ historyOf c' = historyOf c ++ appended
      ∧ appended.length = if succeedsOn key db s = true then 1 else 0 := by
  obtain ⟨env, op, req⟩ := s
  cases op with
  | update =>
    have h : hasProp req.body "history" = false := by simpa [submitsHistory] using hno
    simpa [runStep, succeedsOn] using
      outcome_history db _ _ key c hf (updateConvention_cases env db req h)
  | updateStatus =>
    simpa [runStep, succeedsOn] using
      outcome_history db _ _ key c hf (updateConventionStatus_cases env db req)
  | addDocument =>
    simpa [runStep, succeedsOn] using
      outcome_history db _ _ key c hf (addDocumentToConvention_cases env db req)

/-- A sequence of requests, none an Update submitting `history`, keeps the
convention `key` in the store and extends its audit trail by exactly as many
entries as requests succeeded on it. -/
theorem run_history (steps : List Step) (db : Db) (key : String) (c : Props)
    (hno : ∀ s ∈ steps, submitsHistory s = false)
    (hf : findById db.conventions (JsValue.str key) = some (key, c)) :
    ∃ c' appended, findById (run db steps).conventions (JsValue.str key) = some (key, c')
      ∧ historyOf c' = historyOf c ++ appended
      ∧ appended.length = countSucceeded key db steps := by
  induction steps generalizing db c with
  | nil => exact ⟨c, [], by simpa [run] using hf, by simp, by simp [countSucceeded]⟩
  | cons s rest ih =>
    obtain ⟨c1, app1, hf1, hh1, hl1⟩ :=
      runStep_history db s key c (hno s (List.mem_cons_self _ _)) hf
    obtain ⟨c2, app2, hf2, hh2, hl2⟩ :=
      ih (runStep db s).2 c1 (fun t ht => hno t (List.mem_cons_of_mem _ ht)) hf1
    refine ⟨c2, app1 ++ app2, by simpa [run] using hf2, ?_, ?_⟩
    · rw [hh2, hh1, List.append_assoc]
    · simp [countSucceeded, hl1, hl2]

theorem createConvention_found (env : Env) (db : Db) (req : Request) (e : String × Props)
    (hl : env.lookupError = none)
    (hf : findById db.enterprises (getProp req.body "enterpriseId") = some e) :
    createConvention env db req
      = match env.saveError (createMutation env.newId req.body req.userId env.now) with
        | some err => (serverError err, db)
        | none =>
          ({ status := 201,
             body := JsValue.obj (preSave (createMutation env.newId req.body req.userId env.now)) },
            { db with conventions := (db.conventions ++
                [(env.newId, preSave (createMutation env.newId req.body req.userId env.now))]) }) := by
  simp only [createConvention, hl, hf, saveNew, createMutation]
  cases env.saveError _ <;> rfl

theorem createConvention_success (env : Env) (db : Db) (req : Request)
    (h : (createConvention env db req).1.status = 201) :
    createConvention env db req
      = ({ status := 201,
           body := JsValue.obj (preSave (createMutation env.newId req.body req.userId env.now)) },
          { db with conventions := (db.conventions ++
              [(env.newId, preSave (createMutation env.newId req.body req.userId env.now))]) }) := by
  cases hl : env.lookupError with
  | some e => simp [createConvention, hl, serverError] at h
  | none =>
    cases hf : findById db.enterprises (getProp req.body "enterpriseId") with
    | none => simp [createConvention, hl, hf, notFound] at h
    | some p =>
      rw [createConvention_found env db req p hl hf] at h ⊢
      revert h
      cases env.saveError _ <;> simp [serverError]

theorem historyOf_createMutation (id : String) (body : Props) (u : JsValue) (now : Int) :
    historyOf (createMutation id body u now)
      = [historyEntry "CREATED" u (JsValue.obj [("type", getProp body "type")]) now] := by
  rw [createMutation, historyOf_addHistoryEntry, historyOf_setProp _ _ _ (by decide)]
  simp [historyOf, newConvention, getProp, listOf]

/-! ## Successful requests -/

theorem updateConvention_success (env : Env) (db : Db) (req : Request)
    (h : (updateConvention env db req).1.status = 200) :
    ∃ key c, findById db.conventions (getProp req.params "id") = some (key, c)
      ∧ updateConvention env db req
          = (okJson (JsValue.obj (preSave (updateMutation c req.body req.userId env.now))),
             { db with conventions := (replaceDoc db.conventions key
                (preSave (updateMutation c req.body req.userId env.now))) }) := by
  cases hl : env.lookupError with
  | some e => simp [updateConvention, hl, serverError] at h
  | none =>
    cases hf : findById db.conventions (getProp req.params "id") with
    | none => simp [updateConvention, hl, hf, notFound] at h
    | some p =>
      obtain ⟨key, c⟩ := p
      refine ⟨key, c, rfl, ?_⟩
      rw [updateConvention_found env db req key c hl hf] at h ⊢
      revert h
      cases env.saveError _ <;> simp [serverError]

theorem updateConventionStatus_success (env : Env) (db : Db) (req : Request)
    (h : (updateConventionStatus env db req).1.status = 200) :
    ∃ key c, findById db.conventions (getProp req.params "id") = some (key, c)
      ∧ updateConventionStatus env db req
          = (okJson (JsValue.obj
              (preSave (statusMutation c (getProp req.body "status") req.userId env.now))),
             { db with conventions := (replaceDoc db.conventions key
                (preSave (statusMutation c (getProp req.body "status") req.userId env.now))) }) := by
  cases hl : env.lookupError with
  | some e => simp [updateConventionStatus, hl, serverError] at h
  | none =>
    cases hf : findById db.conventions (getProp req.params "id") with
    | none => simp [updateConventionStatus, hl, hf, notFound] at h
    | some p =>
      obtain ⟨key, c⟩ := p
      refine ⟨key, c, rfl, ?_⟩
      rw [updateConventionStatus_found env db req key c hl hf] at h ⊢
      revert h
      cases env.saveError _ <;> simp [serverError]

theorem addDocumentToConvention_success (env : Env) (db : Db) (req : Request)
    (h : (addDocumentToConvention env db req).1.status = 200) :
    ∃ key c, findById db.conventions (getProp req.params "id") = some (key, c)
      ∧ addDocumentToConvention env db req
          = (okJson (JsValue.obj
              (preSave (documentMutation c (getProp req.body "documentId") req.userId env.now))),
             { db with conventions := (replaceDoc db.conventions key
                (preSave
                  (documentMutation c (getProp req.body "documentId") req.userId env.now))) }) := by
  cases hl : env.lookupError with
  | some e => simp [addDocumentToConvention, hl, serverError] at h
  | none =>
    cases hf : findById db.conventions (getProp req.params "id") with
    | none => simp [addDocumentToConvention, hl, hf, notFound] at h
    | some p =>
      obtain ⟨key, c⟩ := p
      refine ⟨key, c, rfl, ?_⟩
      rw [addDocumentToConvention_found env db req key c hl hf] at h ⊢
      revert h
      cases env.saveError _ <;> simp [serverError]

/-! ## The last-modifier marker -/

theorem lastModifiedByOf_preSave (m : Props) (u : String)
    (h : getProp m "_lastModifiedBy" = JsValue.str u) :
    lastModifiedByOf (preSave m) = JsValue.str u := by
  simp [preSave, h, lastModifiedByOf, getProp_setProp_same, propsOf]

theorem marker_createMutation (id : String) (body : Props) (u : JsValue) (now : Int) :
    getProp (createMutation id body u now) "_lastModifiedBy" = u := by
  rw [createMutation, getProp_addHistoryEntry _ _ _ _ _ _ (by decide), getProp_setProp_same]

theorem marker_updateMutation (c F : Props) (u : JsValue) (now : Int)
    (h : hasProp F "_lastModifiedBy" = false) :
    getProp (updateMutation c F u now) "_lastModifiedBy" = u := by
  simp [updateMutation, getProp_objectAssign, h, hasProp,
    getProp_addHistoryEntry, getProp_setProp_same]

theorem marker_statusMutation (c : Props) (st u : JsValue) (now : Int) :
    getProp (statusMutation c st u now) "_lastModifiedBy" = u := by
  rw [statusMutation, getProp_addHistoryEntry _ _ _ _ _ _ (by decide), getProp_setProp_same]

theorem marker_documentMutation (c : Props) (d u : JsValue) (now : Int) :
    getProp (documentMutation c d u now) "_lastModifiedBy" = u := by
  rw [documentMutation, getProp_addHistoryEntry _ _ _ _ _ _ (by decide), getProp_setProp_same]

/-! ## Fields left alone by the audit entry and the save hook -/

theorem getProp_statusMutation_status (c : Props) (st u : JsValue) (now : Int) :
    getProp (statusMutation c st u now) "status" = st := by
  rw [statusMutation, getProp_addHistoryEntry _ _ _ _ _ _ (by decide),
    getProp_setProp_other _ _ _ _ (by decide), getProp_setProp_same]

theorem documentsOf_documentMutation (c : Props) (d u : JsValue) (now : Int) :
    documentsOf (documentMutation c d u now) = documentsOf c ++ [d] := by
  unfold documentsOf
  rw [documentMutation, getProp_addHistoryEntry _ _ _ _ _ _ (by decide),
    getProp_setProp_other _ _ _ _ (by decide), getProp_setProp_same]
  rfl

theorem getProp_createMutation (id : String) (body : Props) (u : JsValue) (now : Int)
    (k : String)
    (hk : k ∈ ["enterpriseId", "signedDate", "startDate", "endDate", "type", "advantages",
      "obligations"]) :
    getProp (createMutation id body u now) k = getProp body k := by
  simp only [List.mem_cons, List.mem_singleton, List.not_mem_nil, or_false] at hk
  rcases hk with h | h | h | h | h | h | h <;> subst h <;>
    (rw [createMutation, getProp_addHistoryEntry _ _ _ _ _ _ (by decide),
      getProp_setProp_other _ _ _ _ (by decide)]
     simp [newConvention, getProp])

theorem metadata_preSave_createMutation (id : String) (body : Props) (u : JsValue)
    (now : Int) :
    getProp (preSave (createMutation id body u now)) "metadata"
      = JsValue.obj [("createdBy", u), ("lastModifiedBy", u)] := by
  have hm : getProp (createMutation id body u now) "metadata"
      = JsValue.obj [("createdBy", u), ("lastModifiedBy", u)] := by
    rw [createMutation, getProp_addHistoryEntry _ _ _ _ _ _ (by decide),
      getProp_setProp_other _ _ _ _ (by decide)]
    simp [newConvention, getProp]
  unfold preSave
  rw [marker_createMutation]
  cases u <;> exact hm

/-- The diff loop leaves its accumulator alone when every submitted value is
strictly equal to the stored one. -/
theorem changes_foldl_unchanged (c F : Props) (ks : List String) (acc : Props)
    (h : ∀ k ∈ ks, strictEq (getProp c k) (getProp F k) = true) :
    ks.foldl
      (fun changes key =>
        if strictEq (getProp c key) (getProp F key) then changes
        else setProp changes key (fromTo (getProp c key) (getProp F key))) acc = acc := by
  induction ks generalizing acc with
  | nil => rfl
  | cons k ks ih =>
    rw [List.foldl_cons, h k (List.mem_cons_self _ _)]
    exact ih acc (fun k' hk' => h k' (List.mem_cons_of_mem _ hk'))

theorem computeChanges_eq_nil (c F : Props)
    (h : ∀ k, hasProp F k = true → strictEq (getProp c k) (getProp F k) = true) :
    computeChanges c F = [] :=
  changes_foldl_unchanged c F (objectKeys F) []
    (fun k hk => h k ((mem_objectKeys F k).1 hk))

/-! ## The frame of an Update -/

theorem getProp_updateMutation_submitted (c F : Props) (u : JsValue) (now : Int) (k : String)
    (hk : hasProp F k = true) (hflat : k ≠ "metadata.lastModifiedBy") :
    getProp (updateMutation c F u now) k = getProp F k := by
  simp [updateMutation, getProp_objectAssign, hk, hasProp, Ne.symm hflat]

theorem getProp_updateMutation_untouched (c F : Props) (u : JsValue) (now : Int) (k : String)
    (hk : hasProp F k = false) (hh : k ≠ "history") (hm : k ≠ "_lastModifiedBy")
    (hflat : k ≠ "metadata.lastModifiedBy") :
    getProp (updateMutation c F u now) k = getProp c k := by
  simp [updateMutation, getProp_objectAssign, hk, hasProp, Ne.symm hflat,
    getProp_addHistoryEntry _ _ _ _ _ _ hh, getProp_setProp_other _ _ _ _ hm]

/-- The save hook leaves every nested field of `metadata` other than
`lastModifiedBy` as it was. -/
theorem metadata_field_preSave (m : Props) (f : String) (hf : f ≠ "lastModifiedBy") :
    getProp (propsOf (getProp (preSave m) "metadata")) f
      = getProp (propsOf (getProp m "metadata")) f := by
  unfold preSave
  split
  · rfl
  · rw [getProp_setProp_same]
    simp [propsOf, getProp_setProp_other _ _ _ _ hf]

/-! ## The summary -/

theorem getConventionSummary_found (env : Env) (db : Db) (req : Request) (key : String)
    (c : Props) (hl : env.lookupError = none)
    (hf : findById db.conventions (getProp req.params "id") = some (key, c)) :
    getConventionSummary env db req
      = (okJson (JsValue.obj
          [("id", getProp c "_id"),
           ("type", getProp c "type"),
           ("status", getProp c "status"),
           ("progress", JsValue.obj
             [("documentsSubmitted", JsValue.num (summaryDocuments db c).length),
              ("indicatorsOnTrack", JsValue.num
                ((summaryIndicators db c).filter
                  (fun i => strictEq (getProp (propsOf i) "status")
                    (JsValue.str "ON_TRACK"))).length),
              ("totalIndicators", JsValue.num (summaryIndicators db c).length)]),
           ("startDate", getProp c "startDate"),
           ("endDate", getProp c "endDate"),
           ("daysRemaining", daysRemaining (getProp c "endDate") env.now)]), db) := by
  simp only [getConventionSummary, hl, hf, summaryDocuments, summaryIndicators]

theorem populateList_length_le (coll : Collection) (select : Option (List String))
    (refs : List JsValue) : (populateList coll select refs).length ≤ refs.length := by
  unfold populateList
  exact List.length_filterMap_le _ _

theorem populateRef_isSome (coll : Collection) (select : Option (List String))
    (ref : JsValue) (h : (findById coll ref).isSome = true) :
    (populateRef coll select ref).isSome = true := by
  unfold populateRef
  cases hf : findById coll ref with
  | none => simp [hf] at h
  | some p => cases select <;> simp

theorem populateList_length_eq (coll : Collection) (select : Option (List String))
    (refs : List JsValue) (h : ∀ r ∈ refs, (findById coll r).isSome = true) :
    (populateList coll select refs).length = refs.length := by
  induction refs with
  | nil => rfl
  | cons r rest ih =>
    have hr := populateRef_isSome coll select r (h r (List.mem_cons_self _ _))
    have hrest := ih (fun x hx => h x (List.mem_cons_of_mem _ hx))
    unfold populateList at hrest ⊢
    cases hp : populateRef coll select r with
    | none => simp [hp] at hr
    | some v => simp [List.filterMap_cons, hp, hrest]

theorem ceilDiv_mul_ge (x d : Int) (hd : 0 < d) : x ≤ ceilDiv x d * d := by
  unfold ceilDiv
  have h := Int.ediv_mul_le (-x) (ne_of_gt hd)
  linarith

theorem ceilDiv_le_of_le_mul (x d k : Int) (hd : 0 < d) (h : x ≤ k * d) : ceilDiv x d ≤ k := by
  unfold ceilDiv
  have h1 : -k * d ≤ -x := by linarith
  have h2 := Int.le_ediv_of_mul_le hd h1
  linarith

theorem ceilDiv_mul_lt (x d : Int) (hd : 0 < d) : ceilDiv x d * d < x + d := by
  unfold ceilDiv
  have h := Int.lt_ediv_add_one_mul_self (-x) hd
  linarith

/-! ## Document references and dates under the mutations -/

theorem documentsOf_preSave (m : Props) : documentsOf (preSave m) = documentsOf m := by
  unfold documentsOf
  rw [getProp_preSave _ _ (by decide)]

theorem documentsOf_updateMutation (c F : Props) (u : JsValue) (now : Int)
    (h : hasProp F "documents" = false) :
    documentsOf (updateMutation c F u now) = documentsOf c := by
  unfold documentsOf
  rw [getProp_updateMutation_untouched _ _ _ _ _ h (by decide) (by decide) (by decide)]

theorem documentsOf_statusMutation (c : Props) (st u : JsValue) (now : Int) :
    documentsOf (statusMutation c st u now) = documentsOf c := by
  unfold documentsOf
  rw [statusMutation, getProp_addHistoryEntry _ _ _ _ _ _ (by decide),
    getProp_setProp_other _ _ _ _ (by decide), getProp_setProp_other _ _ _ _ (by decide)]

/-- What a mutating handler's result says about the documents of the
convention `key`: either nothing was saved, or the loaded document was saved
with its documents extended. -/
theorem outcome_documents (db : Db) (id : JsValue) (r : Response × Db) (key : String)
    (c : Props)
    (hf : findById db.conventions (JsValue.str key) = some (key, c))
    (hr : r.2 = db ∨
      ∃ k c0 m, findById db.conventions id = some (k, c0)
        ∧ r.2 = { db with conventions := (replaceDoc db.conventions k (preSave m)) }
        ∧ documentsOf c0 <+: documentsOf m) :
    ∃ c', findById r.2.conventions (JsValue.str key) = some (key, c')
      ∧ documentsOf c <+: documentsOf c' := by
  rcases hr with hdb | ⟨k, c0, m, hfind, hres, hdocs⟩
  · exact ⟨c, by rw [hdb]; exact hf, List.prefix_refl _⟩
  · have hid := findById_key _ _ _ _ hfind
    subst hid
    rw [hres]
    by_cases hk : k = key
    · subst hk
      have hc : c0 = c := by
        rw [hfind] at hf
        simpa using hf
      subst hc
      refine ⟨preSave m, ?_, ?_⟩
      · simp only [findById] at hf ⊢
        exact find?_replaceDoc_same _ _ _ _ hf
      · rw [documentsOf_preSave]
        exact hdocs
    · refine ⟨c, ?_, List.prefix_refl _⟩
      simp only [findById] at hf ⊢
      rw [find?_replaceDoc_other _ _ _ _ hk]
      exact hf

theorem updateConvention_outcome (env : Env) (db : Db) (req : Request) :
    (updateConvention env db req).2 = db ∨
      ∃ k c0, findById db.conventions (getProp req.params "id") = some (k, c0)
        ∧ updateConvention env db req
          = (okJson (JsValue.obj (preSave (updateMutation c0 req.body req.userId env.now))),
             { db with conventions := (replaceDoc db.conventions k
                (preSave (updateMutation c0 req.body req.userId env.now))) }) := by
  cases hl : env.lookupError with
  | some e => left; simp [updateConvention, hl]
  | none =>
    cases hf : findById db.conventions (getProp req.params "id") with
    | none => left; simp [updateConvention, hl, hf]
    | some p =>
      obtain ⟨k, c0⟩ := p
      rw [updateConvention_found env db req k c0 hl hf]
      cases hs : env.saveError (updateMutation c0 req.body req.userId env.now) with
      | some e => left; rfl
      | none => right; exact ⟨k, c0, rfl, rfl⟩

theorem updateConventionStatus_outcome (env : Env) (db : Db) (req : Request) :
    (updateConventionStatus env db req).2 = db ∨
      ∃ k c0, findById db.conventions (getProp req.params "id") = some (k, c0)
        ∧ updateConventionStatus env db req
          = (okJson (JsValue.obj
              (preSave (statusMutation c0 (getProp req.body "status") req.userId env.now))),
             { db with conventions := (replaceDoc db.conventions k
                (preSave (statusMutation c0 (getProp req.body "status") req.userId env.now))) }) := by
  cases hl : env.lookupError with
  | some e => left; simp [updateConventionStatus, hl]
  | none =>
    cases hf : findById db.conventions (getProp req.params "id") with
    | none => left; simp [updateConventionStatus, hl, hf]
    | some p =>
      obtain ⟨k, c0⟩ := p
      rw [updateConventionStatus_found env db req k c0 hl hf]
      cases hs : env.saveError
          (statusMutation c0 (getProp req.body "status") req.userId env.now) with
      | some e => left; rfl
      | none => right; exact ⟨k, c0, rfl, rfl⟩

theorem addDocumentToConvention_outcome (env : Env) (db : Db) (req : Request) :
    (addDocumentToConvention env db req).2 = db ∨
      ∃ k c0, findById db.conventions (getProp req.params "id") = some (k, c0)
        ∧ addDocumentToConvention env db req
          = (okJson (JsValue.obj
              (preSave (documentMutation c0 (getProp req.body "documentId") req.userId env.now))),
             { db with conventions := (replaceDoc db.conventions k
                (preSave
                  (documentMutation c0 (getProp req.body "documentId") req.userId env.now))) }) := by
  cases hl : env.lookupError with
  | some e => left; simp [addDocumentToConvention, hl]
  | none =>
    cases hf : findById db.conventions (getProp req.params "id") with
    | none => left; simp [addDocumentToConvention, hl, hf]
    | some p =>
      obtain ⟨k, c0⟩ := p
      rw [addDocumentToConvention_found env db req k c0 hl hf]
      cases hs : env.saveError
          (documentMutation c0 (getProp req.body "documentId") req.userId env.now) with
      | some e => left; rfl
      | none => right; exact ⟨k, c0, rfl, rfl⟩

theorem createConvention_success_save (env : Env) (db : Db) (req : Request)
    (h : (createConvention env db req).1.status = 201) :
    env.saveError (createMutation env.newId req.body req.userId env.now) = none := by
  cases hl : env.lookupError with
  | some e => simp [createConvention, hl, serverError] at h
  | none =>
    cases hf : findById db.enterprises (getProp req.body "enterpriseId") with
    | none => simp [createConvention, hl, hf, notFound] at h
    | some p =>
      rw [createConvention_found env db req p hl hf] at h
      revert h
      cases env.saveError _ <;> simp [serverError]

theorem updateConvention_success_save (env : Env) (db : Db) (req : Request) (key : String)
    (c : Props) (h : (updateConvention env db req).1.status = 200)
    (hf : findById db.conventions (getProp req.params "id") = some (key, c)) :
    env.saveError (updateMutation c req.body req.userId env.now) = none := by
  cases hl : env.lookupError with
  | some e => simp [updateConvention, hl, serverError] at h
  | none =>
    rw [updateConvention_found env db req key c hl hf] at h
    revert h
    cases env.saveError _ <;> simp [serverError]

theorem getProp_updateMutation_field (c F : Props) (u : JsValue) (now : Int) (k : String)
    (hh : k ≠ "history") (hm : k ≠ "_lastModifiedBy") (hflat : k ≠ "metadata.lastModifiedBy") :
    getProp (updateMutation c F u now) k
      = if hasProp F k = true then getProp F k else getProp c k := by
  cases hk : hasProp F k with
  | true => simp [getProp_updateMutation_submitted _ _ _ _ _ hk hflat]
  | false => simp [getProp_updateMutation_untouched _ _ _ _ _ hk hh hm hflat]

/-! ## The statuses of the responses -/

theorem createConvention_status (env : Env) (db : Db) (req : Request) :
    (createConvention env db req).1.status ∈ [200, 201, 404, 500] := by
  cases hl : env.lookupError with
  | some e => simp [createConvention, hl, serverError]
  | none =>
    cases hf : findById db.enterprises (getProp req.body "enterpriseId") with
    | none => simp [createConvention, hl, hf, notFound]
    | some p =>
      rw [createConvention_found env db req p hl hf]
      cases env.saveError _ <;> simp [serverError]

theorem updateConvention_status (env : Env) (db : Db) (req : Request) :
    (updateConvention env db req).1.status ∈ [200, 201, 404, 500] := by
  cases hl : env.lookupError with
  | some e => simp [updateConvention, hl, serverError]
  | none =>
    cases hf : findById db.conventions (getProp req.params "id") with
    | none => simp [updateConvention, hl, hf, notFound]
    | some p =>
      rw [updateConvention_found env db req p.1 p.2 hl hf]
      cases env.saveError _ <;> simp [serverError, okJson]

theorem updateConventionStatus_status (env : Env) (db : Db) (req : Request) :
    (updateConventionStatus env db req).1.status ∈ [200, 201, 404, 500] := by
  cases hl : env.lookupError with
  | some e => simp [updateConventionStatus, hl, serverError]
  | none =>
    cases hf : findById db.conventions (getProp req.params "id") with
    | none => simp [updateConventionStatus, hl, hf, notFound]
    | some p =>
      rw [updateConventionStatus_found env db req p.1 p.2 hl hf]
      cases env.saveError _ <;> simp [serverError, okJson]

theorem addDocumentToConvention_status (env : Env) (db : Db) (req : Request) :
    (addDocumentToConvention env db req).1.status ∈ [200, 201, 404, 500] := by
  cases hl : env.lookupError with
  | some e => simp [addDocumentToConvention, hl, serverError]
  | none =>
    cases hf : findById db.conventions (getProp req.params "id") with
    | none => simp [addDocumentToConvention, hl, hf, notFound]
    | some p =>
      rw [addDocumentToConvention_found env db req p.1 p.2 hl hf]
      cases env.saveError _ <;> simp [serverError, okJson]

theorem getConventionHistory_status (env : Env) (db : Db) (req : Request) :
    (getConventionHistory env db req).1.status ∈ [200, 201, 404, 500] := by
  cases hl : env.lookupError with
  | some e => simp [getConventionHistory, hl, serverError]
  | none =>
    cases hf : findById db.conventions (getProp req.params "id") with
    | none => simp [getConventionHistory, hl, hf, notFound]
    | some p => simp [getConventionHistory, hl, hf, okJson]

theorem getConventionSummary_status (env : Env) (db : Db) (req : Request) :
    (getConventionSummary env db req).1.status ∈ [200, 201, 404, 500] := by
  cases hl : env.lookupError with
  | some e => simp [getConventionSummary, hl, serverError]
  | none =>
    cases hf : findById db.conventions (getProp req.params "id") with
    | none => simp [getConventionSummary, hl, hf, notFound]
    | some p => simp [getConventionSummary, hl, hf, okJson]

theorem getConventionsByEnterprise_status (env : Env) (db : Db) (req : Request) :
    (getConventionsByEnterprise env db req).1.status ∈ [200, 201, 404, 500] := by
  cases hl : env.lookupError <;> simp [getConventionsByEnterprise, hl, serverError, okJson]

theorem getActiveConventions_status (env : Env) (db : Db) (req : Request) :
    (getActiveConventions env db req).1.status ∈ [200, 201, 404, 500] := by
  cases hl : env.lookupError <;> simp [getActiveConventions, hl, serverError, okJson]

/-! ## The router behind `proteger` -/

theorem proteger_ok (auth : AuthEnv) (users : Collection) (authorization : Option String)
    (user : Props) (h : proteger auth users authorization = Except.ok user) :
    ∃ header token decoded key,
      authorization = some header
      ∧ "Bearer".toList.isPrefixOf header.toList = true
      ∧ bearerToken authorization = some token
      ∧ token ≠ ""
      ∧ auth.verify token = some decoded
      ∧ auth.userLookupFails = false
      ∧ findById users (getProp decoded "id") = some (key, user) := by
  unfold proteger at h
  cases ht : bearerToken authorization with
  | none => simp [ht] at h
  | some token =>
    rw [ht] at h
    by_cases hempty : token = ""
    · simp [hempty] at h
    · cases hv : auth.verify token with
      | none => simp [hempty, hv] at h
      | some decoded =>
        cases hu : auth.userLookupFails with
        | true => simp [hempty, hv, hu] at h
        | false =>
          cases hf : findById users (getProp decoded "id") with
          | none => simp [hempty, hv, hu, hf] at h
          | some p =>
            obtain ⟨key, u⟩ := p
            simp [hempty, hv, hu, hf] at h
            subst h
            cases authorization with
            | none => simp [bearerToken] at ht
            | some header =>
              refine ⟨header, token, decoded, key, rfl, ?_, rfl, hempty, hv, rfl, hf⟩
              cases hb : "Bearer".toList.isPrefixOf header.toList with
              | true => rfl
              | false =>
                unfold bearerToken at ht
                dsimp only at ht
                rw [hb] at ht
                simp at ht

theorem proteger_error_status (auth : AuthEnv) (users : Collection)
    (authorization : Option String) (r : Response)
    (h : proteger auth users authorization = Except.error r) : r.status = 401 := by
  unfold proteger at h
  cases ht : bearerToken authorization with
  | none =>
    simp [ht] at h
    rw [← h]
    rfl
  | some token =>
    rw [ht] at h
    by_cases hempty : token = ""
    · simp [hempty] at h
      rw [← h]
      rfl
    · cases hv : auth.verify token with
      | none =>
        simp [hempty, hv] at h
        rw [← h]
        rfl
      | some decoded =>
        cases hu : auth.userLookupFails with
        | true =>
          simp [hempty, hv, hu] at h
          rw [← h]
          rfl
        | false =>
          cases hf : findById users (getProp decoded "id") with
          | none =>
            simp [hempty, hv, hu, hf] at h
            rw [← h]
            rfl
          | some p => simp [hempty, hv, hu, hf] at h

theorem conventionsRouter_handled (auth : AuthEnv) (env : Env) (db : Db) (http : HttpRequest)
    (op : ConventionOp) (req : Request) (r : Response) (db' : Db)
    (h : conventionsRouter auth env db http = RouterResult.handled op req r db') :
    ∃ user params, proteger auth db.users http.authorization = Except.ok user
      ∧ matchRoute conventionRoutes http.method http.path = some (op, params)
      ∧ req = { params := params, body := http.body, userId := getProp user "_id" }
      ∧ r = (handlerOf op env db req).1
      ∧ db' = (handlerOf op env db req).2 := by
  unfold conventionsRouter at h
  cases hp : proteger auth db.users http.authorization with
  | error e => simp [hp] at h
  | ok user =>
    cases hm : matchRoute conventionRoutes http.method http.path with
    | none => simp [hp, hm] at h
    | some p =>
      obtain ⟨op0, params⟩ := p
      simp only [hp, hm, RouterResult.handled.injEq] at h
      obtain ⟨h1, h2, h3, h4⟩ := h
      subst h1
      subst h2
      exact ⟨user, params, rfl, rfl, rfl, h3.symm, h4.symm⟩

theorem lastEntryUserId_of_history (saved : Props) (old : List JsValue) (action : String)
    (u ch : JsValue) (now : Int)
    (h : historyOf saved = old ++ [historyEntry action u ch now]) :
    lastEntryUserId saved = some u := by
  simp [lastEntryUserId, h, historyEntry, propsOf, getProp]

/-! ## Stored identifiers and the read handlers -/

theorem replaceDoc_keys (coll : Collection) (key : String) (doc : Props) :
    (replaceDoc coll key doc).map Prod.fst = coll.map Prod.fst := by
  induction coll with
  | nil => rfl
  | cons p rest ih =>
    simp only [replaceDoc] at ih
    by_cases h : (p.1 == key) = true
    · simp only [replaceDoc, List.map_cons, h, if_true, ih]
    · simp only [replaceDoc, List.map_cons, h, if_false, ih]
      rfl

theorem getConventionsByEnterprise_store (env : Env) (db : Db) (req : Request) :
    (getConventionsByEnterprise env db req).2 = db := by
  cases hl : env.lookupError <;> simp [getConventionsByEnterprise, hl]

theorem getActiveConventions_store (env : Env) (db : Db) (req : Request) :
    (getActiveConventions env db req).2 = db := by
  cases hl : env.lookupError <;> simp [getActiveConventions, hl]

theorem getConventionHistory_store (env : Env) (db : Db) (req : Request) :
    (getConventionHistory env db req).2 = db := by
  cases hl : env.lookupError with
  | some e => simp [getConventionHistory, hl]
  | none =>
    cases hf : findById db.conventions (getProp req.params "id") <;>
      simp [getConventionHistory, hl, hf]

theorem getConventionSummary_store (env : Env) (db : Db) (req : Request) :
    (getConventionSummary env db req).2 = db := by
  cases hl : env.lookupError with
  | some e => simp [getConventionSummary, hl]
  | none =>
    cases hf : findById db.conventions (getProp req.params "id") <;>
      simp [getConventionSummary, hl, hf]

theorem createConvention_store (env : Env) (db : Db) (req : Request) :
    (createConvention env db req).2 = db
      ∨ ∃ saved, (createConvention env db req).2
          = { db with conventions := (db.conventions ++ [(env.newId, saved)]) } := by
  cases hl : env.lookupError with
  | some e => left; simp [createConvention, hl]
  | none =>
    cases hf : findById db.enterprises (getProp req.body "enterpriseId") with
    | none => left; simp [createConvention, hl, hf]
    | some p =>
      rw [createConvention_found env db req p hl hf]
      cases env.saveError _ with
      | some e => left; rfl
      | none => right; exact ⟨_, rfl⟩

/-! ## The frames of UpdateStatus and AddDocument -/

theorem getProp_statusMutation_other (c : Props) (st u : JsValue) (now : Int) (k : String)
    (hs : k ≠ "status") (hh : k ≠ "history") (hm : k ≠ "_lastModifiedBy") :
    getProp (statusMutation c st u now) k = getProp c k := by
  rw [statusMutation, getProp_addHistoryEntry _ _ _ _ _ _ hh,
    getProp_setProp_other _ _ _ _ hm, getProp_setProp_other _ _ _ _ hs]

theorem getProp_documentMutation_other (c : Props) (d u : JsValue) (now : Int) (k : String)
    (hd : k ≠ "documents") (hh : k ≠ "history") (hm : k ≠ "_lastModifiedBy") :
    getProp (documentMutation c d u now) k = getProp c k := by
  rw [documentMutation, getProp_addHistoryEntry _ _ _ _ _ _ hh,
    getProp_setProp_other _ _ _ _ hm, getProp_setProp_other _ _ _ _ hd]

/-! ## Two Updates in succession -/

theorem setProp_setProp_same (o : Props) (k : String) (v : JsValue) :
    setProp (setProp o k v) k v = setProp o k v := by
  induction o with
  | nil => simp [setProp]
  | cons p rest ih =>
    obtain ⟨k0, v0⟩ := p
    by_cases h : k0 = k
    · simp [setProp, h]
    · simp [setProp, h, ih]

theorem preSave_metadata (m : Props) :
    getProp (preSave m) "metadata"
      = stampMetadata (getProp m "_lastModifiedBy") (getProp m "metadata") := by
  unfold preSave stampMetadata
  cases h : getProp m "_lastModifiedBy" <;> simp [getProp_setProp_same]

theorem stampMetadata_idem (marker md : JsValue) :
    stampMetadata marker (stampMetadata marker md) = stampMetadata marker md := by
  cases marker <;> simp [stampMetadata, propsOf, setProp_setProp_same]

theorem marker_updateMutation_any (c F : Props) (u : JsValue) (now : Int) :
    getProp (updateMutation c F u now) "_lastModifiedBy"
      = if hasProp F "_lastModifiedBy" = true then getProp F "_lastModifiedBy" else u := by
  cases h : hasProp F "_lastModifiedBy" with
  | true => simp [getProp_updateMutation_submitted _ _ _ _ _ h (by decide)]
  | false => simp [marker_updateMutation _ _ _ _ h]

theorem flat_marker_updateMutation (c F : Props) (u : JsValue) (now : Int) :
    getProp (updateMutation c F u now) "metadata.lastModifiedBy" = u := by
  simp [updateMutation, getProp_objectAssign, hasProp, getProp]

/-- The fields of the document saved by a second Update with the same body and
user are those of the document saved by the first, `history` apart. -/
theorem getProp_update_twice (c F : Props) (u : JsValue) (n1 n2 : Int) (k : String)
    (hk : k = "history" → hasProp F "history" = true) :
    getProp (preSave (updateMutation (preSave (updateMutation c F u n1)) F u n2)) k
      = getProp (preSave (updateMutation c F u n1)) k := by
  by_cases hmeta : k = "metadata"
  · subst hmeta
    rw [preSave_metadata, preSave_metadata, marker_updateMutation_any,
      marker_updateMutation_any,
      getProp_updateMutation_field _ _ _ _ _ (by decide) (by decide) (by decide),
      getProp_updateMutation_field c _ _ _ _ (by decide) (by decide) (by decide)]
    cases hF : hasProp F "metadata" with
    | true => simp
    | false =>
      simp only [Bool.false_eq_true, if_false]
      rw [preSave_metadata, marker_updateMutation_any,
        getProp_updateMutation_field c _ _ _ _ (by decide) (by decide) (by decide)]
      simp only [hF, Bool.false_eq_true, if_false]
      exact stampMetadata_idem _ _
  · rw [getProp_preSave _ _ hmeta, getProp_preSave _ _ hmeta]
    by_cases hm : k = "_lastModifiedBy"
    · subst hm
      rw [marker_updateMutation_any, marker_updateMutation_any]
    · by_cases hflat : k = "metadata.lastModifiedBy"
      · subst hflat
        rw [flat_marker_updateMutation, flat_marker_updateMutation]
      · cases hF : hasProp F k with
        | true =>
          rw [getProp_updateMutation_submitted _ _ _ _ _ hF hflat,
            getProp_updateMutation_submitted _ _ _ _ _ hF hflat]
        | false =>
          have hh : k ≠ "history" := by
            intro h
            have := hk h
            rw [h] at hF
            rw [hF] at this
            exact Bool.noConfusion this
          rw [getProp_updateMutation_untouched _ _ _ _ _ hF hh hm hflat,
            getProp_preSave _ _ hmeta]

/-! ## The update document comes from the body -/

theorem providedOnly_nil (body : Props) (now : Int) : ProvidedOnly body now [] := by
  intro k hk
  simp [hasProp] at hk

theorem providedOnly_setProp (body : Props) (now : Int) (u : Props) (k : String) (v : JsValue)
    (h : ProvidedOnly body now u) (hp : Provided body now k v) :
    ProvidedOnly body now (setProp u k v) := by
  intro k' hk'
  by_cases hkk : k' = k
  · subst hkk
    rw [getProp_setProp_same]
    exact hp
  · rw [getProp_setProp_other _ _ _ _ hkk]
    rw [hasProp_setProp] at hk'
    simp [hkk] at hk'
    exact h k' hk'

theorem ne_undefined_of_isUndefined (v : JsValue) (h : isUndefined v = false) :
    v ≠ JsValue.undefined := by
  cases v <;> simp [isUndefined] at h ⊢

theorem ne_undefined_of_truthy (v : JsValue) (h : truthy v = true) :
    v ≠ JsValue.undefined := by
  cases v <;> simp [truthy] at h ⊢

theorem providedOnly_copyFields (body : Props) (now : Int) (pre : String)
    (fields : List String) (u : Props) (h : ProvidedOnly body now u)
    (hf : ∀ f ∈ fields, (pre, f) ∈ flatFields) :
    ProvidedOnly body now (copyFields body pre fields u) := by
  unfold copyFields
  induction fields generalizing u with
  | nil => exact h
  | cons f rest ih =>
    rw [List.foldl_cons]
    apply ih
    · cases hu : isUndefined (getProp body f) with
      | true => simpa using h
      | false =>
        simp only [Bool.false_eq_true, if_false]
        exact providedOnly_setProp _ _ _ _ _ h
          (Provided.flat pre f (hf f (List.mem_cons_self _ _))
            (ne_undefined_of_isUndefined _ hu))
    · exact fun g hg => hf g (List.mem_cons_of_mem _ hg)

theorem providedOnly_copyEntries (body : Props) (now : Int) (pre : String) (entries : Props)
    (u : Props) (h : ProvidedOnly body now u)
    (he : ∀ e ∈ entries, Provided body now (pre ++ e.1) e.2) :
    ProvidedOnly body now (copyEntries pre entries u) := by
  unfold copyEntries
  induction entries generalizing u with
  | nil => exact h
  | cons e rest ih =>
    rw [List.foldl_cons]
    apply ih
    · exact providedOnly_setProp _ _ _ _ _ h (he e (List.mem_cons_self _ _))
    · exact fun g hg => he g (List.mem_cons_of_mem _ hg)

theorem entriesOf_ok (v : JsValue) (es : Props) (h : entriesOf v = Except.ok es) :
    es = ownEntries v := by
  cases v <;> simp [entriesOf] at h <;> exact h.symm

theorem entriesOf_of_typeofObject (v : JsValue) (h : typeofObject v = true)
    (hn : v ≠ JsValue.null) : entriesOf v = Except.ok (ownEntries v) := by
  cases v <;> simp [typeofObject] at h hn ⊢ <;> rfl

theorem providedOnly_copyNested (body : Props) (now : Int) (sec : String)
    (hsec : sec ∈ ["conventions", "contact"])
    (hpres : getProp body sec ≠ JsValue.undefined) (entries : Props)
    (hsub : ∀ e ∈ entries, e ∈ ownEntries (getProp body sec)) (u u' : Props)
    (h : ProvidedOnly body now u)
    (hr : copyNested (sec ++ ".") entries u = Except.ok u') :
    ProvidedOnly body now u' := by
  have hsec5 : sec ∈ ["performanceEconomique", "investissementEmploi",
      "innovationDigitalisation", "conventions", "contact"] := by
    simp only [List.mem_cons, List.mem_singleton, List.not_mem_nil, or_false] at hsec ⊢
    rcases hsec with h1 | h1
    · exact Or.inr (Or.inr (Or.inr (Or.inl h1)))
    · exact Or.inr (Or.inr (Or.inr (Or.inr h1)))
  induction entries generalizing u with
  | nil =>
    simp only [copyNested, Except.ok.injEq] at hr
    rw [← hr]
    exact h
  | cons e rest ih =>
    obtain ⟨key, v⟩ := e
    have hmem : (key, v) ∈ ownEntries (getProp body sec) := hsub _ (List.mem_cons_self _ _)
    have hrest : ∀ g ∈ rest, g ∈ ownEntries (getProp body sec) :=
      fun g hg => hsub g (List.mem_cons_of_mem _ hg)
    unfold copyNested at hr
    cases hc : (typeofObject v && !isArray v) with
    | true =>
      rw [hc] at hr
      simp only [if_true] at hr
      cases hent : entriesOf v with
      | error err =>
        rw [hent] at hr
        simp at hr
      | ok inner =>
        rw [hent] at hr
        have hin := entriesOf_ok v inner hent
        refine ih hrest _ ?_ hr
        apply providedOnly_copyEntries _ _ _ _ _ h
        intro g hg
        rw [hin] at hg
        exact Provided.inner sec key g.1 v g.2 hsec hpres hmem hg
    | false =>
      rw [hc] at hr
      simp only [Bool.false_eq_true, if_false] at hr
      refine ih hrest _ ?_ hr
      exact providedOnly_setProp _ _ _ _ _ h (Provided.entry sec key v hsec5 hpres hmem)

theorem providedOnly_section (body : Props) (now : Int) (sec : String)
    (hsec : sec ∈ ["performanceEconomique", "investissementEmploi",
      "innovationDigitalisation", "conventions", "contact"])
    (ht : truthy (getProp body sec) = true) (u : Props) (h : ProvidedOnly body now u) :
    ProvidedOnly body now (copyEntries (sec ++ ".") (ownEntries (getProp body sec)) u) := by
  apply providedOnly_copyEntries _ _ _ _ _ h
  intro e he
  exact Provided.entry sec e.1 e.2 hsec (ne_undefined_of_truthy _ ht) he

theorem providedOnly_performanceStage (body : Props) (now : Int) (u : Props)
    (h : ProvidedOnly body now u) : ProvidedOnly body now (performanceStage body u) := by
  unfold performanceStage
  cases ht : truthy (getProp body "performanceEconomique") with
  | true => exact providedOnly_section body now "performanceEconomique" (by decide) ht u h
  | false =>
    simp only [Bool.false_eq_true, if_false]
    exact providedOnly_copyFields _ _ _ _ _ h (by decide)

theorem providedOnly_investissementStage (body : Props) (now : Int) (u : Props)
    (h : ProvidedOnly body now u) : ProvidedOnly body now (investissementStage body u) := by
  unfold investissementStage
  cases ht : truthy (getProp body "investissementEmploi") with
  | true => exact providedOnly_section body now "investissementEmploi" (by decide) ht u h
  | false =>
    simp only [Bool.false_eq_true, if_false]
    exact providedOnly_copyFields _ _ _ _ _ h (by decide)

theorem providedOnly_innovationStage (body : Props) (now : Int) (u : Props)
    (h : ProvidedOnly body now u) : ProvidedOnly body now (innovationStage body u) := by
  unfold innovationStage
  cases ht : truthy (getProp body "innovationDigitalisation") with
  | true => exact providedOnly_section body now "innovationDigitalisation" (by decide) ht u h
  | false => simpa using h

theorem providedOnly_conventionsStage (body : Props) (now : Int) (u u' : Props)
    (h : ProvidedOnly body now u) (hr : conventionsStage body u = Except.ok u') :
    ProvidedOnly body now u' := by
  unfold conventionsStage at hr
  cases ht : truthy (getProp body "conventions") with
  | true =>
    rw [ht] at hr
    simp only [if_true] at hr
    exact providedOnly_copyNested body now "conventions" (by decide)
      (ne_undefined_of_truthy _ ht) _ (fun e he => he) u u' h hr
  | false =>
    rw [ht] at hr
    simp only [Bool.false_eq_true, if_false, Except.ok.injEq] at hr
    rw [← hr]
    exact h

theorem providedOnly_contactStage (body : Props) (now : Int) (u u' : Props)
    (h : ProvidedOnly body now u) (hr : contactStage body u = Except.ok u') :
    ProvidedOnly body now u' := by
  unfold contactStage at hr
  cases ht : truthy (getProp body "contact") with
  | true =>
    rw [ht] at hr
    simp only [if_true] at hr
    exact providedOnly_copyNested body now "contact" (by decide)
      (ne_undefined_of_truthy _ ht) _ (fun e he => he) u u' h hr
  | false =>
    rw [ht] at hr
    simp only [Bool.false_eq_true, if_false, Except.ok.injEq] at hr
    rw [← hr]
    exact providedOnly_copyFields _ _ _ _ _ h (by decide)

theorem providedOnly_documentsStage (body : Props) (now : Int) (u u' : Props)
    (h : ProvidedOnly body now u) (hr : documentsStage body now u = Except.ok u') :
    ProvidedOnly body now u' := by
  unfold documentsStage at hr
  cases hu : isUndefined (getProp body "documents") with
  | true =>
    rw [hu] at hr
    simp only [if_true, Except.ok.injEq] at hr
    rw [← hr]
    exact h
  | false =>
    rw [hu] at hr
    simp only [Bool.false_eq_true, if_false] at hr
    cases hv : documentsValue now (getProp body "documents") with
    | error e =>
      rw [hv] at hr
      simp at hr
    | ok v =>
      rw [hv] at hr
      simp only [Except.ok.injEq] at hr
      rw [← hr]
      exact providedOnly_setProp _ _ _ _ _ h
        (Provided.documents v (ne_undefined_of_isUndefined _ hu) hv)

/-! ## When the construction of the update document completes -/

theorem copyNested_ok (pre : String) (entries : Props) (u : Props)
    (h : ∀ e ∈ entries, e.2 ≠ JsValue.null) :
    ∃ u', copyNested pre entries u = Except.ok u' := by
  induction entries generalizing u with
  | nil => exact ⟨u, rfl⟩
  | cons e rest ih =>
    obtain ⟨key, v⟩ := e
    have hv : v ≠ JsValue.null := h (key, v) (List.mem_cons_self _ _)
    have hrest : ∀ g ∈ rest, g.2 ≠ JsValue.null := fun g hg => h g (List.mem_cons_of_mem _ hg)
    unfold copyNested
    cases hc : (typeofObject v && !isArray v) with
    | true =>
      simp only [if_true]
      have ht : typeofObject v = true := by
        cases hto : typeofObject v with
        | true => rfl
        | false => simp [hto] at hc
      rw [entriesOf_of_typeofObject v ht hv]
      exact ih _ hrest
    | false =>
      simp only [Bool.false_eq_true, if_false]
      exact ih _ hrest

theorem normalizeDocument_ok (now : Int) (d : JsValue) (hn : d ≠ JsValue.null)
    (hu : d ≠ JsValue.undefined) : ∃ n, normalizeDocument now d = Except.ok n := by
  cases d <;> first | exact absurd rfl hn | exact absurd rfl hu | exact ⟨_, rfl⟩

theorem normalizeDocuments_ok (now : Int) (items : List JsValue)
    (h : ∀ d ∈ items, d ≠ JsValue.null ∧ d ≠ JsValue.undefined) :
    ∃ ns, normalizeDocuments now items = Except.ok ns := by
  induction items with
  | nil => exact ⟨[], rfl⟩
  | cons d rest ih =>
    obtain ⟨n, hn⟩ := normalizeDocument_ok now d (h d (List.mem_cons_self _ _)).1
      (h d (List.mem_cons_self _ _)).2
    obtain ⟨ns, hns⟩ := ih (fun x hx => h x (List.mem_cons_of_mem _ hx))
    exact ⟨n :: ns, by simp only [normalizeDocuments, hn, hns]⟩

theorem documentsStage_ok (body : Props) (now : Int) (u : Props)
    (h : ∀ d ∈ listOf (getProp body "documents"), d ≠ JsValue.null ∧ d ≠ JsValue.undefined) :
    ∃ u', documentsStage body now u = Except.ok u' := by
  unfold documentsStage
  cases hu : isUndefined (getProp body "documents") with
  | true => exact ⟨u, by simp⟩
  | false =>
    simp only [Bool.false_eq_true, if_false]
    cases hd : getProp body "documents" with
    | arr items =>
      rw [hd] at h
      obtain ⟨ns, hns⟩ := normalizeDocuments_ok now items h
      simp only [documentsValue, hns]
      exact ⟨_, rfl⟩
    | undefined => exact ⟨_, rfl⟩
    | null => exact ⟨_, rfl⟩
    | bool b => exact ⟨_, rfl⟩
    | num n => exact ⟨_, rfl⟩
    | str s => exact ⟨_, rfl⟩
    | date ms => exact ⟨_, rfl⟩
    | obj props => exact ⟨_, rfl⟩

theorem buildUpdateData_ok (body : Props) (now : Int)
    (hconv : ∀ e ∈ ownEntries (getProp body "conventions"), e.2 ≠ JsValue.null)
    (hcontact : ∀ e ∈ ownEntries (getProp body "contact"), e.2 ≠ JsValue.null)
    (hdocs : ∀ d ∈ listOf (getProp body "documents"),
      d ≠ JsValue.null ∧ d ≠ JsValue.undefined) :
    ∃ u, buildUpdateData body now = Except.ok u := by
  unfold buildUpdateData
  have h1 : ∀ u, ∃ u', conventionsStage body u = Except.ok u' := by
    intro u
    unfold conventionsStage
    cases truthy (getProp body "conventions") with
    | true => exact copyNested_ok _ _ _ hconv
    | false => exact ⟨u, by simp⟩
  have h2 : ∀ u, ∃ u', contactStage body u = Except.ok u' := by
    intro u
    unfold contactStage
    cases truthy (getProp body "contact") with
    | true => exact copyNested_ok _ _ _ hcontact
    | false =>
      simp only [Bool.false_eq_true, if_false]
      exact ⟨_, rfl⟩
  obtain ⟨u1, hu1⟩ := h1 (innovationStage body (investissementStage body (performanceStage body
    (copyFields body "identification." identificationFields []))))
  obtain ⟨u2, hu2⟩ := h2 u1
  obtain ⟨u3, hu3⟩ := documentsStage_ok body now (copyFields body "" ["description"] u2) hdocs
  simp only [hu1, hu2, hu3]
  exact ⟨_, rfl⟩

theorem buildUpdateData_sound (body : Props) (now : Int) (u : Props)
    (h : buildUpdateData body now = Except.ok u) :
    ∃ u0, u = setProp u0 "dateModification" (JsValue.date now) ∧ ProvidedOnly body now u0 := by
  unfold buildUpdateData at h
  have h0 : ProvidedOnly body now
      (innovationStage body (investissementStage body (performanceStage body
        (copyFields body "identification." identificationFields [])))) :=
    providedOnly_innovationStage _ _ _ (providedOnly_investissementStage _ _ _
      (providedOnly_performanceStage _ _ _
        (providedOnly_copyFields _ _ _ _ _ (providedOnly_nil body now) (by decide))))
  cases h1 : conventionsStage body
      (innovationStage body (investissementStage body (performanceStage body
        (copyFields body "identification." identificationFields [])))) with
  | error e => simp [h1] at h
  | ok u1 =>
    have hp1 := providedOnly_conventionsStage body now _ u1 h0 h1
    cases h2 : contactStage body u1 with
    | error e => simp [h1, h2] at h
    | ok u2 =>
      have hp2 := providedOnly_contactStage body now _ u2 hp1 h2
      have hp2' : ProvidedOnly body now (copyFields body "" ["description"] u2) :=
        providedOnly_copyFields _ _ _ _ _ hp2 (by decide)
      cases h3 : documentsStage body now (copyFields body "" ["description"] u2) with
      | error e => simp [h1, h2, h3] at h
      | ok u3 =>
        have hp3 := providedOnly_documentsStage body now _ u3 hp2' h3
        simp only [h1, h2, h3, Except.ok.injEq] at h
        exact ⟨u3, h.symm, hp3⟩

/-! ## What the summary counts -/

theorem getProp_selected (doc : Props) (fields : List String) (k : String) :
    getProp (fields.filterMap
        (fun f => if hasProp doc f then some (f, getProp doc f) else none)) k
      = if k ∈ fields then getProp doc k else JsValue.undefined := by
  induction fields with
  | nil => simp [getProp]
  | cons f rest ih =>
    by_cases hfk : f = k
    · subst hfk
      cases hh : hasProp doc f with
      | true => simp [List.filterMap_cons, hh, getProp]
      | false =>
        simp only [List.filterMap_cons, hh, Bool.false_eq_true, if_false, ih]
        rw [getProp_of_hasProp_false doc f hh]
        simp
    · have hkf : ¬ k = f := fun h => hfk h.symm
      cases hh : hasProp doc f with
      | true => simp [List.filterMap_cons, hh, getProp, hfk, hkf, ih]
      | false => simp [List.filterMap_cons, hh, hkf, ih]

theorem populateRef_isSome_eq (coll : Collection) (select : Option (List String))
    (ref : JsValue) : (populateRef coll select ref).isSome = (findById coll ref).isSome := by
  unfold populateRef
  cases findById coll ref with
  | none => rfl
  | some p => cases select <;> rfl

theorem length_filterMap_filter {α β : Type} (f : α → Option β) (p : β → Bool) (l : List α) :
    ((l.filterMap f).filter p).length
      = (l.filter (fun a => match f a with
          | some b => p b
          | none => false)).length := by
  induction l with
  | nil => rfl
  | cons a rest ih =>
    cases hf : f a with
    | none => simp [List.filterMap_cons, List.filter_cons, hf, ih]
    | some b =>
      cases hp : p b with
      | true => simp [List.filterMap_cons, List.filter_cons, hf, hp, ih]
      | false => simp [List.filterMap_cons, List.filter_cons, hf, hp, ih]

theorem length_filterMap_isSome {α β : Type} (f : α → Option β) (l : List α) :
    (l.filterMap f).length = (l.filter (fun a => (f a).isSome)).length := by
  induction l with
  | nil => rfl
  | cons a rest ih =>
    cases hf : f a with
    | none => simp [List.filterMap_cons, List.filter_cons, hf, ih]
    | some b => simp [List.filterMap_cons, List.filter_cons, hf, ih]

theorem summaryDocuments_length (db : Db) (c : Props) :
    (summaryDocuments db c).length
      = ((documentsOf c).filter (fun r => (findById db.documents r).isSome)).length := by
  unfold summaryDocuments populateList
  rw [length_filterMap_isSome]
  simp only [populateRef_isSome_eq]

theorem summaryIndicators_length (db : Db) (c : Props) :
    (summaryIndicators db c).length
      = ((listOf (getProp c "indicators")).filter
          (fun r => (findById db.indicators r).isSome)).length := by
  unfold summaryIndicators populateList
  rw [length_filterMap_isSome]
  simp only [populateRef_isSome_eq]

theorem summaryIndicators_onTrack (db : Db) (c : Props) :
    ((summaryIndicators db c).filter
        (fun i => strictEq (getProp (propsOf i) "status") (JsValue.str "ON_TRACK"))).length
      = ((listOf (getProp c "indicators")).filter
          (fun r => match findById db.indicators r with
            | some (_, indicator) =>
              strictEq (getProp indicator "status") (JsValue.str "ON_TRACK")
            | none => false)).length := by
  unfold summaryIndicators populateList
  rw [length_filterMap_filter]
  congr 2
  funext r
  unfold populateRef
  cases findById db.indicators r with
  | none => rfl
  | some p =>
    obtain ⟨k, doc⟩ := p
    simp only [propsOf]
    rw [getProp_selected]
    simp


/-! ## The claims -/

/-- C1, as stated, fails for structured payloads: the stored `advantages` of
the sample convention and the submitted `advantages` are equal, and `changes`
still has the key, with a `{from, to}` pair of two equal values. -/
theorem C1_counterexample :
    getProp sampleConvention "advantages"
        = getProp [("advantages", JsValue.arr [JsValue.str "tax relief"])] "advantages"
    ∧ hasProp (computeChanges sampleConvention
          [("advantages", JsValue.arr [JsValue.str "tax relief"])]) "advantages" = true
    ∧ getProp (computeChanges sampleConvention
          [("advantages", JsValue.arr [JsValue.str "tax relief"])]) "advantages"
        = fromTo (JsValue.arr [JsValue.str "tax relief"])
            (JsValue.arr [JsValue.str "tax relief"]) :=
  ⟨rfl, rfl, rfl⟩

/-- C1 (amended): the `changes` map that `updateConvention` builds for its
UPDATED entry has no key outside `fieldUpdates`; for a key `a` of
`fieldUpdates` it has no key `a` when the stored value equals the submitted
one and the submitted value is a primitive, and it has
`changes[a] = {from: stored, to: submitted}` when the two differ or the
submitted value is a date, array or object. -/
theorem computeChanges_diff (convention fieldUpdates : Props) (a : String) :
    (hasProp fieldUpdates a = false → hasProp (computeChanges convention fieldUpdates) a = false)
    ∧ (hasProp fieldUpdates a = true →
        ((getProp convention a = getProp fieldUpdates a
            ∧ isPrimitive (getProp fieldUpdates a) = true) →
          hasProp (computeChanges convention fieldUpdates) a = false)
        ∧ ((getProp convention a ≠ getProp fieldUpdates a
            ∨ isPrimitive (getProp fieldUpdates a) = false) →
          hasProp (computeChanges convention fieldUpdates) a = true
          ∧ getProp (computeChanges convention fieldUpdates) a
              = fromTo (getProp convention a) (getProp fieldUpdates a))) := by
  refine ⟨fun h => by simp [hasProp_computeChanges, h], fun h => ⟨fun heq => ?_, fun hne => ?_⟩⟩
  · have hs := (strictEq_eq_true_iff _ _).2 heq
    simp [hasProp_computeChanges, hs]
  · have hs := (strictEq_eq_false_iff _ _).2 hne
    simp [hasProp_computeChanges, getProp_computeChanges, h, hs]

/-- C2, as stated, fails for an Update whose body names `history`: the request
succeeds, the stored audit trail had one entry and the saved one has none. -/
theorem C2_counterexample :
    findById sampleDb.conventions (JsValue.str "c1") = some ("c1", sampleConvention)
    ∧ (historyOf sampleConvention).length = 1
    ∧ (updateConvention sampleEnv sampleDb
        (sampleRequest [("history", JsValue.arr [])])).1.status = 200
    ∧ ∃ saved,
        findById (updateConvention sampleEnv sampleDb
          (sampleRequest [("history", JsValue.arr [])])).2.conventions (JsValue.str "c1")
          = some ("c1", saved)
        ∧ (historyOf saved).length = 0 :=
  ⟨rfl, rfl, rfl, _, rfl, rfl⟩

/-- C2 (amended): a successful Create saves a convention whose history has
exactly one entry; and over any sequence of Update, UpdateStatus and
AddDocument requests in which no Update body has the key `history`, a stored
convention stays stored and its history length grows by exactly the number of
requests that succeeded on it (by one for a single successful request). -/
theorem history_length_counts_successes :
    (∀ (env : Env) (db : Db) (req : Request),
      (createConvention env db req).1.status = 201 →
      ∃ saved, (createConvention env db req).1.body = JsValue.obj saved
        ∧ (createConvention env db req).2.conventions = db.conventions ++ [(env.newId, saved)]
        ∧ (historyOf saved).length = 1)
    ∧ (∀ (steps : List Step) (db : Db) (key : String) (c : Props),
      (∀ s ∈ steps, submitsHistory s = false) →
      findById db.conventions (JsValue.str key) = some (key, c) →
      ∃ c', findById (run db steps).conventions (JsValue.str key) = some (key, c')
        ∧ (historyOf c').length = (historyOf c).length + countSucceeded key db steps) := by
  constructor
  · intro env db req h
    have hres := createConvention_success env db req h
    refine ⟨_, by rw [hres], by rw [hres], ?_⟩
    rw [historyOf_preSave, historyOf_createMutation]
    rfl
  · intro steps db key c hno hf
    obtain ⟨c', appended, hf', hh, hl⟩ := run_history steps db key c hno hf
    exact ⟨c', hf', by rw [hh, List.length_append, hl]⟩

/-- Witness for C2: a Create, and three successful requests on the sample
convention, which take its history from one entry to four. -/
theorem history_length_counts_successes_witness :
    (∃ saved, (createConvention sampleEnv sampleDb
          { params := [], body := [("enterpriseId", JsValue.str "e1"),
            ("type", JsValue.str "ANNUAL")], userId := JsValue.str "u2" }).1.body
          = JsValue.obj saved
        ∧ (historyOf saved).length = 1)
    ∧ ∃ c', findById (run sampleDb
          [{ env := sampleEnv, op := Operation.update,
             req := sampleRequest [("type", JsValue.str "BIENNIAL")] },
           { env := sampleEnv, op := Operation.updateStatus,
             req := sampleRequest [("status", JsValue.str "ACTIVE")] },
           { env := sampleEnv, op := Operation.addDocument,
             req := sampleRequest [("documentId", JsValue.str "d2")] }]).conventions
          (JsValue.str "c1") = some ("c1", c')
        ∧ (historyOf c').length = 1 + 3 := by
  constructor
  · obtain ⟨saved, hb, -, hl⟩ := history_length_counts_successes.1 sampleEnv sampleDb
      { params := [], body := [("enterpriseId", JsValue.str "e1"),
        ("type", JsValue.str "ANNUAL")], userId := JsValue.str "u2" } rfl
    exact ⟨saved, hb, hl⟩
  · exact history_length_counts_successes.2 _ sampleDb "c1" sampleConvention (by decide) rfl

/-- C3, as stated, fails for an Update whose body names `history`: the saved
audit trail is the submitted list, in which the CREATED entry names another
user, and the stored trail is not a prefix of it. -/
theorem C3_counterexample :
    findById sampleDb.conventions (JsValue.str "c1") = some ("c1", sampleConvention)
    ∧ ∃ saved,
        findById (run sampleDb
          [{ env := sampleEnv, op := Operation.update,
             req := sampleRequest [("history", JsValue.arr
               [JsValue.obj [("action", JsValue.str "CREATED"), ("userId", JsValue.str "u9"),
                 ("changes", JsValue.obj [("type", JsValue.str "ANNUAL")]),
                 ("timestamp", JsValue.num 1690000000000)]])] }]).conventions
          (JsValue.str "c1") = some ("c1", saved)
        ∧ historyOf saved
            = [JsValue.obj [("action", JsValue.str "CREATED"), ("userId", JsValue.str "u9"),
                ("changes", JsValue.obj [("type", JsValue.str "ANNUAL")]),
                ("timestamp", JsValue.num 1690000000000)]]
        ∧ ¬ (historyOf sampleConvention <+: historyOf saved) := by
  refine ⟨rfl, _, rfl, rfl, ?_⟩
  intro h
  have heq := List.IsPrefix.eq_of_length_le h (by decide)
  simp [historyOf, sampleConvention, getProp, listOf, historyEntry] at heq

/-- C3 (amended): over any sequence of Update, UpdateStatus and AddDocument
requests in which no Update body has the key `history`, a stored convention
stays stored and the history it had before the sequence is a prefix of the
history it has after it. -/
theorem history_append_only (steps : List Step) (db : Db) (key : String) (c : Props)
    (hno : ∀ s ∈ steps, submitsHistory s = false)
    (hf : findById db.conventions (JsValue.str key) = some (key, c)) :
    ∃ c', findById (run db steps).conventions (JsValue.str key) = some (key, c')
      ∧ historyOf c <+: historyOf c' := by
  obtain ⟨c', appended, hf', hh, -⟩ := run_history steps db key c hno hf
  exact ⟨c', hf', by rw [hh]; exact List.prefix_append _ _⟩

/-- Witness for C3: an Update with arbitrary fields, a status change and an
added document on the sample convention. -/
theorem history_append_only_witness :
    ∃ c', findById (run sampleDb
          [{ env := sampleEnv, op := Operation.update,
             req := sampleRequest [("status", JsValue.str "ACTIVE"),
               ("documents", JsValue.arr [])] },
           { env := sampleEnv, op := Operation.updateStatus,
             req := sampleRequest [("status", JsValue.str "EXPIRED")] },
           { env := sampleEnv, op := Operation.addDocument,
             req := sampleRequest [("documentId", JsValue.str "d2")] }]).conventions
          (JsValue.str "c1") = some ("c1", c')
      ∧ historyOf sampleConvention <+: historyOf c' :=
  history_append_only _ sampleDb "c1" sampleConvention (by decide) rfl

/-- C4 (the code at the failing input): user `u2` updates the sample
convention with the body `{_lastModifiedBy: "u9"}`. Line 92 stamps `u2` on
the transient marker, but `Object.assign` at line 95 then copies the body
over it: the document handed to `save` carries the marker `u9`; the stamp of
line 96 lands on a top-level property named `metadata.lastModifiedBy`, not on
the nested field. The update answers 200 and the saved convention has
`metadata.lastModifiedBy = "u9"`, which is neither the acting user nor the
stored value. The same holds for every stored convention, body, user and
instant: a submitted `_lastModifiedBy` is the marker that is saved. -/
theorem update_marker_taken_from_body :
    (sampleRequest [("_lastModifiedBy", JsValue.str "u9")]).userId = JsValue.str "u2"
    ∧ lastModifiedByOf sampleConvention = JsValue.str "u1"
    ∧ getProp (updateMutation sampleConvention [("_lastModifiedBy", JsValue.str "u9")]
        (JsValue.str "u2") 1700000000000) "_lastModifiedBy" = JsValue.str "u9"
    ∧ getProp (updateMutation sampleConvention [("_lastModifiedBy", JsValue.str "u9")]
        (JsValue.str "u2") 1700000000000) "metadata.lastModifiedBy" = JsValue.str "u2"
    ∧ (updateConvention sampleEnv sampleDb
        (sampleRequest [("_lastModifiedBy", JsValue.str "u9")])).1.status = 200
    ∧ (∃ saved,
        findById (updateConvention sampleEnv sampleDb
          (sampleRequest [("_lastModifiedBy", JsValue.str "u9")])).2.conventions
          (JsValue.str "c1") = some ("c1", saved)
        ∧ lastModifiedByOf saved = JsValue.str "u9")
    ∧ ∀ (c body : Props) (userId : JsValue) (now : Int),
        hasProp body "_lastModifiedBy" = true →
        getProp (updateMutation c body userId now) "_lastModifiedBy"
          = getProp body "_lastModifiedBy" :=
  ⟨rfl, rfl, rfl, rfl, rfl, ⟨_, rfl, rfl⟩,
    fun c body userId now h => by rw [marker_updateMutation_any, if_pos h]⟩

/-- The last modifier on the other paths: after a successful Create,
UpdateStatus or AddDocument by the user with identifier `u`, and after a
successful Update by `u` whose body has no key `_lastModifiedBy`, the
convention that is saved and returned has `metadata.lastModifiedBy = u`. -/
theorem lastModifiedBy_is_acting_user (env : Env) (db : Db) (req : Request) (u : String)
    (hu : req.userId = JsValue.str u) :
    ((createConvention env db req).1.status = 201 →
      ∃ saved, createConvention env db req
          = ({ status := 201, body := JsValue.obj saved },
             { db with conventions := (db.conventions ++ [(env.newId, saved)]) })
        ∧ lastModifiedByOf saved = JsValue.str u)
    ∧ ((updateConvention env db req).1.status = 200 →
      hasProp req.body "_lastModifiedBy" = false →
      ∃ key saved, updateConvention env db req
          = (okJson (JsValue.obj saved),
             { db with conventions := (replaceDoc db.conventions key saved) })
        ∧ lastModifiedByOf saved = JsValue.str u)
    ∧ ((updateConventionStatus env db req).1.status = 200 →
      ∃ key saved, updateConventionStatus env db req
          = (okJson (JsValue.obj saved),
             { db with conventions := (replaceDoc db.conventions key saved) })
        ∧ lastModifiedByOf saved = JsValue.str u)
    ∧ ((addDocumentToConvention env db req).1.status = 200 →
      ∃ key saved, addDocumentToConvention env db req
          = (okJson (JsValue.obj saved),
             { db with conventions := (replaceDoc db.conventions key saved) })
        ∧ lastModifiedByOf saved = JsValue.str u) := by
  refine ⟨fun h => ?_, fun h hb => ?_, fun h => ?_, fun h => ?_⟩
  · exact ⟨_, createConvention_success env db req h,
      lastModifiedByOf_preSave _ u (by rw [marker_createMutation, hu])⟩
  · obtain ⟨key, c, -, hres⟩ := updateConvention_success env db req h
    exact ⟨key, _, hres, lastModifiedByOf_preSave _ u (by rw [marker_updateMutation _ _ _ _ hb, hu])⟩
  · obtain ⟨key, c, -, hres⟩ := updateConventionStatus_success env db req h
    exact ⟨key, _, hres, lastModifiedByOf_preSave _ u (by rw [marker_statusMutation, hu])⟩
  · obtain ⟨key, c, -, hres⟩ := addDocumentToConvention_success env db req h
    exact ⟨key, _, hres, lastModifiedByOf_preSave _ u (by rw [marker_documentMutation, hu])⟩

/-- An instance of the last modifier on the other paths: user `u2` updates
the sample convention, submitting a `metadata` object of their own, and the
saved marker is `u2`. -/
theorem lastModifiedBy_is_acting_user_witness :
    ∃ key saved, updateConvention sampleEnv sampleDb
        (sampleRequest [("metadata", JsValue.obj [("lastModifiedBy", JsValue.str "u9")])])
          = (okJson (JsValue.obj saved),
             { sampleDb with conventions := (replaceDoc sampleDb.conventions key saved) })
        ∧ lastModifiedByOf saved = JsValue.str "u2" :=
  (lastModifiedBy_is_acting_user sampleEnv sampleDb
    (sampleRequest [("metadata", JsValue.obj [("lastModifiedBy", JsValue.str "u9")])])
    "u2" rfl).2.1 rfl rfl

/-- C5: for a stored convention with status `S0` and a requested status `S`,
`updateConventionStatus` (when lookup and save do not fail) answers 200 with the
saved convention, whose history is the old history followed by exactly one
entry, with action STATUS_CHANGED, the acting user and changes
`{from: S0, to: S}`, and whose status is `S`. -/
theorem updateConventionStatus_records_transition (env : Env) (db : Db) (req : Request)
    (key : String) (c : Props)
    (hl : env.lookupError = none)
    (hf : findById db.conventions (getProp req.params "id") = some (key, c))
    (hs : env.saveError
      (statusMutation c (getProp req.body "status") req.userId env.now) = none) :
    ∃ saved, updateConventionStatus env db req
        = ({ status := 200, body := JsValue.obj saved },
           { db with conventions := (replaceDoc db.conventions key saved) })
      ∧ historyOf saved = historyOf c ++
          [historyEntry "STATUS_CHANGED" req.userId
            (JsValue.obj [("from", getProp c "status"), ("to", getProp req.body "status")])
            env.now]
      ∧ getProp saved "status" = getProp req.body "status" := by
  refine ⟨preSave (statusMutation c (getProp req.body "status") req.userId env.now), ?_, ?_, ?_⟩
  · rw [updateConventionStatus_found env db req key c hl hf, hs]
    rfl
  · rw [historyOf_preSave, historyOf_statusMutation]
  · rw [getProp_preSave _ _ (by decide), getProp_statusMutation_status]

/-- Witness for C5: the sample convention goes from DRAFT to ACTIVE. -/
theorem updateConventionStatus_records_transition_witness :
    ∃ saved, updateConventionStatus sampleEnv sampleDb
          (sampleRequest [("status", JsValue.str "ACTIVE")])
        = ({ status := 200, body := JsValue.obj saved },
           { sampleDb with conventions := (replaceDoc sampleDb.conventions "c1" saved) })
      ∧ historyOf saved = historyOf sampleConvention ++
          [historyEntry "STATUS_CHANGED" (JsValue.str "u2")
            (JsValue.obj [("from", JsValue.str "DRAFT"), ("to", JsValue.str "ACTIVE")])
            1700000000000]
      ∧ getProp saved "status" = JsValue.str "ACTIVE" :=
  updateConventionStatus_records_transition sampleEnv sampleDb
    (sampleRequest [("status", JsValue.str "ACTIVE")]) "c1" sampleConvention rfl rfl rfl

/-- C6: for a stored convention with documents `D` and a submitted
`documentId` `d`, `addDocumentToConvention` (when lookup and save do not fail)
answers 200 with the saved convention, whose documents are `D` followed by
`d`, and whose history is the old history followed by one entry with action
DOCUMENT_ADDED, the acting user and changes `{documentId: d}`. -/
theorem addDocumentToConvention_appends (env : Env) (db : Db) (req : Request)
    (key : String) (c : Props)
    (hl : env.lookupError = none)
    (hf : findById db.conventions (getProp req.params "id") = some (key, c))
    (hs : env.saveError
      (documentMutation c (getProp req.body "documentId") req.userId env.now) = none) :
    ∃ saved, addDocumentToConvention env db req
        = ({ status := 200, body := JsValue.obj saved },
           { db with conventions := (replaceDoc db.conventions key saved) })
      ∧ documentsOf saved = documentsOf c ++ [getProp req.body "documentId"]
      ∧ historyOf saved = historyOf c ++
          [historyEntry "DOCUMENT_ADDED" req.userId
            (JsValue.obj [("documentId", getProp req.body "documentId")]) env.now] := by
  refine ⟨preSave (documentMutation c (getProp req.body "documentId") req.userId env.now),
    ?_, ?_, ?_⟩
  · rw [addDocumentToConvention_found env db req key c hl hf, hs]
    rfl
  · unfold documentsOf
    rw [getProp_preSave _ _ (by decide)]
    exact documentsOf_documentMutation c _ req.userId env.now
  · rw [historyOf_preSave, historyOf_documentMutation]

/-- Witness for C6: the document `d1`, already referenced by the sample
convention, is added once more and comes last. -/
theorem addDocumentToConvention_appends_witness :
    ∃ saved, addDocumentToConvention sampleEnv sampleDb
          (sampleRequest [("documentId", JsValue.str "d1")])
        = ({ status := 200, body := JsValue.obj saved },
           { sampleDb with conventions := (replaceDoc sampleDb.conventions "c1" saved) })
      ∧ documentsOf saved = [JsValue.str "d1"] ++ [JsValue.str "d1"]
      ∧ historyOf saved = historyOf sampleConvention ++
          [historyEntry "DOCUMENT_ADDED" (JsValue.str "u2")
            (JsValue.obj [("documentId", JsValue.str "d1")]) 1700000000000] :=
  addDocumentToConvention_appends sampleEnv sampleDb
    (sampleRequest [("documentId", JsValue.str "d1")]) "c1" sampleConvention rfl rfl rfl

/-- C7: when the lookup of the convention identifier returns nothing, each of
Update, UpdateStatus, AddDocument, GetHistory and GetSummary answers 404 with
body `{message: 'Convention not found'}` and leaves the store as it was. -/
theorem convention_not_found (env : Env) (db : Db) (req : Request)
    (hl : env.lookupError = none)
    (hf : findById db.conventions (getProp req.params "id") = none) :
    updateConvention env db req
        = ({ status := 404,
             body := JsValue.obj [("message", JsValue.str "Convention not found")] }, db)
    ∧ updateConventionStatus env db req
        = ({ status := 404,
             body := JsValue.obj [("message", JsValue.str "Convention not found")] }, db)
    ∧ addDocumentToConvention env db req
        = ({ status := 404,
             body := JsValue.obj [("message", JsValue.str "Convention not found")] }, db)
    ∧ getConventionHistory env db req
        = ({ status := 404,
             body := JsValue.obj [("message", JsValue.str "Convention not found")] }, db)
    ∧ getConventionSummary env db req
        = ({ status := 404,
             body := JsValue.obj [("message", JsValue.str "Convention not found")] }, db) := by
  refine ⟨?_, ?_, ?_, ?_, ?_⟩
  · simp [updateConvention, hl, hf, notFound, messageBody]
  · simp [updateConventionStatus, hl, hf, notFound, messageBody]
  · simp [addDocumentToConvention, hl, hf, notFound, messageBody]
  · simp [getConventionHistory, hl, hf, notFound, messageBody]
  · simp [getConventionSummary, hl, hf, notFound, messageBody]

/-- Witness for C7: the identifier `c7` is not in the sample store. -/
theorem convention_not_found_witness :
    (updateConvention sampleEnv sampleDb
        { params := [("id", JsValue.str "c7")], body := [("type", JsValue.str "X")],
          userId := JsValue.str "u2" }).1.status = 404
    ∧ (getConventionSummary sampleEnv sampleDb
        { params := [("id", JsValue.str "c7")], body := [("type", JsValue.str "X")],
          userId := JsValue.str "u2" }).2.conventions = sampleDb.conventions := by
  have h := convention_not_found sampleEnv sampleDb
    { params := [("id", JsValue.str "c7")], body := [("type", JsValue.str "X")],
      userId := JsValue.str "u2" } rfl rfl
  exact ⟨by rw [h.1], by rw [h.2.2.2.2]⟩

/-- C8: `createConvention` answers 404 'Enterprise not found' exactly when the
enterprise lookup for the submitted `enterpriseId` returns nothing (without
throwing), and then the store is left as it was: nothing is saved. None of
the seven other convention handlers ever gives that answer. -/
theorem enterprise_not_found_only_on_create (env : Env) (db : Db) (req : Request) :
    ((createConvention env db req).1 = notFound "Enterprise not found"
      ↔ (env.lookupError = none
          ∧ findById db.enterprises (getProp req.body "enterpriseId") = none))
    ∧ ((createConvention env db req).1 = notFound "Enterprise not found" →
        (createConvention env db req).2 = db)
    ∧ (getConventionsByEnterprise env db req).1 ≠ notFound "Enterprise not found"
    ∧ (getActiveConventions env db req).1 ≠ notFound "Enterprise not found"
    ∧ (updateConvention env db req).1 ≠ notFound "Enterprise not found"
    ∧ (updateConventionStatus env db req).1 ≠ notFound "Enterprise not found"
    ∧ (addDocumentToConvention env db req).1 ≠ notFound "Enterprise not found"
    ∧ (getConventionHistory env db req).1 ≠ notFound "Enterprise not found"
    ∧ (getConventionSummary env db req).1 ≠ notFound "Enterprise not found" := by
  have hcreate : (createConvention env db req).1 = notFound "Enterprise not found" →
      env.lookupError = none
        ∧ findById db.enterprises (getProp req.body "enterpriseId") = none := by
    intro h
    have hst := congrArg Response.status h
    cases hl : env.lookupError with
    | some e => simp [createConvention, hl, serverError, notFound] at hst
    | none =>
      cases hf : findById db.enterprises (getProp req.body "enterpriseId") with
      | none => exact ⟨rfl, rfl⟩
      | some p =>
        rw [createConvention_found env db req p hl hf] at hst
        revert hst
        cases env.saveError _ <;> simp [serverError, notFound]
  refine ⟨⟨hcreate, fun h => ?_⟩, fun h => ?_, ?_, ?_, ?_, ?_, ?_, ?_, ?_⟩
  · simp [createConvention, h.1, h.2]
  · obtain ⟨hl, hf⟩ := hcreate h
    simp [createConvention, hl, hf]
  · intro h
    have hst := congrArg Response.status h
    revert hst
    cases hl : env.lookupError <;>
      simp [getConventionsByEnterprise, hl, serverError, notFound, okJson]
  · intro h
    have hst := congrArg Response.status h
    revert hst
    cases hl : env.lookupError <;>
      simp [getActiveConventions, hl, serverError, notFound, okJson]
  · intro h
    cases hl : env.lookupError with
    | some e =>
      have hst := congrArg Response.status h
      simp [updateConvention, hl, serverError, notFound] at hst
    | none =>
      cases hf : findById db.conventions (getProp req.params "id") with
      | none =>
        have hb := congrArg Response.body h
        simp [updateConvention, hl, hf, notFound, messageBody] at hb
      | some p =>
        have hst := congrArg Response.status h
        rw [updateConvention_found env db req p.1 p.2 hl hf] at hst
        revert hst
        cases env.saveError _ <;> simp [serverError, notFound, okJson]
  · intro h
    cases hl : env.lookupError with
    | some e =>
      have hst := congrArg Response.status h
      simp [updateConventionStatus, hl, serverError, notFound] at hst
    | none =>
      cases hf : findById db.conventions (getProp req.params "id") with
      | none =>
        have hb := congrArg Response.body h
        simp [updateConventionStatus, hl, hf, notFound, messageBody] at hb
      | some p =>
        have hst := congrArg Response.status h
        rw [updateConventionStatus_found env db req p.1 p.2 hl hf] at hst
        revert hst
        cases env.saveError _ <;> simp [serverError, notFound, okJson]
  · intro h
    cases hl : env.lookupError with
    | some e =>
      have hst := congrArg Response.status h
      simp [addDocumentToConvention, hl, serverError, notFound] at hst
    | none =>
      cases hf : findById db.conventions (getProp req.params "id") with
      | none =>
        have hb := congrArg Response.body h
        simp [addDocumentToConvention, hl, hf, notFound, messageBody] at hb
      | some p =>
        have hst := congrArg Response.status h
        rw [addDocumentToConvention_found env db req p.1 p.2 hl hf] at hst
        revert hst
        cases env.saveError _ <;> simp [serverError, notFound, okJson]
  · intro h
    cases hl : env.lookupError with
    | some e =>
      have hst := congrArg Response.status h
      simp [getConventionHistory, hl, serverError, notFound] at hst
    | none =>
      cases hf : findById db.conventions (getProp req.params "id") with
      | none =>
        have hb := congrArg Response.body h
        simp [getConventionHistory, hl, hf, notFound, messageBody] at hb
      | some p =>
        have hst := congrArg Response.status h
        simp [getConventionHistory, hl, hf, notFound, okJson] at hst
  · intro h
    cases hl : env.lookupError with
    | some e =>
      have hst := congrArg Response.status h
      simp [getConventionSummary, hl, serverError, notFound] at hst
    | none =>
      cases hf : findById db.conventions (getProp req.params "id") with
      | none =>
        have hb := congrArg Response.body h
        simp [getConventionSummary, hl, hf, notFound, messageBody] at hb
      | some p =>
        have hst := congrArg Response.status h
        simp [getConventionSummary, hl, hf, notFound, okJson] at hst

/-- C9: a Create request whose enterprise exists (when lookup and save do not
fail) answers 201 with the saved convention, which is added to the store,
carries the submitted `enterpriseId`, `signedDate`, `startDate`, `endDate`,
`type`, `advantages` and `obligations`, has `metadata.createdBy` and
`metadata.lastModifiedBy` equal to the acting user, and whose history is
exactly one entry: action CREATED, the acting user, changes `{type}`. -/
theorem createConvention_creates (env : Env) (db : Db) (req : Request) (e : String × Props)
    (hl : env.lookupError = none)
    (hf : findById db.enterprises (getProp req.body "enterpriseId") = some e)
    (hs : env.saveError (createMutation env.newId req.body req.userId env.now) = none) :
    ∃ saved, createConvention env db req
        = ({ status := 201, body := JsValue.obj saved },
           { db with conventions := (db.conventions ++ [(env.newId, saved)]) })
      ∧ (∀ k ∈ ["enterpriseId", "signedDate", "startDate", "endDate", "type", "advantages",
            "obligations"], getProp saved k = getProp req.body k)
      ∧ createdByOf saved = req.userId
      ∧ lastModifiedByOf saved = req.userId
      ∧ historyOf saved
          = [historyEntry "CREATED" req.userId
              (JsValue.obj [("type", getProp req.body "type")]) env.now] := by
  refine ⟨preSave (createMutation env.newId req.body req.userId env.now), ?_, ?_, ?_, ?_, ?_⟩
  · rw [createConvention_found env db req e hl hf, hs]
  · intro k hk
    have hne : k ≠ "metadata" := by
      rintro rfl
      simp at hk
    rw [getProp_preSave _ _ hne, getProp_createMutation _ _ _ _ _ hk]
  · simp [createdByOf, metadata_preSave_createMutation, propsOf, getProp]
  · simp [lastModifiedByOf, metadata_preSave_createMutation, propsOf, getProp]
  · rw [historyOf_preSave, historyOf_createMutation]

/-- Witness for C9: user `u2` creates an ANNUAL convention for the stored
enterprise `e1`. -/
theorem createConvention_creates_witness :
    ∃ saved, createConvention sampleEnv sampleDb
          { params := [], body := [("enterpriseId", JsValue.str "e1"),
            ("type", JsValue.str "ANNUAL"), ("advantages", JsValue.arr [JsValue.str "grant"])],
            userId := JsValue.str "u2" }
        = ({ status := 201, body := JsValue.obj saved },
           { sampleDb with conventions := (sampleDb.conventions ++ [("c2", saved)]) })
      ∧ getProp saved "type" = JsValue.str "ANNUAL"
      ∧ createdByOf saved = JsValue.str "u2"
      ∧ lastModifiedByOf saved = JsValue.str "u2"
      ∧ historyOf saved
          = [historyEntry "CREATED" (JsValue.str "u2")
              (JsValue.obj [("type", JsValue.str "ANNUAL")]) 1700000000000] := by
  obtain ⟨saved, h1, h2, h3, h4, h5⟩ := createConvention_creates sampleEnv sampleDb
    { params := [], body := [("enterpriseId", JsValue.str "e1"),
      ("type", JsValue.str "ANNUAL"), ("advantages", JsValue.arr [JsValue.str "grant"])],
      userId := JsValue.str "u2" } ("e1", [("name", JsValue.str "Acme")]) rfl rfl rfl
  exact ⟨saved, h1, h2 "type" (by simp), h3, h4, h5⟩

/-- C10, as stated, fails for a submitted array: user `u2` updates the sample
convention with the `advantages` it already holds, `["tax relief"]`. The
update succeeds and appends one UPDATED entry, but its `changes` map is not
empty: it holds `advantages` with `from` and `to` both `["tax relief"]`. -/
theorem C10_counterexample :
    getProp sampleConvention "advantages" = JsValue.arr [JsValue.str "tax relief"]
    ∧ (updateConvention sampleEnv sampleDb
        (sampleRequest [("advantages", JsValue.arr [JsValue.str "tax relief"])])).1.status = 200
    ∧ ∃ saved,
        findById (updateConvention sampleEnv sampleDb
          (sampleRequest [("advantages", JsValue.arr [JsValue.str "tax relief"])])).2.conventions
          (JsValue.str "c1") = some ("c1", saved)
        ∧ historyOf saved
            = historyOf sampleConvention ++
                [historyEntry "UPDATED" (JsValue.str "u2")
                  (JsValue.obj [("advantages",
                    fromTo (JsValue.arr [JsValue.str "tax relief"])
                      (JsValue.arr [JsValue.str "tax relief"]))])
                  1700000000000] :=
  ⟨rfl, rfl, _, rfl, rfl⟩

/-- C10 (amended): an Update of a stored convention (its history an array)
whose body does not submit `history` succeeds when lookup and save do not
fail, and the saved history is the old history followed by exactly one UPDATED
entry of the acting user: the entry is never suppressed. Its `changes` map is
empty exactly when every submitted value is strictly equal (`===`) to the
stored one, the empty body included; a submitted value that is not strictly
equal to the stored one, as every array, object or date is, has its key in
the map. -/
theorem updateConvention_noop_still_recorded (env : Env) (db : Db) (req : Request)
    (key : String) (c : Props)
    (hl : env.lookupError = none)
    (hf : findById db.conventions (getProp req.params "id") = some (key, c))
    (hs : env.saveError (updateMutation c req.body req.userId env.now) = none)
    (hno : hasProp req.body "history" = false) :
    ∃ saved changes, updateConvention env db req
        = ({ status := 200, body := JsValue.obj saved },
           { db with conventions := (replaceDoc db.conventions key saved) })
      ∧ historyOf saved
          = historyOf c ++ [historyEntry "UPDATED" req.userId (JsValue.obj changes) env.now]
      ∧ (changes = [] ↔
          ∀ k, hasProp req.body k = true →
            strictEq (getProp c k) (getProp req.body k) = true)
      ∧ (∀ k, hasProp req.body k = true →
          isPrimitive (getProp req.body k) = false → hasProp changes k = true)
      ∧ (req.body = [] → changes = []) := by
  refine ⟨preSave (updateMutation c req.body req.userId env.now),
    computeChanges c req.body, ?_, ?_, ⟨fun h k hk => ?_, computeChanges_eq_nil c req.body⟩,
    fun k hk hp => ?_, fun hb => ?_⟩
  · rw [updateConvention_found env db req key c hl hf, hs]
    rfl
  · rw [historyOf_preSave, historyOf_updateMutation _ _ _ _ hno]
  · have hc := hasProp_computeChanges c req.body k
    rw [h, hk] at hc
    cases hse : strictEq (getProp c k) (getProp req.body k) with
    | true => rfl
    | false => simp [hse, hasProp] at hc
  · rw [hasProp_computeChanges, hk]
    have : strictEq (getProp c k) (getProp req.body k) = false :=
      (strictEq_eq_false_iff _ _).2 (Or.inr hp)
    simp [this]
  · rw [hb]
    rfl

/-- Witness for C10: the sample convention is updated with its own type, and
the appended UPDATED entry has an empty `changes` map. -/
theorem updateConvention_noop_still_recorded_witness :
    ∃ saved, updateConvention sampleEnv sampleDb (sampleRequest [("type", JsValue.str "ANNUAL")])
        = ({ status := 200, body := JsValue.obj saved },
           { sampleDb with conventions := (replaceDoc sampleDb.conventions "c1" saved) })
      ∧ historyOf saved
          = historyOf sampleConvention ++
              [historyEntry "UPDATED" (JsValue.str "u2") (JsValue.obj []) 1700000000000] := by
  obtain ⟨saved, changes, h1, h2, h3, -, -⟩ :=
    updateConvention_noop_still_recorded sampleEnv sampleDb
      (sampleRequest [("type", JsValue.str "ANNUAL")]) "c1" sampleConvention rfl rfl rfl rfl
  have hch : changes = [] := by
    rw [h3]
    intro k hk
    have hk2 : k = "type" := by
      by_contra hne
      simp [sampleRequest, hasProp, Ne.symm hne] at hk
    subst hk2
    rfl
  subst hch
  exact ⟨saved, h1, h2⟩

/-- C11, as stated, fails for the key `metadata.lastModifiedBy`: user `u2`
submits it with the value `u9`, the Update succeeds, and the saved convention
holds `u2` under that key, written by the last source of `Object.assign`. -/
theorem C11_counterexample :
    hasProp (sampleRequest [("metadata.lastModifiedBy", JsValue.str "u9")]).body
        "metadata.lastModifiedBy" = true
    ∧ getProp (sampleRequest [("metadata.lastModifiedBy", JsValue.str "u9")]).body
        "metadata.lastModifiedBy" = JsValue.str "u9"
    ∧ (updateConvention sampleEnv sampleDb
        (sampleRequest [("metadata.lastModifiedBy", JsValue.str "u9")])).1.status = 200
    ∧ ∃ saved,
        findById (updateConvention sampleEnv sampleDb
          (sampleRequest [("metadata.lastModifiedBy", JsValue.str "u9")])).2.conventions
          (JsValue.str "c1") = some ("c1", saved)
        ∧ getProp saved "metadata.lastModifiedBy" = JsValue.str "u2" :=
  ⟨rfl, rfl, rfl, _, rfl, rfl⟩

/-- C11 (amended): an Update with body `F` on a stored convention `c` (when
lookup and save do not fail) answers 200 with the saved convention, in which
every key of `F` other than `metadata` and `metadata.lastModifiedBy` holds the
submitted value; every key absent from `F`, other than `history`, `metadata`
and the two markers `_lastModifiedBy` and `metadata.lastModifiedBy`, holds the
value it had in `c` (so `status` and `documents` when not submitted); and
when `metadata` is absent from `F`, every nested field of `metadata` other
than `lastModifiedBy` (so `createdBy`) is as in `c`. -/
theorem updateConvention_frame (env : Env) (db : Db) (req : Request) (key : String)
    (c : Props)
    (hl : env.lookupError = none)
    (hf : findById db.conventions (getProp req.params "id") = some (key, c))
    (hs : env.saveError (updateMutation c req.body req.userId env.now) = none) :
    ∃ saved, updateConvention env db req
        = ({ status := 200, body := JsValue.obj saved },
           { db with conventions := (replaceDoc db.conventions key saved) })
      ∧ (∀ k, hasProp req.body k = true → k ≠ "metadata" → k ≠ "metadata.lastModifiedBy" →
          getProp saved k = getProp req.body k)
      ∧ (∀ k, hasProp req.body k = false → k ≠ "history" → k ≠ "metadata" →
          k ≠ "_lastModifiedBy" → k ≠ "metadata.lastModifiedBy" →
          getProp saved k = getProp c k)
      ∧ (hasProp req.body "metadata" = false → ∀ f, f ≠ "lastModifiedBy" →
          getProp (propsOf (getProp saved "metadata")) f
            = getProp (propsOf (getProp c "metadata")) f) := by
  refine ⟨preSave (updateMutation c req.body req.userId env.now), ?_, ?_, ?_, ?_⟩
  · rw [updateConvention_found env db req key c hl hf, hs]
    rfl
  · intro k hk hmeta hflat
    rw [getProp_preSave _ _ hmeta, getProp_updateMutation_submitted _ _ _ _ _ hk hflat]
  · intro k hk hh hmeta hm hflat
    rw [getProp_preSave _ _ hmeta, getProp_updateMutation_untouched _ _ _ _ _ hk hh hm hflat]
  · intro hk f hfne
    rw [metadata_field_preSave _ _ hfne,
      getProp_updateMutation_untouched _ _ _ _ _ hk (by decide) (by decide) (by decide)]

/-- Witness for C11: an Update of `type` and `endDate` on the sample
convention keeps its status, its documents and its creator. -/
theorem updateConvention_frame_witness :
    ∃ saved, updateConvention sampleEnv sampleDb
          (sampleRequest [("type", JsValue.str "BIENNIAL"), ("endDate", JsValue.num 1800000000000)])
        = ({ status := 200, body := JsValue.obj saved },
           { sampleDb with conventions := (replaceDoc sampleDb.conventions "c1" saved) })
      ∧ getProp saved "type" = JsValue.str "BIENNIAL"
      ∧ getProp saved "endDate" = JsValue.num 1800000000000
      ∧ getProp saved "status" = JsValue.str "DRAFT"
      ∧ getProp saved "documents" = JsValue.arr [JsValue.str "d1"]
      ∧ createdByOf saved = JsValue.str "u1" := by
  obtain ⟨saved, h1, h2, h3, h4⟩ := updateConvention_frame sampleEnv sampleDb
    (sampleRequest [("type", JsValue.str "BIENNIAL"), ("endDate", JsValue.num 1800000000000)])
    "c1" sampleConvention rfl rfl rfl
  exact ⟨saved, h1, h2 "type" rfl (by decide) (by decide),
    h2 "endDate" rfl (by decide) (by decide),
    h3 "status" rfl (by decide) (by decide) (by decide) (by decide),
    h3 "documents" rfl (by decide) (by decide) (by decide) (by decide),
    h4 rfl "createdBy" (by decide)⟩

/-- C12, as stated, fails for a reference that does not resolve: user `u2` adds
the document identifier `d9`, for which no document is stored, to the
convention `c5` of the summary store. AddDocument answers 200 and the stored
convention then lists four documents, but the summary still reports
`documentsSubmitted = 3`. -/
theorem C12_counterexample :
    findById summaryDb.documents (JsValue.str "d9") = none
    ∧ (addDocumentToConvention sampleEnv summaryDb
        { params := [("id", JsValue.str "c5")], body := [("documentId", JsValue.str "d9")],
          userId := JsValue.str "u2" }).1.status = 200
    ∧ ∃ c,
        findById (addDocumentToConvention sampleEnv summaryDb
          { params := [("id", JsValue.str "c5")], body := [("documentId", JsValue.str "d9")],
            userId := JsValue.str "u2" }).2.conventions (JsValue.str "c5") = some ("c5", c)
        ∧ documentsOf c
            = [JsValue.str "d1", JsValue.str "d2", JsValue.str "d3", JsValue.str "d9"]
        ∧ getProp (progressOf (getConventionSummary sampleEnv
            (addDocumentToConvention sampleEnv summaryDb
              { params := [("id", JsValue.str "c5")],
                body := [("documentId", JsValue.str "d9")],
                userId := JsValue.str "u2" }).2
            { params := [("id", JsValue.str "c5")], body := [],
              userId := JsValue.str "u2" }).1) "documentsSubmitted" = JsValue.num 3 :=
  ⟨rfl, rfl, _, rfl, rfl, rfl⟩

/-- C12 (amended): for a stored convention, `getConventionSummary` (when the
lookup does not fail) answers 200 with `progress.documentsSubmitted` the
number of its document references that resolve to a stored document,
`progress.totalIndicators` the number of its indicator references that
resolve to a stored indicator, and `progress.indicatorsOnTrack` the number of
its indicator references that resolve to an indicator whose status is exactly
'ON_TRACK'. So `indicatorsOnTrack` is at most `totalIndicators`, no count
exceeds the number of references, and the counts are the numbers of documents
and of indicators when every reference resolves. -/
theorem getConventionSummary_counts (env : Env) (db : Db) (req : Request) (key : String)
    (c : Props)
    (hl : env.lookupError = none)
    (hf : findById db.conventions (getProp req.params "id") = some (key, c)) :
    (getConventionSummary env db req).1.status = 200
    ∧ getProp (progressOf (getConventionSummary env db req).1) "documentsSubmitted"
        = JsValue.num
            ((documentsOf c).filter (fun r => (findById db.documents r).isSome)).length
    ∧ getProp (progressOf (getConventionSummary env db req).1) "totalIndicators"
        = JsValue.num
            ((listOf (getProp c "indicators")).filter
              (fun r => (findById db.indicators r).isSome)).length
    ∧ getProp (progressOf (getConventionSummary env db req).1) "indicatorsOnTrack"
        = JsValue.num
            ((listOf (getProp c "indicators")).filter
              (fun r => match findById db.indicators r with
                | some (_, indicator) =>
                  strictEq (getProp indicator "status") (JsValue.str "ON_TRACK")
                | none => false)).length
    ∧ (∀ v : JsValue, strictEq v (JsValue.str "ON_TRACK") = true ↔ v = JsValue.str "ON_TRACK")
    ∧ ((listOf (getProp c "indicators")).filter
          (fun r => match findById db.indicators r with
            | some (_, indicator) =>
              strictEq (getProp indicator "status") (JsValue.str "ON_TRACK")
            | none => false)).length
        ≤ ((listOf (getProp c "indicators")).filter
            (fun r => (findById db.indicators r).isSome)).length
    ∧ ((listOf (getProp c "indicators")).filter
          (fun r => (findById db.indicators r).isSome)).length
        ≤ (listOf (getProp c "indicators")).length
    ∧ ((documentsOf c).filter (fun r => (findById db.documents r).isSome)).length
        ≤ (documentsOf c).length
    ∧ ((∀ r ∈ documentsOf c, (findById db.documents r).isSome = true) →
        getProp (progressOf (getConventionSummary env db req).1) "documentsSubmitted"
          = JsValue.num (documentsOf c).length)
    ∧ ((∀ r ∈ listOf (getProp c "indicators"), (findById db.indicators r).isSome = true) →
        getProp (progressOf (getConventionSummary env db req).1) "totalIndicators"
          = JsValue.num (listOf (getProp c "indicators")).length) := by
  rw [getConventionSummary_found env db req key c hl hf]
  have hd : getProp (progressOf (okJson (JsValue.obj
      [("id", getProp c "_id"), ("type", getProp c "type"), ("status", getProp c "status"),
       ("progress", JsValue.obj
         [("documentsSubmitted", JsValue.num (summaryDocuments db c).length),
          ("indicatorsOnTrack", JsValue.num
            ((summaryIndicators db c).filter
              (fun i => strictEq (getProp (propsOf i) "status")
                (JsValue.str "ON_TRACK"))).length),
          ("totalIndicators", JsValue.num (summaryIndicators db c).length)]),
       ("startDate", getProp c "startDate"), ("endDate", getProp c "endDate"),
       ("daysRemaining", daysRemaining (getProp c "endDate") env.now)]), db).1)
      "documentsSubmitted" = JsValue.num (summaryDocuments db c).length := rfl
  have ht : getProp (progressOf (okJson (JsValue.obj
      [("id", getProp c "_id"), ("type", getProp c "type"), ("status", getProp c "status"),
       ("progress", JsValue.obj
         [("documentsSubmitted", JsValue.num (summaryDocuments db c).length),
          ("indicatorsOnTrack", JsValue.num
            ((summaryIndicators db c).filter
              (fun i => strictEq (getProp (propsOf i) "status")
                (JsValue.str "ON_TRACK"))).length),
          ("totalIndicators", JsValue.num (summaryIndicators db c).length)]),
       ("startDate", getProp c "startDate"), ("endDate", getProp c "endDate"),
       ("daysRemaining", daysRemaining (getProp c "endDate") env.now)]), db).1)
      "totalIndicators" = JsValue.num (summaryIndicators db c).length := rfl
  have ho : getProp (progressOf (okJson (JsValue.obj
      [("id", getProp c "_id"), ("type", getProp c "type"), ("status", getProp c "status"),
       ("progress", JsValue.obj
         [("documentsSubmitted", JsValue.num (summaryDocuments db c).length),
          ("indicatorsOnTrack", JsValue.num
            ((summaryIndicators db c).filter
              (fun i => strictEq (getProp (propsOf i) "status")
                (JsValue.str "ON_TRACK"))).length),
          ("totalIndicators", JsValue.num (summaryIndicators db c).length)]),
       ("startDate", getProp c "startDate"), ("endDate", getProp c "endDate"),
       ("daysRemaining", daysRemaining (getProp c "endDate") env.now)]), db).1)
      "indicatorsOnTrack" = JsValue.num
        ((summaryIndicators db c).filter
          (fun i => strictEq (getProp (propsOf i) "status")
            (JsValue.str "ON_TRACK"))).length := rfl
  rw [hd, ht, ho, summaryDocuments_length, summaryIndicators_length, summaryIndicators_onTrack]
  refine ⟨rfl, rfl, rfl, rfl, fun v => ?_, ?_, List.length_filter_le _ _,
    List.length_filter_le _ _, fun h => ?_, fun h => ?_⟩
  · rw [strictEq_eq_true_iff]
    simp [isPrimitive]
  · rw [← summaryIndicators_onTrack, ← summaryIndicators_length]
    exact List.length_filter_le _ _
  · rw [← summaryDocuments_length]
    exact congrArg (fun n : Nat => JsValue.num n) (populateList_length_eq _ _ _ h)
  · rw [← summaryIndicators_length]
    exact congrArg (fun n : Nat => JsValue.num n) (populateList_length_eq _ _ _ h)

/-- Witness for C12: three documents and indicators ON_TRACK, ON_TRACK, LATE
give 3, 2 and 3. -/
theorem getConventionSummary_counts_witness :
    getProp (progressOf (getConventionSummary sampleEnv summaryDb
        { params := [("id", JsValue.str "c5")], body := [], userId := JsValue.str "u2" }).1)
        "documentsSubmitted" = JsValue.num 3
    ∧ getProp (progressOf (getConventionSummary sampleEnv summaryDb
        { params := [("id", JsValue.str "c5")], body := [], userId := JsValue.str "u2" }).1)
        "indicatorsOnTrack" = JsValue.num 2
    ∧ getProp (progressOf (getConventionSummary sampleEnv summaryDb
        { params := [("id", JsValue.str "c5")], body := [], userId := JsValue.str "u2" }).1)
        "totalIndicators" = JsValue.num 3 := by
  have h := getConventionSummary_counts sampleEnv summaryDb
    { params := [("id", JsValue.str "c5")], body := [], userId := JsValue.str "u2" }
    "c5" _ rfl rfl
  exact ⟨h.2.1, h.2.2.2.1, h.2.2.1⟩

/-- C13: for a stored convention whose `endDate` is the instant `e` and a
current instant `now` (epoch milliseconds), the `daysRemaining` of the summary
is the least integer `d` with `d * 86400000 >= e - now`, the ceiling of
`(e - now) / 86400000`, without clamping; for `e = now + 10` days it is 10. -/
theorem daysRemaining_is_ceiling (env : Env) (db : Db) (req : Request) (key : String)
    (c : Props) (e : Int)
    (hl : env.lookupError = none)
    (hf : findById db.conventions (getProp req.params "id") = some (key, c))
    (hend : getProp c "endDate" = JsValue.date e) :
    ∃ d : Int,
      getProp (propsOf (getConventionSummary env db req).1.body) "daysRemaining" = JsValue.num d
      ∧ e - env.now ≤ d * 86400000
      ∧ (∀ d' : Int, e - env.now ≤ d' * 86400000 → d ≤ d')
      ∧ (e = env.now + 10 * 86400000 → d = 10) := by
  refine ⟨ceilDiv (e - env.now) 86400000, ?_, ceilDiv_mul_ge _ _ (by decide),
    fun d' h => ceilDiv_le_of_le_mul _ _ _ (by decide) h, fun h => ?_⟩
  · rw [getConventionSummary_found env db req key c hl hf, hend]
    rfl
  · have h1 := ceilDiv_mul_ge (e - env.now) 86400000 (by decide)
    have h2 := ceilDiv_mul_lt (e - env.now) 86400000 (by decide)
    omega

/-- Witness for C13: the convention `c5` ends ten days after the current
instant. -/
theorem daysRemaining_is_ceiling_witness :
    ∃ d : Int,
      getProp (propsOf (getConventionSummary sampleEnv summaryDb
        { params := [("id", JsValue.str "c5")], body := [], userId := JsValue.str "u2" }).1.body)
        "daysRemaining" = JsValue.num d
      ∧ d = 10 := by
  obtain ⟨d, h1, -, -, h4⟩ := daysRemaining_is_ceiling sampleEnv summaryDb
    { params := [("id", JsValue.str "c5")], body := [], userId := JsValue.str "u2" }
    "c5" _ 1700864000000 rfl rfl rfl
  exact ⟨d, h1, h4 (by decide)⟩

/-- C14, as stated, fails for an `endDate` less than a day in the past: the
sample convention ended one millisecond before the current instant and its
`daysRemaining` is 0. -/
theorem C14_counterexample :
    getProp sampleConvention "endDate" = JsValue.date 1790000000000
    ∧ (1790000000000 : Int) < 1790000000001
    ∧ getProp (propsOf (getConventionSummary
        { sampleEnv with now := 1790000000001 } sampleDb (sampleRequest [])).1.body)
        "daysRemaining" = JsValue.num 0 :=
  ⟨rfl, by decide, rfl⟩

/-- C14 (amended): for a stored convention whose `endDate` is the instant `e`,
the `daysRemaining` of the summary is negative exactly when `e` is at least
one full day (86400000 ms) earlier than the current instant; when `e` is
earlier by less than a day it is 0, and it is never positive for an `e` in
the past. -/
theorem daysRemaining_negative_iff (env : Env) (db : Db) (req : Request) (key : String)
    (c : Props) (e : Int)
    (hl : env.lookupError = none)
    (hf : findById db.conventions (getProp req.params "id") = some (key, c))
    (hend : getProp c "endDate" = JsValue.date e) :
    ∃ d : Int,
      getProp (propsOf (getConventionSummary env db req).1.body) "daysRemaining" = JsValue.num d
      ∧ (d < 0 ↔ e + 86400000 ≤ env.now)
      ∧ (e < env.now → env.now < e + 86400000 → d = 0)
      ∧ (e < env.now → d ≤ 0) := by
  have h1 := ceilDiv_mul_ge (e - env.now) 86400000 (by decide)
  have h2 := ceilDiv_mul_lt (e - env.now) 86400000 (by decide)
  refine ⟨ceilDiv (e - env.now) 86400000, ?_, ⟨fun h => by omega, fun h => by omega⟩,
    fun h3 h4 => by omega, fun h3 => by omega⟩
  rw [getConventionSummary_found env db req key c hl hf, hend]
  rfl

/-- Witness for C14: seen thirty days after its end, the sample convention has
a negative `daysRemaining`. -/
theorem daysRemaining_negative_iff_witness :
    ∃ d : Int,
      getProp (propsOf (getConventionSummary
        { sampleEnv with now := 1792592000000 } sampleDb (sampleRequest [])).1.body)
        "daysRemaining" = JsValue.num d
      ∧ d < 0 := by
  obtain ⟨d, h1, h2, -, -⟩ := daysRemaining_negative_iff
    { sampleEnv with now := 1792592000000 } sampleDb (sampleRequest [])
    "c1" sampleConvention 1790000000000 rfl rfl rfl
  exact ⟨d, h1, h2.2 (by decide)⟩

/-- C15, as stated, fails for an Update whose body names `documents`: the
request succeeds and the saved convention has lost the reference `d1`. -/
theorem C15_counterexample :
    findById sampleDb.conventions (JsValue.str "c1") = some ("c1", sampleConvention)
    ∧ documentsOf sampleConvention = [JsValue.str "d1"]
    ∧ (updateConvention sampleEnv sampleDb
        (sampleRequest [("documents", JsValue.arr [])])).1.status = 200
    ∧ ∃ saved,
        findById (updateConvention sampleEnv sampleDb
          (sampleRequest [("documents", JsValue.arr [])])).2.conventions (JsValue.str "c1")
          = some ("c1", saved)
        ∧ documentsOf saved = [] :=
  ⟨rfl, rfl, rfl, _, rfl, rfl⟩

/-- C15 (amended): an UpdateStatus or AddDocument request, or an Update whose
body has no key `documents`, whether it succeeds or not, leaves every stored
convention stored, with the documents it had before as a prefix of the
documents it has after. -/
theorem documents_never_removed (db : Db) (s : Step) (key : String) (c : Props)
    (hno : submitsDocuments s = false)
    (hf : findById db.conventions (JsValue.str key) = some (key, c)) :
    ∃ c', findById (runStep db s).2.conventions (JsValue.str key) = some (key, c')
      ∧ documentsOf c <+: documentsOf c' := by
  obtain ⟨env, op, req⟩ := s
  cases op with
  | update =>
    have h : hasProp req.body "documents" = false := by simpa [submitsDocuments] using hno
    refine outcome_documents db (getProp req.params "id") _ key c hf ?_
    rcases updateConvention_outcome env db req with h0 | ⟨k, c0, hfind, hres⟩
    · exact Or.inl h0
    · refine Or.inr ⟨k, c0, _, hfind, by simp only [runStep]; rw [hres], ?_⟩
      rw [documentsOf_updateMutation _ _ _ _ h]
  | updateStatus =>
    refine outcome_documents db (getProp req.params "id") _ key c hf ?_
    rcases updateConventionStatus_outcome env db req with h0 | ⟨k, c0, hfind, hres⟩
    · exact Or.inl h0
    · refine Or.inr ⟨k, c0, _, hfind, by simp only [runStep]; rw [hres], ?_⟩
      rw [documentsOf_statusMutation]
  | addDocument =>
    refine outcome_documents db (getProp req.params "id") _ key c hf ?_
    rcases addDocumentToConvention_outcome env db req with h0 | ⟨k, c0, hfind, hres⟩
    · exact Or.inl h0
    · refine Or.inr ⟨k, c0, _, hfind, by simp only [runStep]; rw [hres], ?_⟩
      rw [documentsOf_documentMutation]
      exact List.prefix_append _ _

/-- Witness for C15: an Update of the status and the type of the sample
convention keeps its document `d1`. -/
theorem documents_never_removed_witness :
    ∃ c', findById (runStep sampleDb
          { env := sampleEnv, op := Operation.update,
            req := sampleRequest [("status", JsValue.str "ACTIVE"),
              ("type", JsValue.str "BIENNIAL")] }).2.conventions
          (JsValue.str "c1") = some ("c1", c')
      ∧ documentsOf sampleConvention <+: documentsOf c' :=
  documents_never_removed sampleDb _ "c1" sampleConvention rfl rfl

/-- C17: each mutating handler either leaves the store exactly as it was (and
does not answer with its success status), or answers success after a single
write of the whole entity: the loaded convention with its mutation and its
history entry together (for Create, the new convention added). In particular,
when the save rejects, the answer is 500 and the store is unchanged. -/
theorem mutations_all_or_nothing (env : Env) (db : Db) (req : Request) :
    (((createConvention env db req).1.status ≠ 201 ∧ (createConvention env db req).2 = db)
      ∨ createConvention env db req
          = ({ status := 201,
               body := JsValue.obj
                 (preSave (createMutation env.newId req.body req.userId env.now)) },
             { db with conventions := (db.conventions ++
                [(env.newId, preSave (createMutation env.newId req.body req.userId env.now))]) }))
    ∧ (((updateConvention env db req).1.status ≠ 200 ∧ (updateConvention env db req).2 = db)
      ∨ ∃ key c, findById db.conventions (getProp req.params "id") = some (key, c)
          ∧ updateConvention env db req
            = (okJson (JsValue.obj (preSave (updateMutation c req.body req.userId env.now))),
               { db with conventions := (replaceDoc db.conventions key
                  (preSave (updateMutation c req.body req.userId env.now))) }))
    ∧ (((updateConventionStatus env db req).1.status ≠ 200
          ∧ (updateConventionStatus env db req).2 = db)
      ∨ ∃ key c, findById db.conventions (getProp req.params "id") = some (key, c)
          ∧ updateConventionStatus env db req
            = (okJson (JsValue.obj
                (preSave (statusMutation c (getProp req.body "status") req.userId env.now))),
               { db with conventions := (replaceDoc db.conventions key
                  (preSave
                    (statusMutation c (getProp req.body "status") req.userId env.now))) }))
    ∧ (((addDocumentToConvention env db req).1.status ≠ 200
          ∧ (addDocumentToConvention env db req).2 = db)
      ∨ ∃ key c, findById db.conventions (getProp req.params "id") = some (key, c)
          ∧ addDocumentToConvention env db req
            = (okJson (JsValue.obj
                (preSave
                  (documentMutation c (getProp req.body "documentId") req.userId env.now))),
               { db with conventions := (replaceDoc db.conventions key
                  (preSave
                    (documentMutation c (getProp req.body "documentId") req.userId
                      env.now))) }))
    ∧ (∀ (p : String × Props) (e : String), env.lookupError = none →
        findById db.enterprises (getProp req.body "enterpriseId") = some p →
        env.saveError (createMutation env.newId req.body req.userId env.now) = some e →
        createConvention env db req = (serverError e, db))
    ∧ (∀ (key : String) (c : Props) (e : String), env.lookupError = none →
        findById db.conventions (getProp req.params "id") = some (key, c) →
        (env.saveError (updateMutation c req.body req.userId env.now) = some e →
          updateConvention env db req = (serverError e, db))
        ∧ (env.saveError
              (statusMutation c (getProp req.body "status") req.userId env.now) = some e →
          updateConventionStatus env db req = (serverError e, db))
        ∧ (env.saveError
              (documentMutation c (getProp req.body "documentId") req.userId env.now) = some e →
          addDocumentToConvention env db req = (serverError e, db))) := by
  refine ⟨?_, ?_, ?_, ?_, ?_, ?_⟩
  · by_cases h : (createConvention env db req).1.status = 201
    · exact Or.inr (createConvention_success env db req h)
    · refine Or.inl ⟨h, ?_⟩
      cases hl : env.lookupError with
      | some e => simp [createConvention, hl]
      | none =>
        cases hf : findById db.enterprises (getProp req.body "enterpriseId") with
        | none => simp [createConvention, hl, hf]
        | some p =>
          rw [createConvention_found env db req p hl hf] at h ⊢
          revert h
          cases env.saveError _ <;> simp
  · by_cases h : (updateConvention env db req).1.status = 200
    · exact Or.inr (updateConvention_success env db req h)
    · refine Or.inl ⟨h, ?_⟩
      rcases updateConvention_outcome env db req with h0 | ⟨k, c0, -, hres⟩
      · exact h0
      · rw [hres] at h
        exact absurd rfl h
  · by_cases h : (updateConventionStatus env db req).1.status = 200
    · exact Or.inr (updateConventionStatus_success env db req h)
    · refine Or.inl ⟨h, ?_⟩
      rcases updateConventionStatus_outcome env db req with h0 | ⟨k, c0, -, hres⟩
      · exact h0
      · rw [hres] at h
        exact absurd rfl h
  · by_cases h : (addDocumentToConvention env db req).1.status = 200
    · exact Or.inr (addDocumentToConvention_success env db req h)
    · refine Or.inl ⟨h, ?_⟩
      rcases addDocumentToConvention_outcome env db req with h0 | ⟨k, c0, -, hres⟩
      · exact h0
      · rw [hres] at h
        exact absurd rfl h
  · intro p e hl hf hs
    rw [createConvention_found env db req p hl hf, hs]
  · intro key c e hl hf
    refine ⟨fun hs => ?_, fun hs => ?_, fun hs => ?_⟩
    · rw [updateConvention_found env db req key c hl hf, hs]
    · rw [updateConventionStatus_found env db req key c hl hf, hs]
    · rw [addDocumentToConvention_found env db req key c hl hf, hs]

/-- C18: every convention handler gives one response. When the lookup throws
an error with message `e`, each of the eight handlers answers 500 with the
body `{message: e}` and nothing else, and leaves the store alone; so does each
of the four mutating handlers when the save throws. Every response has status
200, 201, 404 or 500. A success body is the raw saved entity (Create, Update,
UpdateStatus, AddDocument), the raw list of conventions (the two listings),
the raw history list, or the summary projection whose first key is `id`:
never an envelope. -/
theorem responses_of_convention_handlers (env : Env) (db : Db) (req : Request) :
    (∀ e : String, env.lookupError = some e →
      createConvention env db req
          = ({ status := 500, body := JsValue.obj [("message", JsValue.str e)] }, db)
      ∧ getConventionsByEnterprise env db req
          = ({ status := 500, body := JsValue.obj [("message", JsValue.str e)] }, db)
      ∧ getActiveConventions env db req
          = ({ status := 500, body := JsValue.obj [("message", JsValue.str e)] }, db)
      ∧ updateConvention env db req
          = ({ status := 500, body := JsValue.obj [("message", JsValue.str e)] }, db)
      ∧ updateConventionStatus env db req
          = ({ status := 500, body := JsValue.obj [("message", JsValue.str e)] }, db)
      ∧ addDocumentToConvention env db req
          = ({ status := 500, body := JsValue.obj [("message", JsValue.str e)] }, db)
      ∧ getConventionHistory env db req
          = ({ status := 500, body := JsValue.obj [("message", JsValue.str e)] }, db)
      ∧ getConventionSummary env db req
          = ({ status := 500, body := JsValue.obj [("message", JsValue.str e)] }, db))
    ∧ (∀ (p : String × Props) (e : String), env.lookupError = none →
        findById db.enterprises (getProp req.body "enterpriseId") = some p →
        env.saveError (createMutation env.newId req.body req.userId env.now) = some e →
        createConvention env db req
          = ({ status := 500, body := JsValue.obj [("message", JsValue.str e)] }, db))
    ∧ (∀ (key : String) (c : Props) (e : String), env.lookupError = none →
        findById db.conventions (getProp req.params "id") = some (key, c) →
        (env.saveError (updateMutation c req.body req.userId env.now) = some e →
          updateConvention env db req
            = ({ status := 500, body := JsValue.obj [("message", JsValue.str e)] }, db))
        ∧ (env.saveError
              (statusMutation c (getProp req.body "status") req.userId env.now) = some e →
          updateConventionStatus env db req
            = ({ status := 500, body := JsValue.obj [("message", JsValue.str e)] }, db))
        ∧ (env.saveError
              (documentMutation c (getProp req.body "documentId") req.userId env.now) = some e →
          addDocumentToConvention env db req
            = ({ status := 500, body := JsValue.obj [("message", JsValue.str e)] }, db)))
    ∧ ((createConvention env db req).1.status ∈ [200, 201, 404, 500]
      ∧ (getConventionsByEnterprise env db req).1.status ∈ [200, 201, 404, 500]
      ∧ (getActiveConventions env db req).1.status ∈ [200, 201, 404, 500]
      ∧ (updateConvention env db req).1.status ∈ [200, 201, 404, 500]
      ∧ (updateConventionStatus env db req).1.status ∈ [200, 201, 404, 500]
      ∧ (addDocumentToConvention env db req).1.status ∈ [200, 201, 404, 500]
      ∧ (getConventionHistory env db req).1.status ∈ [200, 201, 404, 500]
      ∧ (getConventionSummary env db req).1.status ∈ [200, 201, 404, 500])
    ∧ ((createConvention env db req).1.status = 201 →
        ∃ saved, (createConvention env db req).1.body = JsValue.obj saved
          ∧ (createConvention env db req).2.conventions
              = db.conventions ++ [(env.newId, saved)])
    ∧ ((updateConvention env db req).1.status = 200 →
        ∃ key saved, (updateConvention env db req).1.body = JsValue.obj saved
          ∧ (updateConvention env db req).2.conventions = replaceDoc db.conventions key saved)
    ∧ ((updateConventionStatus env db req).1.status = 200 →
        ∃ key saved, (updateConventionStatus env db req).1.body = JsValue.obj saved
          ∧ (updateConventionStatus env db req).2.conventions
              = replaceDoc db.conventions key saved)
    ∧ ((addDocumentToConvention env db req).1.status = 200 →
        ∃ key saved, (addDocumentToConvention env db req).1.body = JsValue.obj saved
          ∧ (addDocumentToConvention env db req).2.conventions
              = replaceDoc db.conventions key saved)
    ∧ ((getConventionsByEnterprise env db req).1.status = 200 →
        ∃ conventions : List Props,
          (getConventionsByEnterprise env db req).1.body
            = JsValue.arr (conventions.map JsValue.obj))
    ∧ ((getActiveConventions env db req).1.status = 200 →
        ∃ conventions : List Props,
          (getActiveConventions env db req).1.body = JsValue.arr (conventions.map JsValue.obj))
    ∧ ((getConventionHistory env db req).1.status = 200 →
        ∃ key c, findById db.conventions (getProp req.params "id") = some (key, c)
          ∧ (getConventionHistory env db req).1.body
              = JsValue.arr (populateHistory db.users (historyOf c)))
    ∧ ((getConventionSummary env db req).1.status = 200 →
        ∃ summary, (getConventionSummary env db req).1.body = JsValue.obj summary
          ∧ objectKeys summary
              = ["id", "type", "status", "progress", "startDate", "endDate", "daysRemaining"]) := by
  refine ⟨fun e hl => ?_, fun p e hl hf hs => ?_, fun key c e hl hf => ?_, ?_, fun h => ?_,
    fun h => ?_, fun h => ?_, fun h => ?_, fun h => ?_, fun h => ?_, fun h => ?_, fun h => ?_⟩
  · refine ⟨?_, ?_, ?_, ?_, ?_, ?_, ?_, ?_⟩
    · simp [createConvention, hl, serverError, messageBody]
    · simp [getConventionsByEnterprise, hl, serverError, messageBody]
    · simp [getActiveConventions, hl, serverError, messageBody]
    · simp [updateConvention, hl, serverError, messageBody]
    · simp [updateConventionStatus, hl, serverError, messageBody]
    · simp [addDocumentToConvention, hl, serverError, messageBody]
    · simp [getConventionHistory, hl, serverError, messageBody]
    · simp [getConventionSummary, hl, serverError, messageBody]
  · rw [createConvention_found env db req p hl hf, hs]
    rfl
  · refine ⟨fun hs => ?_, fun hs => ?_, fun hs => ?_⟩
    · rw [updateConvention_found env db req key c hl hf, hs]
      rfl
    · rw [updateConventionStatus_found env db req key c hl hf, hs]
      rfl
    · rw [addDocumentToConvention_found env db req key c hl hf, hs]
      rfl
  · exact ⟨createConvention_status env db req, getConventionsByEnterprise_status env db req,
      getActiveConventions_status env db req, updateConvention_status env db req,
      updateConventionStatus_status env db req, addDocumentToConvention_status env db req,
      getConventionHistory_status env db req, getConventionSummary_status env db req⟩
  · have hres := createConvention_success env db req h
    exact ⟨_, by rw [hres], by rw [hres]⟩
  · obtain ⟨key, c, -, hres⟩ := updateConvention_success env db req h
    exact ⟨key, _, by rw [hres]; rfl, by rw [hres]⟩
  · obtain ⟨key, c, -, hres⟩ := updateConventionStatus_success env db req h
    exact ⟨key, _, by rw [hres]; rfl, by rw [hres]⟩
  · obtain ⟨key, c, -, hres⟩ := addDocumentToConvention_success env db req h
    exact ⟨key, _, by rw [hres]; rfl, by rw [hres]⟩
  · cases hl : env.lookupError with
    | some e => simp [getConventionsByEnterprise, hl, serverError] at h
    | none =>
      simp only [getConventionsByEnterprise, hl, okJson]
      exact ⟨_, rfl⟩
  · cases hl : env.lookupError with
    | some e => simp [getActiveConventions, hl, serverError] at h
    | none =>
      simp only [getActiveConventions, hl, okJson]
      exact ⟨_, rfl⟩
  · cases hl : env.lookupError with
    | some e => simp [getConventionHistory, hl, serverError] at h
    | none =>
      cases hf : findById db.conventions (getProp req.params "id") with
      | none => simp [getConventionHistory, hl, hf, notFound] at h
      | some p => exact ⟨p.1, p.2, rfl, by simp only [getConventionHistory, hl, hf, okJson]⟩
  · cases hl : env.lookupError with
    | some e => simp [getConventionSummary, hl, serverError] at h
    | none =>
      cases hf : findById db.conventions (getProp req.params "id") with
      | none => simp [getConventionSummary, hl, hf, notFound] at h
      | some p =>
        rw [getConventionSummary_found env db req p.1 p.2 hl hf]
        exact ⟨_, rfl, by simp [objectKeys]⟩

/-- C19, as stated, fails in its last part for an Update that submits
`history`: the request carries the token of user `u2`, `proteger` calls
`next` and `updateConvention` runs as `u2`, but `Object.assign` copies the
submitted `history` over the trail that holds the new entry, and the last
entry of the saved history has the submitted `userId`, `u9`. -/
theorem C19_counterexample :
    ∃ req r db', conventionsRouter sampleAuth sampleEnv
          { sampleDb with users := sampleUsers }
          { method := Method.PUT, path := ["c1"],
            authorization := some "Bearer good",
            body := [("history", JsValue.arr
              [historyEntry "UPDATED" (JsValue.str "u9") (JsValue.obj []) 1700000000000])] }
        = RouterResult.handled ConventionOp.updateConvention req r db'
      ∧ req.userId = JsValue.str "u2"
      ∧ r.status = 200
      ∧ ∃ saved, r.body = JsValue.obj saved
          ∧ findById db'.conventions (JsValue.str "c1") = some ("c1", saved)
          ∧ lastEntryUserId saved = some (JsValue.str "u9") :=
  ⟨_, _, _, rfl, rfl, rfl, _, rfl, rfl, rfl⟩

/-- C19 (amended): on the conventions router a controller runs only after `proteger` has
called `next`: then the `Authorization` header starts with 'Bearer', its
token verifies and the decoded id resolves to a stored user, that user's
`_id` is the `req.user._id` the controller reads, and the history entry a
successful mutation appends carries it as `userId` (for an Update, when the
body does not itself submit `history`). When `proteger` does not call `next`
it answers 401, no controller runs and the store is untouched. -/
theorem convention_handlers_behind_proteger (auth : AuthEnv) (env : Env) (db : Db)
    (http : HttpRequest) :
    (∀ (op : ConventionOp) (req : Request) (r : Response) (db' : Db),
      conventionsRouter auth env db http = RouterResult.handled op req r db' →
      ∃ header token decoded key user,
        http.authorization = some header
        ∧ "Bearer".toList.isPrefixOf header.toList = true
        ∧ bearerToken http.authorization = some token
        ∧ auth.verify token = some decoded
        ∧ findById db.users (getProp decoded "id") = some (key, user)
        ∧ proteger auth db.users http.authorization = Except.ok user
        ∧ req.userId = getProp user "_id"
        ∧ req.body = http.body
        ∧ r = (handlerOf op env db req).1
        ∧ db' = (handlerOf op env db req).2
        ∧ (op = ConventionOp.createConvention → r.status = 201 →
            ∃ saved, r.body = JsValue.obj saved
              ∧ lastEntryUserId saved = some (getProp user "_id"))
        ∧ (op = ConventionOp.updateConvention → r.status = 200 →
            hasProp http.body "history" = false →
            ∃ saved, r.body = JsValue.obj saved
              ∧ lastEntryUserId saved = some (getProp user "_id"))
        ∧ (op = ConventionOp.updateConventionStatus → r.status = 200 →
            ∃ saved, r.body = JsValue.obj saved
              ∧ lastEntryUserId saved = some (getProp user "_id"))
        ∧ (op = ConventionOp.addDocumentToConvention → r.status = 200 →
            ∃ saved, r.body = JsValue.obj saved
              ∧ lastEntryUserId saved = some (getProp user "_id")))
    ∧ ((∃ user, proteger auth db.users http.authorization = Except.ok user)
      ∨ ∃ r, proteger auth db.users http.authorization = Except.error r
          ∧ r.status = 401
          ∧ conventionsRouter auth env db http = RouterResult.responded r db) := by
  constructor
  · intro op req r db' h
    obtain ⟨user, params, hp, -, hreq, hr, hdb⟩ :=
      conventionsRouter_handled auth env db http op req r db' h
    obtain ⟨header, token, decoded, key, ha, hb, ht, -, hv, -, hf⟩ :=
      proteger_ok auth db.users http.authorization user hp
    have hu : req.userId = getProp user "_id" := by rw [hreq]
    have hbody : req.body = http.body := by rw [hreq]
    refine ⟨header, token, decoded, key, user, ha, hb, ht, hv, hf, hp, hu, hbody, hr, hdb,
      fun hop hs => ?_, fun hop hs hno => ?_, fun hop hs => ?_, fun hop hs => ?_⟩
    · subst hop
      rw [hr] at hs ⊢
      have hres := createConvention_success env db req hs
      simp only [handlerOf] at hs ⊢
      refine ⟨_, by rw [hres], ?_⟩
      rw [← hu]
      exact lastEntryUserId_of_history _ [] _ _ _ _
        (by rw [historyOf_preSave, historyOf_createMutation]; rfl)
    · subst hop
      rw [hr] at hs ⊢
      simp only [handlerOf] at hs ⊢
      obtain ⟨k, c, -, hres⟩ := updateConvention_success env db req hs
      refine ⟨_, by rw [hres]; rfl, ?_⟩
      rw [← hu]
      exact lastEntryUserId_of_history _ _ _ _ _ _
        (by rw [historyOf_preSave, historyOf_updateMutation _ _ _ _ (by rw [hbody]; exact hno)])
    · subst hop
      rw [hr] at hs ⊢
      simp only [handlerOf] at hs ⊢
      obtain ⟨k, c, -, hres⟩ := updateConventionStatus_success env db req hs
      refine ⟨_, by rw [hres]; rfl, ?_⟩
      rw [← hu]
      exact lastEntryUserId_of_history _ _ _ _ _ _
        (by rw [historyOf_preSave, historyOf_statusMutation])
    · subst hop
      rw [hr] at hs ⊢
      simp only [handlerOf] at hs ⊢
      obtain ⟨k, c, -, hres⟩ := addDocumentToConvention_success env db req hs
      refine ⟨_, by rw [hres]; rfl, ?_⟩
      rw [← hu]
      exact lastEntryUserId_of_history _ _ _ _ _ _
        (by rw [historyOf_preSave, historyOf_documentMutation])
  · cases hp : proteger auth db.users http.authorization with
    | ok user => exact Or.inl ⟨user, rfl⟩
    | error r =>
      refine Or.inr ⟨r, rfl, proteger_error_status auth db.users http.authorization r hp, ?_⟩
      simp [conventionsRouter, hp]

/-- Witness for C19: a PATCH of the status of the sample convention with the
header `Bearer good` reaches `updateConventionStatus` as user `u2`, whose
identifier is the `userId` of the appended entry; without a header the
answer is 401. -/
theorem convention_handlers_behind_proteger_witness :
    (∃ req r db', conventionsRouter sampleAuth sampleEnv
          { sampleDb with users := sampleUsers }
          { method := Method.PATCH, path := ["c1", "status"],
            authorization := some "Bearer good",
            body := [("status", JsValue.str "ACTIVE")] }
        = RouterResult.handled ConventionOp.updateConventionStatus req r db'
      ∧ req.userId = JsValue.str "u2"
      ∧ ∃ saved, r.body = JsValue.obj saved ∧ lastEntryUserId saved = some (JsValue.str "u2"))
    ∧ ∃ r, conventionsRouter sampleAuth sampleEnv
          { sampleDb with users := sampleUsers }
          { method := Method.PATCH, path := ["c1", "status"], authorization := none,
            body := [("status", JsValue.str "ACTIVE")] }
        = RouterResult.responded r { sampleDb with users := sampleUsers }
      ∧ r.status = 401 := by
  constructor
  · obtain ⟨header, token, decoded, key, user, -, -, -, -, hf, -, hu, -, -, -, -, -, h3, -⟩ :=
      (convention_handlers_behind_proteger sampleAuth sampleEnv
        { sampleDb with users := sampleUsers }
        { method := Method.PATCH, path := ["c1", "status"],
          authorization := some "Bearer good",
          body := [("status", JsValue.str "ACTIVE")] }).1
        ConventionOp.updateConventionStatus _ _ _ rfl
    have hu2 : getProp user "_id" = JsValue.str "u2" := hu.symm
    obtain ⟨saved, hs1, hs2⟩ := h3 rfl rfl
    exact ⟨_, _, _, rfl, rfl, saved, hs1, by rw [hs2, hu2]⟩
  · exact ⟨_, rfl, rfl⟩

/-- C20 (the code at the failing input): `server.js` mounts the conventions
router under no path, so for every method and every path under
`/api/conventions` no mounted router is offered the request and the answer
is the catch-all 404 'Route non trouvée'; for instance for
`POST /api/conventions`. -/
theorem conventions_router_not_mounted :
    (∀ entry ∈ mounts, entry.2.2 ≠ "conventionRoutes")
    ∧ (∀ (timestamp : String) (m : Method) (rest : List String),
        mountedFor ("api" :: "conventions" :: rest) = []
        ∧ serverFallback timestamp m ("api" :: "conventions" :: rest)
            = routeNotFound (urlOf ("api" :: "conventions" :: rest)))
    ∧ serverFallback "2025-01-01T00:00:00.000Z" Method.POST ["api", "conventions"]
        = { status := 404,
            body := JsValue.obj [("error", JsValue.str "Route non trouvée"),
              ("path", JsValue.str "/api/conventions")] } := by
  have h0 : sameSegment "api" "api" = true := by decide
  have h1 : sameSegment "uploads" "api" = false := by decide
  have h2 : sameSegment "admin" "conventions" = false := by decide
  have h3 : sameSegment "inspector" "conventions" = false := by decide
  have h4 : sameSegment "auth" "conventions" = false := by decide
  have h5 : sameSegment "users" "conventions" = false := by decide
  have h6 : sameSegment "entreprises" "conventions" = false := by decide
  have h7 : sameSegment "kpis" "conventions" = false := by decide
  have h8 : sameSegment "documents" "conventions" = false := by decide
  have h9 : sameSegment "visites" "conventions" = false := by decide
  have h10 : sameSegment "health" "conventions" = false := by decide
  refine ⟨by decide, fun timestamp m rest => ⟨?_, ?_⟩, by rfl⟩
  · simp [mountedFor, mounts, underMount, h0, h1, h2, h3, h4, h5, h6, h7, h8, h9]
  · simp [serverFallback, matchPath, h0, h10]

/-- C21: the conventions router registers no route for the method DELETE, so
no DELETE request is taken by any of its routes; and after each of the eight
controller operations every identifier under which a convention was stored
is still an identifier of a stored convention. -/
theorem conventions_never_deleted :
    (∀ route ∈ conventionRoutes, route.1 ≠ Method.DELETE)
    ∧ (∀ path : List String, matchRoute conventionRoutes Method.DELETE path = none)
    ∧ (∀ (op : ConventionOp) (env : Env) (db : Db) (req : Request) (key : String),
        key ∈ db.conventions.map Prod.fst →
        key ∈ (handlerOf op env db req).2.conventions.map Prod.fst) := by
  refine ⟨by decide, fun path => ?_, fun op env db req key hk => ?_⟩
  · simp [matchRoute, conventionRoutes, methodMatches]
  · cases op with
    | createConvention =>
      rcases createConvention_store env db req with h | ⟨saved, h⟩
      · simp only [handlerOf]
        rw [h]
        exact hk
      · simp only [handlerOf]
        rw [h]
        simp only [List.map_append, List.mem_append]
        exact Or.inl hk
    | getConventionsByEnterprise =>
      simp only [handlerOf]
      rw [getConventionsByEnterprise_store]
      exact hk
    | getActiveConventions =>
      simp only [handlerOf]
      rw [getActiveConventions_store]
      exact hk
    | updateConvention =>
      simp only [handlerOf]
      rcases updateConvention_outcome env db req with h | ⟨k, c0, -, h⟩
      · rw [h]
        exact hk
      · rw [h]
        simp only [replaceDoc_keys]
        exact hk
    | updateConventionStatus =>
      simp only [handlerOf]
      rcases updateConventionStatus_outcome env db req with h | ⟨k, c0, -, h⟩
      · rw [h]
        exact hk
      · rw [h]
        simp only [replaceDoc_keys]
        exact hk
    | addDocumentToConvention =>
      simp only [handlerOf]
      rcases addDocumentToConvention_outcome env db req with h | ⟨k, c0, -, h⟩
      · rw [h]
        exact hk
      · rw [h]
        simp only [replaceDoc_keys]
        exact hk
    | getConventionHistory =>
      simp only [handlerOf]
      rw [getConventionHistory_store]
      exact hk
    | getConventionSummary =>
      simp only [handlerOf]
      rw [getConventionSummary_store]
      exact hk

/-- C22: the handlers of ListByEnterprise, ListActive, GetHistory and
GetSummary return the store they were given, for every environment and every
request: no convention is saved or modified, and every stored convention has
the history it had. -/
theorem reads_leave_store_unchanged (env : Env) (db : Db) (req : Request) :
    (getConventionsByEnterprise env db req).2 = db
    ∧ (getActiveConventions env db req).2 = db
    ∧ (getConventionHistory env db req).2 = db
    ∧ (getConventionSummary env db req).2 = db
    ∧ (∀ (id : JsValue) (key : String) (c : Props),
        findById db.conventions id = some (key, c) →
        ∃ c', findById (getConventionsByEnterprise env db req).2.conventions id = some (key, c')
          ∧ historyOf c' = historyOf c
          ∧ findById (getActiveConventions env db req).2.conventions id = some (key, c')
          ∧ findById (getConventionHistory env db req).2.conventions id = some (key, c')
          ∧ findById (getConventionSummary env db req).2.conventions id = some (key, c')) := by
  refine ⟨getConventionsByEnterprise_store env db req, getActiveConventions_store env db req,
    getConventionHistory_store env db req, getConventionSummary_store env db req,
    fun id key c hf => ⟨c, ?_, rfl, ?_, ?_, ?_⟩⟩
  · rw [getConventionsByEnterprise_store]
    exact hf
  · rw [getActiveConventions_store]
    exact hf
  · rw [getConventionHistory_store]
    exact hf
  · rw [getConventionSummary_store]
    exact hf

/-- C23: for a stored convention, the summary `getConventionSummary` answers
(when the lookup does not fail) is an object with exactly the keys `id`,
`type`, `status`, `progress`, `startDate`, `endDate` and `daysRemaining`, so
without `history`, in which `id` is the convention's `_id` and `type`,
`status`, `startDate` and `endDate` are the convention's own. -/
theorem getConventionSummary_projection (env : Env) (db : Db) (req : Request) (key : String)
    (c : Props)
    (hl : env.lookupError = none)
    (hf : findById db.conventions (getProp req.params "id") = some (key, c)) :
    ∃ summary, getConventionSummary env db req
        = ({ status := 200, body := JsValue.obj summary }, db)
      ∧ objectKeys summary
          = ["id", "type", "status", "progress", "startDate", "endDate", "daysRemaining"]
      ∧ hasProp summary "history" = false
      ∧ getProp summary "id" = getProp c "_id"
      ∧ getProp summary "type" = getProp c "type"
      ∧ getProp summary "status" = getProp c "status"
      ∧ getProp summary "startDate" = getProp c "startDate"
      ∧ getProp summary "endDate" = getProp c "endDate" := by
  rw [getConventionSummary_found env db req key c hl hf]
  exact ⟨_, rfl, by simp [objectKeys], rfl, rfl, rfl, rfl, rfl, rfl⟩

/-- Witness for C23: the summary of the sample convention, whose history has
one entry. -/
theorem getConventionSummary_projection_witness :
    (historyOf sampleConvention).length = 1
    ∧ ∃ summary, getConventionSummary sampleEnv sampleDb (sampleRequest [])
        = ({ status := 200, body := JsValue.obj summary }, sampleDb)
      ∧ objectKeys summary
          = ["id", "type", "status", "progress", "startDate", "endDate", "daysRemaining"]
      ∧ hasProp summary "history" = false
      ∧ getProp summary "id" = JsValue.str "c1"
      ∧ getProp summary "endDate" = JsValue.date 1790000000000 := by
  obtain ⟨summary, h1, h2, h3, h4, -, -, -, h8⟩ :=
    getConventionSummary_projection sampleEnv sampleDb (sampleRequest []) "c1"
      sampleConvention rfl rfl
  exact ⟨rfl, summary, h1, h2, h3, h4, h8⟩

/-- C27: on a stored convention (when lookup and save do not fail) the
convention saved by UpdateStatus has every field other than `status`,
`history` and the last-modifier marker (`_lastModifiedBy` and
`metadata.lastModifiedBy`) as before, and the convention saved by AddDocument
has every field other than `documents`, `history` and the last-modifier
marker as before; inside `metadata`, every nested field other than
`lastModifiedBy` is as before. -/
theorem status_and_document_frames (env : Env) (db : Db) (req : Request) (key : String)
    (c : Props)
    (hl : env.lookupError = none)
    (hf : findById db.conventions (getProp req.params "id") = some (key, c)) :
    (env.saveError (statusMutation c (getProp req.body "status") req.userId env.now) = none →
      ∃ saved, updateConventionStatus env db req
          = ({ status := 200, body := JsValue.obj saved },
             { db with conventions := (replaceDoc db.conventions key saved) })
        ∧ (∀ k, k ≠ "status" → k ≠ "history" → k ≠ "_lastModifiedBy" → k ≠ "metadata" →
            getProp saved k = getProp c k)
        ∧ (∀ f, f ≠ "lastModifiedBy" →
            getProp (propsOf (getProp saved "metadata")) f
              = getProp (propsOf (getProp c "metadata")) f))
    ∧ (env.saveError
          (documentMutation c (getProp req.body "documentId") req.userId env.now) = none →
      ∃ saved, addDocumentToConvention env db req
          = ({ status := 200, body := JsValue.obj saved },
             { db with conventions := (replaceDoc db.conventions key saved) })
        ∧ (∀ k, k ≠ "documents" → k ≠ "history" → k ≠ "_lastModifiedBy" → k ≠ "metadata" →
            getProp saved k = getProp c k)
        ∧ (∀ f, f ≠ "lastModifiedBy" →
            getProp (propsOf (getProp saved "metadata")) f
              = getProp (propsOf (getProp c "metadata")) f)) := by
  constructor
  · intro hs
    refine ⟨preSave (statusMutation c (getProp req.body "status") req.userId env.now),
      ?_, ?_, ?_⟩
    · rw [updateConventionStatus_found env db req key c hl hf, hs]
      rfl
    · intro k h1 h2 h3 h4
      rw [getProp_preSave _ _ h4, getProp_statusMutation_other _ _ _ _ _ h1 h2 h3]
    · intro f hne
      rw [metadata_field_preSave _ _ hne,
        getProp_statusMutation_other _ _ _ _ _ (by decide) (by decide) (by decide)]
  · intro hs
    refine ⟨preSave (documentMutation c (getProp req.body "documentId") req.userId env.now),
      ?_, ?_, ?_⟩
    · rw [addDocumentToConvention_found env db req key c hl hf, hs]
      rfl
    · intro k h1 h2 h3 h4
      rw [getProp_preSave _ _ h4, getProp_documentMutation_other _ _ _ _ _ h1 h2 h3]
    · intro f hne
      rw [metadata_field_preSave _ _ hne,
        getProp_documentMutation_other _ _ _ _ _ (by decide) (by decide) (by decide)]

/-- Witness for C27: a status change of the sample convention keeps its
documents, type, dates and creator; an added document keeps its status. -/
theorem status_and_document_frames_witness :
    (∃ saved, updateConventionStatus sampleEnv sampleDb
          (sampleRequest [("status", JsValue.str "ACTIVE"), ("type", JsValue.str "OTHER")])
        = ({ status := 200, body := JsValue.obj saved },
           { sampleDb with conventions := (replaceDoc sampleDb.conventions "c1" saved) })
      ∧ getProp saved "documents" = JsValue.arr [JsValue.str "d1"]
      ∧ getProp saved "type" = JsValue.str "ANNUAL"
      ∧ getProp saved "endDate" = JsValue.date 1790000000000
      ∧ createdByOf saved = JsValue.str "u1")
    ∧ ∃ saved, addDocumentToConvention sampleEnv sampleDb
          (sampleRequest [("documentId", JsValue.str "d2"), ("status", JsValue.str "ACTIVE")])
        = ({ status := 200, body := JsValue.obj saved },
           { sampleDb with conventions := (replaceDoc sampleDb.conventions "c1" saved) })
      ∧ getProp saved "status" = JsValue.str "DRAFT" := by
  constructor
  · obtain ⟨saved, h1, h2, h3⟩ := (status_and_document_frames sampleEnv sampleDb
      (sampleRequest [("status", JsValue.str "ACTIVE"), ("type", JsValue.str "OTHER")])
      "c1" sampleConvention rfl rfl).1 rfl
    exact ⟨saved, h1, h2 "documents" (by decide) (by decide) (by decide) (by decide),
      h2 "type" (by decide) (by decide) (by decide) (by decide),
      h2 "endDate" (by decide) (by decide) (by decide) (by decide),
      h3 "createdBy" (by decide)⟩
  · obtain ⟨saved, h1, h2, -⟩ := (status_and_document_frames sampleEnv sampleDb
      (sampleRequest [("documentId", JsValue.str "d2"), ("status", JsValue.str "ACTIVE")])
      "c1" sampleConvention rfl rfl).2 rfl
    exact ⟨saved, h1, h2 "status" (by decide) (by decide) (by decide) (by decide)⟩

/-- C30, as stated, fails for a submitted array: the same Update of
`advantages` is applied twice to the sample convention, and the UPDATED entry
appended the second time still has `advantages` in its changes map, from and
to the same value. -/
theorem C30_counterexample :
    ∃ saved,
      findById (updateConvention sampleEnv
          (updateConvention sampleEnv sampleDb
            (sampleRequest [("advantages", JsValue.arr [JsValue.str "grant"])])).2
          (sampleRequest [("advantages", JsValue.arr [JsValue.str "grant"])])).2.conventions
        (JsValue.str "c1") = some ("c1", saved)
      ∧ (historyOf saved).getLast?
          = some (historyEntry "UPDATED" (JsValue.str "u2")
              (JsValue.obj [("advantages",
                fromTo (JsValue.arr [JsValue.str "grant"]) (JsValue.arr [JsValue.str "grant"]))])
              1700000000000) :=
  ⟨_, rfl, rfl⟩

/-- C30 (amended): when the same Update (same body `F`, same user) is applied
twice in succession to a stored convention and neither lookup nor save fails,
both requests succeed and the second saved convention has, `history` apart,
the field values of the first. When `F` does not submit `history`, the second
request appends one UPDATED entry whose changes map holds exactly the keys of
`F` whose submitted value is not strictly equal to the value stored by the
first request: it has every key whose submitted value is an array or an
object, and it is empty when every submitted value is strictly equal to the
stored one. -/
theorem update_twice (env1 env2 : Env) (db : Db) (req : Request) (key : String) (c : Props)
    (hl1 : env1.lookupError = none) (hl2 : env2.lookupError = none)
    (hf : findById db.conventions (getProp req.params "id") = some (key, c))
    (hs1 : env1.saveError (updateMutation c req.body req.userId env1.now) = none)
    (hs2 : env2.saveError
      (updateMutation (preSave (updateMutation c req.body req.userId env1.now))
        req.body req.userId env2.now) = none) :
    ∃ saved1 saved2,
      updateConvention env1 db req
        = (okJson (JsValue.obj saved1),
           { db with conventions := (replaceDoc db.conventions key saved1) })
      ∧ updateConvention env2 (updateConvention env1 db req).2 req
        = (okJson (JsValue.obj saved2),
           { db with conventions :=
              (replaceDoc (replaceDoc db.conventions key saved1) key saved2) })
      ∧ (∀ k, (k = "history" → hasProp req.body "history" = true) →
          getProp saved2 k = getProp saved1 k)
      ∧ (hasProp req.body "history" = false →
          historyOf saved2 = historyOf saved1 ++
            [historyEntry "UPDATED" req.userId
              (JsValue.obj (computeChanges saved1 req.body)) env2.now])
      ∧ (∀ k, hasProp (computeChanges saved1 req.body) k
          = (hasProp req.body k && !strictEq (getProp saved1 k) (getProp req.body k)))
      ∧ (∀ k, hasProp req.body k = true → isPrimitive (getProp req.body k) = false →
          hasProp (computeChanges saved1 req.body) k = true)
      ∧ ((∀ k, hasProp req.body k = true →
            strictEq (getProp saved1 k) (getProp req.body k) = true) →
          computeChanges saved1 req.body = []) := by
  have h1 : updateConvention env1 db req
      = (okJson (JsValue.obj (preSave (updateMutation c req.body req.userId env1.now))),
         { db with conventions := (replaceDoc db.conventions key
            (preSave (updateMutation c req.body req.userId env1.now))) }) := by
    rw [updateConvention_found env1 db req key c hl1 hf, hs1]
  have hid := findById_key _ _ _ _ hf
  have hf2 : findById (updateConvention env1 db req).2.conventions (getProp req.params "id")
      = some (key, preSave (updateMutation c req.body req.userId env1.now)) := by
    rw [h1, hid]
    rw [hid] at hf
    simp only [findById] at hf ⊢
    exact find?_replaceDoc_same _ _ _ _ hf
  refine ⟨preSave (updateMutation c req.body req.userId env1.now),
    preSave (updateMutation (preSave (updateMutation c req.body req.userId env1.now))
      req.body req.userId env2.now), h1, ?_, ?_, ?_, ?_, ?_, ?_⟩
  · rw [updateConvention_found env2 _ req key _ hl2 hf2, hs2, h1]
  · intro k hk
    exact getProp_update_twice c req.body req.userId env1.now env2.now k hk
  · intro hno
    rw [historyOf_preSave, historyOf_updateMutation _ _ _ _ hno]
  · intro k
    exact hasProp_computeChanges _ _ k
  · intro k hk hp
    rw [hasProp_computeChanges, hk, (strictEq_eq_false_iff _ _).2 (Or.inr hp)]
    rfl
  · intro hall
    exact computeChanges_eq_nil _ _ hall

/-- Witness for C30: the sample convention is updated twice with the type
BIENNIAL; the second entry has an empty changes map. -/
theorem update_twice_witness :
    ∃ saved1 saved2,
      updateConvention sampleEnv sampleDb (sampleRequest [("type", JsValue.str "BIENNIAL")])
        = (okJson (JsValue.obj saved1),
           { sampleDb with conventions := (replaceDoc sampleDb.conventions "c1" saved1) })
      ∧ getProp saved2 "type" = getProp saved1 "type"
      ∧ getProp saved1 "type" = JsValue.str "BIENNIAL"
      ∧ historyOf saved2 = historyOf saved1 ++
          [historyEntry "UPDATED" (JsValue.str "u2") (JsValue.obj []) 1700000000000] := by
  obtain ⟨saved1, saved2, h1, -, h3, h4, -, -, h7⟩ := update_twice sampleEnv sampleEnv sampleDb
    (sampleRequest [("type", JsValue.str "BIENNIAL")]) "c1" sampleConvention
    rfl rfl rfl rfl rfl
  have hs : saved1 = preSave (updateMutation sampleConvention
      (sampleRequest [("type", JsValue.str "BIENNIAL")]).body
      (sampleRequest [("type", JsValue.str "BIENNIAL")]).userId sampleEnv.now) := by
    have h := congrArg (fun r => r.1.body) h1
    simp only [okJson] at h
    rw [updateConvention_found sampleEnv sampleDb
      (sampleRequest [("type", JsValue.str "BIENNIAL")]) "c1" sampleConvention rfl rfl] at h
    exact (JsValue.obj.inj h).symm
  have hnil : computeChanges saved1 (sampleRequest [("type", JsValue.str "BIENNIAL")]).body
      = [] := by
    rw [hs]
    rfl
  refine ⟨saved1, saved2, h1, h3 "type" (by decide), ?_, ?_⟩
  · rw [hs]
    rfl
  · have := h4 rfl
    rw [hnil] at this
    exact this

/-- C24 (the code at the failing input): on the visits router the request
`PUT /:id/assign-inspector` of any authenticated user, whatever the role,
goes to `assignInspector`, which checks no role; for the user `u2`, whose
role is `user`, and the visit `v1`, assigned to `u7`, the answer is 200 and
the saved visit has the submitted `inspectorId`. -/
theorem assign_inspector_checks_no_role :
    (∀ (auth : AuthEnv) (users : Collection) (id : String) (authorization : Option String)
        (body : Props),
      visitsRouter auth users
          { method := Method.PUT, path := [id, "assign-inspector"],
            authorization := authorization, body := body }
        = match proteger auth users authorization with
          | Except.error r => Except.error r
          | Except.ok user =>
            Except.ok (user, some (VisitOp.assignInspector,
              { params := [("id", JsValue.str id)], body := body,
                userId := getProp user "_id" })))
    ∧ getProp [("_id", JsValue.str "u2"), ("role", JsValue.str "user")] "role"
        = JsValue.str "user"
    ∧ visitsRouter sampleAuth plainUsers
          { method := Method.PUT, path := ["v1", "assign-inspector"],
            authorization := some "Bearer good",
            body := [("inspectorId", JsValue.str "u2")] }
        = Except.ok ([("_id", JsValue.str "u2"), ("role", JsValue.str "user")],
            some (VisitOp.assignInspector,
              { params := [("id", JsValue.str "v1")],
                body := [("inspectorId", JsValue.str "u2")], userId := JsValue.str "u2" }))
    ∧ (assignInspector sampleEnv sampleVisits
          { params := [("id", JsValue.str "v1")],
            body := [("inspectorId", JsValue.str "u2")], userId := JsValue.str "u2" }).1.status
        = 200
    ∧ ∃ saved,
        findById (assignInspector sampleEnv sampleVisits
          { params := [("id", JsValue.str "v1")],
            body := [("inspectorId", JsValue.str "u2")], userId := JsValue.str "u2" }).2
          (JsValue.str "v1") = some ("v1", saved)
        ∧ getProp saved "inspectorId" = JsValue.str "u2" := by
  have h1 : sameSegment "cancel" "assign-inspector" = false := by decide
  have h2 : sameSegment "assign-inspector" "assign-inspector" = true := by decide
  refine ⟨fun auth users id authorization body => ?_, rfl, rfl, rfl, _, rfl, rfl⟩
  unfold visitsRouter
  cases proteger auth users authorization with
  | error r => rfl
  | ok user =>
    simp [matchRouteIn, visitRoutes, methodMatches, matchPath, h1, h2]

/-- C29: when the lookup does not fail, `cancelVisit` answers 404 'Visit not
found' for a missing visit and 400 'Cannot cancel a completed visit' for a
visit whose status is COMPLETED, leaving the stored visits as they were; for
any other stored visit, when the save does not fail, it answers 200 with the
saved visit, whose status is CANCELLED and whose `cancellationReason` is the
submitted reason. -/
theorem cancelVisit_protects_completed (env : Env) (visits : Collection) (req : Request)
    (hl : env.lookupError = none) :
    (findById visits (getProp req.params "id") = none →
      cancelVisit env visits req
        = ({ status := 404, body := JsValue.obj [("message", JsValue.str "Visit not found")] },
           visits))
    ∧ (∀ (key : String) (visit : Props),
        findById visits (getProp req.params "id") = some (key, visit) →
        (getProp visit "status" = JsValue.str "COMPLETED" →
          cancelVisit env visits req
            = ({ status := 400,
                 body := JsValue.obj
                   [("message", JsValue.str "Cannot cancel a completed visit")] }, visits))
        ∧ (getProp visit "status" ≠ JsValue.str "COMPLETED" →
            env.saveError
              (setProp (setProp visit "status" (JsValue.str "CANCELLED")) "cancellationReason"
                (getProp req.body "reason")) = none →
            ∃ saved, cancelVisit env visits req
                = ({ status := 200, body := JsValue.obj saved }, replaceDoc visits key saved)
              ∧ getProp saved "status" = JsValue.str "CANCELLED"
              ∧ getProp saved "cancellationReason" = getProp req.body "reason")) := by
  constructor
  · intro hf
    simp [cancelVisit, hl, hf, notFound, messageBody]
  · intro key visit hf
    constructor
    · intro hs
      simp [cancelVisit, hl, hf, hs, strictEq, messageBody]
    · intro hs hsave
      have hne : strictEq (getProp visit "status") (JsValue.str "COMPLETED") = false := by
        rw [strictEq_eq_false_iff]
        exact Or.inl hs
      refine ⟨setProp (setProp visit "status" (JsValue.str "CANCELLED")) "cancellationReason"
        (getProp req.body "reason"), ?_, ?_, ?_⟩
      · simp only [cancelVisit, hl, hf, hne, saveVisit, hsave, okJson]
        rfl
      · rw [getProp_setProp_other _ _ _ _ (by decide), getProp_setProp_same]
      · rw [getProp_setProp_same]

/-- Witness for C29: the scheduled visit `v1` is cancelled with its reason;
the completed visit `v2` is refused and the visits stay as they were. -/
theorem cancelVisit_protects_completed_witness :
    (∃ saved, cancelVisit sampleEnv sampleVisits
          { params := [("id", JsValue.str "v1")], body := [("reason", JsValue.str "strike")],
            userId := JsValue.str "u2" }
        = ({ status := 200, body := JsValue.obj saved }, replaceDoc sampleVisits "v1" saved)
      ∧ getProp saved "status" = JsValue.str "CANCELLED"
      ∧ getProp saved "cancellationReason" = JsValue.str "strike")
    ∧ cancelVisit sampleEnv sampleVisits
          { params := [("id", JsValue.str "v2")], body := [("reason", JsValue.str "strike")],
            userId := JsValue.str "u2" }
        = ({ status := 400,
             body := JsValue.obj [("message", JsValue.str "Cannot cancel a completed visit")] },
           sampleVisits) := by
  constructor
  · exact ((cancelVisit_protects_completed sampleEnv sampleVisits
      { params := [("id", JsValue.str "v1")], body := [("reason", JsValue.str "strike")],
        userId := JsValue.str "u2" } rfl).2 "v1" _ rfl).2 (by simp [getProp]) rfl
  · exact ((cancelVisit_protects_completed sampleEnv sampleVisits
      { params := [("id", JsValue.str "v2")], body := [("reason", JsValue.str "strike")],
        userId := JsValue.str "u2" } rfl).2 "v2" _ rfl).1 rfl

/-- C25 (the code at the failing input): the two admin routes are guarded by
`autoriser('ADMIN')`, and every role that `inscription` assigns, `admin`
included (also as the default for `typeCompte` `admin`), is refused by it
with 403, like the role `user`; the sibling guard `autoriser('admin')` of
the other routers lets the role `admin` through. -/
theorem admin_routes_refuse_admin :
    (∀ (role typeCompte : JsValue),
      match inscriptionRole role typeCompte with
      | Except.error _ => True
      | Except.ok r => autoriser ["ADMIN"] [("role", r)] = Except.error forbidden)
    ∧ inscriptionRole JsValue.undefined (JsValue.str "admin") = Except.ok (JsValue.str "admin")
    ∧ inscriptionRole (JsValue.str "admin") JsValue.undefined = Except.ok (JsValue.str "admin")
    ∧ autoriser ["ADMIN"] [("_id", JsValue.str "u1"), ("role", JsValue.str "admin")]
        = Except.error forbidden
    ∧ autoriser ["ADMIN"] [("_id", JsValue.str "u2"), ("role", JsValue.str "user")]
        = Except.error forbidden
    ∧ autoriser ["admin"] [("_id", JsValue.str "u1"), ("role", JsValue.str "admin")]
        = Except.ok ()
    ∧ adminGuards
          { verify := fun _ => some [("id", JsValue.str "u1")], userLookupFails := false }
          [("u1", [("_id", JsValue.str "u1"), ("role", JsValue.str "admin")])]
          (some "Bearer token")
        = Except.error forbidden
    ∧ forbidden.status = 403 := by
  refine ⟨fun role typeCompte => ?_, rfl, rfl, rfl, rfl, rfl, rfl, rfl⟩
  unfold inscriptionRole
  by_cases ht : truthy role = true
  · by_cases hin : (["user", "admin", "super_admin"].any
        (fun r => strictEq (JsValue.str r) role)) = true
    · simp only [ht, hin, Bool.not_true, Bool.and_false, Bool.false_eq_true, if_false]
      simp only [List.any_cons, List.any_nil, Bool.or_false, Bool.or_eq_true] at hin
      rcases hin with h | h | h <;>
        (rw [strictEq_eq_true_iff] at h
         rw [← h.1]
         rfl)
    · simp [ht, hin]
  · have hf : truthy role = false := by simpa using ht
    simp only [hf, Bool.false_and, Bool.false_eq_true, if_false, Bool.not_false, if_true]
    cases strictEq typeCompte (JsValue.str "admin") <;> rfl

/-- C26: whenever `updateEntreprise` has built its update document,
`dateModification` is set in it, to the current instant, and every other key
is a path that comes from a field present in the body, with exactly the
value supplied for it (the entries of a `documents` array being normalised):
nothing the body does not provide is written. The document is built for
every body in which no entry of `conventions` or `contact` and no element of
`documents` is `null`. -/
theorem updateData_only_from_provided (body : Props) (now : Int) :
    (∀ updateData, buildUpdateData body now = Except.ok updateData →
      hasProp updateData "dateModification" = true
      ∧ getProp updateData "dateModification" = JsValue.date now
      ∧ ∀ k, hasProp updateData k = true → k ≠ "dateModification" →
          Provided body now k (getProp updateData k))
    ∧ ((∀ e ∈ ownEntries (getProp body "conventions"), e.2 ≠ JsValue.null) →
        (∀ e ∈ ownEntries (getProp body "contact"), e.2 ≠ JsValue.null) →
        (∀ d ∈ listOf (getProp body "documents"), d ≠ JsValue.null ∧ d ≠ JsValue.undefined) →
        ∃ updateData, buildUpdateData body now = Except.ok updateData) := by
  constructor
  · intro u h
    obtain ⟨u0, hu, hp⟩ := buildUpdateData_sound body now u h
    subst hu
    refine ⟨by simp [hasProp_setProp], getProp_setProp_same _ _ _, fun k hk hne => ?_⟩
    rw [getProp_setProp_other _ _ _ _ hne]
    rw [hasProp_setProp] at hk
    simp [hne] at hk
    exact hp k hk
  · exact buildUpdateData_ok body now

/-- Witness for C26: for a body with a city, a nested contact and a document,
the update document is built, `dateModification` is the current instant, and
the path `contact.adresse.rue` holds the street supplied in the body. -/
theorem updateData_only_from_provided_witness :
    ∃ updateData, buildUpdateData sampleUpdateBody 1700000000000 = Except.ok updateData
      ∧ getProp updateData "dateModification" = JsValue.date 1700000000000
      ∧ objectKeys updateData
          = ["identification.ville", "contact.telephone", "contact.adresse.rue", "documents",
             "dateModification"]
      ∧ Provided sampleUpdateBody 1700000000000 "contact.adresse.rue"
          (getProp updateData "contact.adresse.rue")
      ∧ getProp updateData "contact.adresse.rue" = JsValue.str "Joss" := by
  have h := (updateData_only_from_provided sampleUpdateBody 1700000000000).1 _ rfl
  exact ⟨_, rfl, h.2.1, by decide, h.2.2 "contact.adresse.rue" rfl (by decide), rfl⟩

/-- C28 (the code at the failing input): for a body whose `conventions`, or
whose `contact`, holds a `null` entry, the loop takes `typeof null ===
'object'` for an object and `Object.keys(null)` throws; the construction of
the update document raises a TypeError at every instant and the handler
answers 500. An element `null` of `documents` throws likewise. -/
theorem update_builder_throws_on_null :
    (∀ now : Int,
      buildUpdateData [("conventions", JsValue.obj [("respectDelaisReporting", JsValue.null)])]
          now
        = Except.error "Cannot convert undefined or null to object")
    ∧ (∀ now : Int,
      buildUpdateData [("contact", JsValue.obj [("adresse", JsValue.null)])] now
        = Except.error "Cannot convert undefined or null to object")
    ∧ (∀ now : Int,
      buildUpdateData [("documents", JsValue.arr [JsValue.null])] now
        = Except.error "Cannot read properties of null (reading \x27originalName\x27)")
    ∧ (∀ (findByIdAndUpdate : Props → Except String (Option Props)) (now : Int),
      updateEntreprise [] findByIdAndUpdate
          [("conventions", JsValue.obj [("respectDelaisReporting", JsValue.null)])] now
        = { status := 500,
            body := JsValue.obj [("success", JsValue.bool false),
              ("message", JsValue.str "Erreur lors de la mise à jour de l\x27entreprise"),
              ("error", JsValue.str "Cannot convert undefined or null to object")] }) :=
  ⟨fun _ => rfl, fun _ => rfl, fun _ => rfl, fun _ _ => rfl⟩

end ApiWeb
